import Mathlib

/-!
# Wasabee-Server: task store, Firebase handlers, notification bus and http handlers

A shallow embedding of the task, dependency and assignment store of
`model/task.go`.  The SQL store behind the package-level `db` handle is kept as
three explicit tables (`depends`, `assignments`, `task`), every storage call
(`db.Begin`, `Exec`, `Query`, `rows.Scan`, `Commit`, `Rollback`) draws its
outcome from an explicit list of faults, and a Go call ends in one of three
ways: it returns a nil error, it returns an error, or it panics.

The handlers of `Firebase/messaging.go` are embedded over a second state: the
tokens stored for the agents, the log of the calls made to the Firebase client,
and the outcomes of the calls to come.

The smaller parts follow: the update loop of `Telegram/bot.go`, the language
selection and the redirect after login of the http package and the newline
normalisation of `model_simple.go` (strings as bytes), the notification bus of
the specification, and the agent message handlers of `http/agent.go`.
-/

namespace Wasabee

/-! ## Identifiers and the Task value -/

abbrev TaskID := String
abbrev GoogleID := String
abbrev OperationID := String
abbrev Zone := Int
abbrev StorageError := String

/-- Go struct `Task` of model/task.go. -/
structure Task where
  ID : TaskID
  Assignments : List GoogleID
  DependsOn : List TaskID
  Zone : Zone
  DeltaMinutes : Int
  State : String
  Comment : String
  Order : Int
  opID : OperationID
deriving DecidableEq

/-! ## The storage tables

The columns are the ones the SQL statements of task.go name. -/

/-- Row of table `depends (opID, taskID, dependsOn)`. -/
structure DependsRow where
  opID : OperationID
  taskID : TaskID
  dependsOn : TaskID
deriving DecidableEq

/-- Row of table `assignments (opID, taskID, gid)`. -/
structure AssignmentRow where
  opID : OperationID
  taskID : TaskID
  gid : GoogleID
deriving DecidableEq

/-- Row of table `task`; the columns are those written by the UPDATE statements of task.go. -/
structure TaskRow where
  ID : TaskID
  opID : OperationID
  state : String
  comment : String
  zone : Zone
  order : Int
deriving DecidableEq

/-- The three tables the task store reads and writes. -/
structure Tables where
  depends : List DependsRow
  assignments : List AssignmentRow
  task : List TaskRow
deriving DecidableEq

/-- The write statements issued by task.go, with their bound arguments in the order of the source. -/
inductive Stmt where
  /-- Statement `DELETE FROM depends WHERE opID = ? AND taskID = ?`. -/
  | deleteDepends (op : OperationID) (t : TaskID)
  /-- Statement `INSERT INTO depends (opID, taskID, dependsOn) VALUES (?, ?, ?)`. -/
  | insertDepends (op : OperationID) (t : TaskID) (d : TaskID)
  /-- Statement `DELETE FROM assignments WHERE taskID = ? AND opID = ?`. -/
  | deleteAssignments (t : TaskID) (op : OperationID)
  /-- Statement `INSERT INTO assignments (opID, taskID, gid) VALUES (?, ?, ?)`. -/
  | insertAssignment (op : OperationID) (t : TaskID) (gid : GoogleID)
  /-- Statement `DELETE FROM assignments WHERE opID = ? AND taskID = ? AND gid = ?`. -/
  | deleteAssignment (op : OperationID) (t : TaskID) (gid : GoogleID)
  /-- Statement `UPDATE task SET state = s WHERE ID = ? AND opID = ?`, s a literal of the source. -/
  | updateState (s : String) (id : TaskID) (op : OperationID)
deriving DecidableEq

/-- One row under `UPDATE task SET state = s WHERE ID = id AND opID = op`. -/
def setState (s : String) (id : TaskID) (op : OperationID) (r : TaskRow) : TaskRow :=
  if r.ID == id && r.opID == op then ⟨r.ID, r.opID, s, r.comment, r.zone, r.order⟩ else r

/-- Effect of a statement that the store executed without error. -/
def Stmt.run : Stmt → Tables → Tables
  | .deleteDepends op t, tb =>
      ⟨tb.depends.filter (fun r => !(r.opID == op && r.taskID == t)), tb.assignments, tb.task⟩
  | .insertDepends op t d, tb =>
      ⟨tb.depends ++ [⟨op, t, d⟩], tb.assignments, tb.task⟩
  | .deleteAssignments t op, tb =>
      ⟨tb.depends, tb.assignments.filter (fun r => !(r.taskID == t && r.opID == op)), tb.task⟩
  | .insertAssignment op t gid, tb =>
      ⟨tb.depends, tb.assignments ++ [⟨op, t, gid⟩], tb.task⟩
  | .deleteAssignment op t gid, tb =>
      ⟨tb.depends,
        tb.assignments.filter (fun r => !(r.opID == op && r.taskID == t && r.gid == gid)), tb.task⟩
  | .updateState s id op, tb =>
      ⟨tb.depends, tb.assignments, tb.task.map (setState s id op)⟩

/-! ## Storage calls and their failures -/

/-- Outcomes of the storage calls still to come, in call order: `some e` makes the call fail
with error `e`, `none` lets it succeed; calls past the end of the list succeed. -/
abbrev Faults := List (Option StorageError)

/-- Outcome of the next storage call. -/
def nextFault : Faults → Option StorageError
  | [] => none
  | f :: _ => f

/-- The committed tables behind the handle `db`, and the outcomes of the calls to come. -/
structure World where
  db : Tables
  faults : Faults
deriving DecidableEq

/-- An open `*sql.Tx`: its working tables and whether it was committed or rolled back. -/
structure Tx where
  work : Tables
  done : Bool
deriving DecidableEq

/-- Error `sql.ErrTxDone`. -/
def ErrTxDone : StorageError := "sql: transaction has already been committed or rolled back"

/-- How a Go call of the store ends: `return nil`, `return err`, or a run-time panic
(a method called on a nil `*sql.Tx`). -/
inductive Ret where
  | nil
  | err (e : StorageError)
  | panic
deriving DecidableEq

/-- Go conversion of an `error` value to the way the call ends. -/
def Ret.ofError : Option StorageError → Ret
  | none => .nil
  | some e => .err e

/-- Call `db.Exec(stmt)`: one statement, committed at once. A failed statement changes nothing. -/
def dbExec (s : Stmt) (w : World) : Option StorageError × World :=
  match nextFault w.faults with
  | some e => (some e, ⟨w.db, w.faults.tail⟩)
  | none => (none, ⟨s.run w.db, w.faults.tail⟩)

/-- Call `db.Begin()`: the pair (tx, err); tx is nil when err is not. -/
def dbBegin (w : World) : Option Tx × Option StorageError × World :=
  match nextFault w.faults with
  | some e => (none, some e, ⟨w.db, w.faults.tail⟩)
  | none => (some ⟨w.db, false⟩, none, ⟨w.db, w.faults.tail⟩)

/-- Call `tx.Exec(stmt)` on a non-nil transaction. -/
def txExec (s : Stmt) (tx : Tx) (fs : Faults) : Option StorageError × Tx × Faults :=
  if tx.done then (some ErrTxDone, tx, fs)
  else
    match nextFault fs with
    | some e => (some e, tx, fs.tail)
    | none => (none, ⟨s.run tx.work, false⟩, fs.tail)

/-- Call `tx.Commit()`: on success the working tables become the committed ones; the
transaction is done afterwards either way. -/
def txCommit (tx : Tx) (w : World) : Option StorageError × Tx × World :=
  if tx.done then (some ErrTxDone, tx, w)
  else
    match nextFault w.faults with
    | some e => (some e, ⟨tx.work, true⟩, ⟨w.db, w.faults.tail⟩)
    | none => (none, ⟨tx.work, true⟩, ⟨tx.work, w.faults.tail⟩)

/-- Call `tx.Rollback()`: the working tables are dropped, the committed ones stay. -/
def txRollback (tx : Tx) (w : World) : Option StorageError × Tx × World :=
  if tx.done then (some ErrTxDone, tx, w)
  else (nextFault w.faults, ⟨tx.work, true⟩, ⟨w.db, w.faults.tail⟩)

/-! ## Dependencies -/

/-- The loop `for _, depend := range d` of SetDepends, inside transaction tx. -/
def SetDepends.inserts (t : Task) : List TaskID → Tx → Faults → Option StorageError × Tx × Faults
  | [], tx, fs => (none, tx, fs)
  | depend :: rest, tx, fs =>
    match txExec (.insertDepends t.opID t.ID depend) tx fs with
    | (some e, tx1, fs1) => (some e, tx1, fs1)
    | (none, tx1, fs1) => SetDepends.inserts t rest tx1 fs1

/-- The statements of SetDepends between the transaction set-up and the commit. -/
def SetDepends.body (t : Task) (d : List TaskID) (tx : Tx) (fs : Faults) :
    Option StorageError × Tx × Faults :=
  match txExec (.deleteDepends t.opID t.ID) tx fs with
  | (some e, tx1, fs1) => (some e, tx1, fs1)
  | (none, tx1, fs1) => SetDepends.inserts t d tx1 fs1

/-- Method `(t *Task) SetDepends(d []TaskID, tx *sql.Tx) error`. The result holds the way
the call ends, the caller's transaction after the call (none when the caller passed nil) and
the world. With a nil tx the error of `db.Begin` is discarded (`tx, _ = db.Begin()`), so a
failed Begin leaves tx nil and the first `tx.Exec` panics. The deferred Rollback runs on
every return of the nil-tx path. -/
def SetDepends (t : Task) (d : List TaskID) (tx : Option Tx) (w : World) :
    Ret × Option Tx × World :=
  match tx with
  | some tx0 =>
    match SetDepends.body t d tx0 w.faults with
    | (some e, tx1, fs1) => (.err e, some tx1, ⟨w.db, fs1⟩)
    | (none, tx1, fs1) => (.nil, some tx1, ⟨w.db, fs1⟩)
  | none =>
    match dbBegin w with
    | (none, _, w1) => (.panic, none, w1)
    | (some tx0, _, w1) =>
      match SetDepends.body t d tx0 w1.faults with
      | (some e, tx1, fs1) => (.err e, none, (txRollback tx1 ⟨w1.db, fs1⟩).2.2)
      | (none, tx1, fs1) =>
        match txCommit tx1 ⟨w1.db, fs1⟩ with
        | (some e, tx2, w2) => (.err e, none, (txRollback tx2 w2).2.2)
        | (none, tx2, w2) => (.nil, none, (txRollback tx2 w2).2.2)

/-- A Go map with string keys, kept as an association list with distinct keys. -/
abbrev GoMap (ν : Type) := List (String × ν)

/-- Assignment `m[k] = v`. -/
def GoMap.set {ν : Type} : GoMap ν → String → ν → GoMap ν
  | [], k, v => [(k, v)]
  | (k1, v1) :: rest, k, v =>
    if k1 == k then (k, v) :: rest else (k1, v1) :: GoMap.set rest k v

/-- Lookup `v, ok := m[k]`. -/
def GoMap.get {ν : Type} : GoMap ν → String → Option ν
  | [], _ => none
  | (k1, v1) :: rest, k => if k1 == k then some v1 else GoMap.get rest k

/-- The loop `for rows.Next()` of dependsPrecache over the selected rows: a row whose Scan
fails is logged and skipped. -/
def dependsPrecache.rows :
    GoMap (List TaskID) → List (TaskID × TaskID) → Faults → GoMap (List TaskID) × Faults
  | buf, [], fs => (buf, fs)
  | buf, (t, d) :: rest, fs =>
    match nextFault fs with
    | some _ => dependsPrecache.rows buf rest fs.tail
    | none =>
      match GoMap.get buf t with
      | none => dependsPrecache.rows (GoMap.set buf t [d]) rest fs.tail
      | some old => dependsPrecache.rows (GoMap.set buf t (old ++ [d])) rest fs.tail

/-- Method `(o OperationID) dependsPrecache() (map[TaskID][]TaskID, error)`. -/
def dependsPrecache (o : OperationID) (w : World) :
    GoMap (List TaskID) × Option StorageError × World :=
  match nextFault w.faults with
  | some e => ([], some e, ⟨w.db, w.faults.tail⟩)
  | none =>
    let sel := (w.db.depends.filter (fun r => r.opID == o)).map (fun r => (r.taskID, r.dependsOn))
    let out := dependsPrecache.rows [] sel w.faults.tail
    (out.1, none, ⟨w.db, out.2⟩)

/-! ## Assignments -/

/-- The loop `for rows.Next()` of GetAssignments over the selected rows. -/
def GetAssignments.rows : List GoogleID → List GoogleID → Faults → List GoogleID × Faults
  | tmp, [], fs => (tmp, fs)
  | tmp, g :: rest, fs =>
    match nextFault fs with
    | some _ => GetAssignments.rows tmp rest fs.tail
    | none => GetAssignments.rows (tmp ++ [g]) rest fs.tail

/-- Method `(t *Task) GetAssignments() ([]GoogleID, error)`. -/
def GetAssignments (t : Task) (w : World) : List GoogleID × Option StorageError × World :=
  if t.ID = "" then ([], none, w)
  else
    match nextFault w.faults with
    | some e => ([], some e, ⟨w.db, w.faults.tail⟩)
    | none =>
      let sel := (w.db.assignments.filter (fun r => r.opID == t.opID && r.taskID == t.ID)).map
        (fun r => r.gid)
      let out := GetAssignments.rows [] sel w.faults.tail
      (out.1, none, ⟨w.db, out.2⟩)

/-- The two statements of ClearAssignments on a non-nil transaction. -/
def ClearAssignments.body (t : Task) (tx : Tx) (fs : Faults) : Option StorageError × Tx × Faults :=
  match txExec (.deleteAssignments t.ID t.opID) tx fs with
  | (some e, tx1, fs1) => (some e, tx1, fs1)
  | (none, tx1, fs1) =>
    match txExec (.updateState "pending" t.ID t.opID) tx1 fs1 with
    | (some e, tx2, fs2) => (some e, tx2, fs2)
    | (none, tx2, fs2) => (none, tx2, fs2)

/-- Method `(t *Task) ClearAssignments(tx *sql.Tx) error`; a nil tx panics at `tx.Exec`. -/
def ClearAssignments (t : Task) (tx : Option Tx) (fs : Faults) : Ret × Option Tx × Faults :=
  match tx with
  | none => (.panic, none, fs)
  | some tx0 =>
    match ClearAssignments.body t tx0 fs with
    | (some e, tx1, fs1) => (.err e, some tx1, fs1)
    | (none, tx1, fs1) => (.nil, some tx1, fs1)

/-- The loop `for _, gid := range t.Assignments` of Assign: blank ids are skipped. -/
def Assign.inserts (t : Task) : List GoogleID → Tx → Faults → Option StorageError × Tx × Faults
  | [], tx, fs => (none, tx, fs)
  | gid :: rest, tx, fs =>
    if gid = "" then Assign.inserts t rest tx fs
    else
      match txExec (.insertAssignment t.opID t.ID gid) tx fs with
      | (some e, tx1, fs1) => (some e, tx1, fs1)
      | (none, tx1, fs1) => Assign.inserts t rest tx1 fs1

/-- The statements of Assign between the transaction set-up and the commit. -/
def Assign.body (t : Task) (tx : Tx) (fs : Faults) : Option StorageError × Tx × Faults :=
  match ClearAssignments.body t tx fs with
  | (some e, tx1, fs1) => (some e, tx1, fs1)
  | (none, tx1, fs1) =>
    if t.Assignments.length > 0 then
      match Assign.inserts t t.Assignments tx1 fs1 with
      | (some e, tx2, fs2) => (some e, tx2, fs2)
      | (none, tx2, fs2) =>
        match txExec (.updateState "assigned" t.ID t.opID) tx2 fs2 with
        | (some e, tx3, fs3) => (some e, tx3, fs3)
        | (none, tx3, fs3) => (none, tx3, fs3)
    else (none, tx1, fs1)

/-- Method `(t *Task) Assign(tx *sql.Tx) error`; the result is laid out as for SetDepends. -/
def Assign (t : Task) (tx : Option Tx) (w : World) : Ret × Option Tx × World :=
  match tx with
  | some tx0 =>
    match Assign.body t tx0 w.faults with
    | (some e, tx1, fs1) => (.err e, some tx1, ⟨w.db, fs1⟩)
    | (none, tx1, fs1) => (.nil, some tx1, ⟨w.db, fs1⟩)
  | none =>
    match dbBegin w with
    | (none, _, w1) => (.panic, none, w1)
    | (some tx0, _, w1) =>
      match Assign.body t tx0 w1.faults with
      | (some e, tx1, fs1) => (.err e, none, (txRollback tx1 ⟨w1.db, fs1⟩).2.2)
      | (none, tx1, fs1) =>
        match txCommit tx1 ⟨w1.db, fs1⟩ with
        | (some e, tx2, w2) => (.err e, none, (txRollback tx2 w2).2.2)
        | (none, tx2, w2) => (.nil, none, (txRollback tx2 w2).2.2)

/-- Method `(t *Task) Claim(gid GoogleID) error`: two statements on `db`, no transaction. -/
def Claim (t : Task) (gid : GoogleID) (w : World) : Ret × World :=
  match dbExec (.updateState "assigned" t.ID t.opID) w with
  | (some e, w1) => (.err e, w1)
  | (none, w1) =>
    match dbExec (.insertAssignment t.opID t.ID gid) w1 with
    | (some e, w2) => (.err e, w2)
    | (none, w2) => (.nil, w2)

/-- Method `(t *Task) Complete() error`. -/
def Complete (t : Task) (w : World) : Ret × World :=
  match dbExec (.updateState "completed" t.ID t.opID) w with
  | (some e, w1) => (.err e, w1)
  | (none, w1) => (.nil, w1)

/-- Method `(t *Task) Incomplete() error`. -/
def Incomplete (t : Task) (w : World) : Ret × World :=
  match dbExec (.updateState "assigned" t.ID t.opID) w with
  | (some e, w1) => (.err e, w1)
  | (none, w1) => (.nil, w1)

/-- Method `(t *Task) Acknowledge() error`. -/
def Acknowledge (t : Task) (w : World) : Ret × World :=
  match dbExec (.updateState "acknowledged" t.ID t.opID) w with
  | (some e, w1) => (.err e, w1)
  | (none, w1) => (.nil, w1)

/-- Method `(t *Task) Reject(gid GoogleID) error`: two statements on `db`, no transaction. -/
def Reject (t : Task) (gid : GoogleID) (w : World) : Ret × World :=
  match dbExec (.updateState "pending" t.ID t.opID) w with
  | (some e, w1) => (.err e, w1)
  | (none, w1) =>
    match dbExec (.deleteAssignment t.opID t.ID gid) w1 with
    | (some e, w2) => (.err e, w2)
    | (none, w2) => (.nil, w2)

/-! ## Observations on the tables -/

/-- Dependency edges stored for task (op, id): the dependsOn column of its rows, in row order. -/
def dependsOf (tb : Tables) (op : OperationID) (id : TaskID) : List TaskID :=
  (tb.depends.filter (fun r => r.opID == op && r.taskID == id)).map (fun r => r.dependsOn)

/-- Agents assigned to task (op, id): the gid column of its assignment rows, in row order. -/
def assigneesOf (tb : Tables) (op : OperationID) (id : TaskID) : List GoogleID :=
  (tb.assignments.filter (fun r => r.opID == op && r.taskID == id)).map (fun r => r.gid)

/-- States of the rows of table task for task (op, id), in row order. -/
def statesOf (tb : Tables) (op : OperationID) (id : TaskID) : List String :=
  (tb.task.filter (fun r => r.ID == id && r.opID == op)).map (fun r => r.state)

/-- State of task (op, id): the state column of its first row in table task, if it has one. -/
def stateOf (tb : Tables) (op : OperationID) (id : TaskID) : Option String :=
  (statesOf tb op id).head?


/-- Tables a call wrote to: the working tables of the caller's transaction when the caller
passed one, the committed tables when the call ran in a transaction of its own. -/
def written (r : Ret × Option Tx × World) : Tables :=
  match r.2.1 with
  | some tx => tx.work
  | none => r.2.2.db

/-- Tables a call sees when it starts: the working tables of the caller's transaction when
the caller passed one, the committed tables otherwise. -/
def seen (tx : Option Tx) (w : World) : Tables :=
  match tx with
  | some tx0 => tx0.work
  | none => w.db

/-! ## Statement sequences

The bodies of SetDepends and Assign are runs of statements that stop at the first failure. -/

/-- Statements executed in order inside a transaction, stopping at the first failure. -/
def runStmts : List Stmt → Tx → Faults → Option StorageError × Tx × Faults
  | [], tx, fs => (none, tx, fs)
  | s :: rest, tx, fs =>
    match txExec s tx fs with
    | (some e, tx1, fs1) => (some e, tx1, fs1)
    | (none, tx1, fs1) => runStmts rest tx1 fs1

/-- Effect of a run of statements that all succeeded. -/
def runAll (ss : List Stmt) (tb : Tables) : Tables :=
  ss.foldl (fun acc s => s.run acc) tb

/-- The first failure among the next n storage calls, if there is one. -/
def firstFault : Nat → Faults → Option StorageError
  | 0, _ => none
  | n + 1, fs =>
    match nextFault fs with
    | some e => some e
    | none => firstFault n fs.tail

/-- The set-up shared by SetDepends and Assign when the caller passes a nil tx: begin (error
discarded), body, commit, deferred rollback. -/
def inOwnTx (body : Tx → Faults → Option StorageError × Tx × Faults) (w : World) :
    Ret × Option Tx × World :=
  match dbBegin w with
  | (none, _, w1) => (.panic, none, w1)
  | (some tx0, _, w1) =>
    match body tx0 w1.faults with
    | (some e, tx1, fs1) => (.err e, none, (txRollback tx1 ⟨w1.db, fs1⟩).2.2)
    | (none, tx1, fs1) =>
      match txCommit tx1 ⟨w1.db, fs1⟩ with
      | (some e, tx2, w2) => (.err e, none, (txRollback tx2 w2).2.2)
      | (none, tx2, w2) => (.nil, none, (txRollback tx2 w2).2.2)

/-- The same bodies run in a transaction the caller supplied: no commit, no rollback. -/
def inCallerTx (body : Tx → Faults → Option StorageError × Tx × Faults) (tx0 : Tx) (w : World) :
    Ret × Option Tx × World :=
  match body tx0 w.faults with
  | (some e, tx1, fs1) => (.err e, some tx1, ⟨w.db, fs1⟩)
  | (none, tx1, fs1) => (.nil, some tx1, ⟨w.db, fs1⟩)

/-- Statements of SetDepends, in order. -/
def SetDepends.stmts (t : Task) (d : List TaskID) : List Stmt :=
  Stmt.deleteDepends t.opID t.ID :: d.map (fun x => Stmt.insertDepends t.opID t.ID x)

/-- Statements of ClearAssignments, in order. -/
def ClearAssignments.stmts (t : Task) : List Stmt :=
  [Stmt.deleteAssignments t.ID t.opID, Stmt.updateState "pending" t.ID t.opID]

/-- Statements of Assign, in order. -/
def Assign.stmts (t : Task) : List Stmt :=
  ClearAssignments.stmts t ++
    (if t.Assignments.length > 0 then
      (t.Assignments.filter (fun g => g ≠ "")).map (fun g => Stmt.insertAssignment t.opID t.ID g)
        ++ [Stmt.updateState "assigned" t.ID t.opID]
    else [])

/-! ## The assignment invariant and sequences of calls -/

/-- No task that has an assignment row is in state pending. -/
def NoPendingAssigned (tb : Tables) : Prop :=
  ∀ a ∈ tb.assignments, ∀ r ∈ tb.task, r.ID = a.taskID → r.opID = a.opID → r.state ≠ "pending"

instance NoPendingAssigned.decidable (tb : Tables) : Decidable (NoPendingAssigned tb) :=
  inferInstanceAs (Decidable (∀ a ∈ tb.assignments, ∀ r ∈ tb.task,
    r.ID = a.taskID → r.opID = a.opID → r.state ≠ "pending"))

/-- The calls that change the state or the assignment rows of a task. -/
inductive Call where
  | assign (t : Task)
  | clearAssignments (t : Task)
  | claim (t : Task) (gid : GoogleID)
  | reject (t : Task) (gid : GoogleID)
  | acknowledge (t : Task)
  | complete (t : Task)
  | incomplete (t : Task)

/-- Call c, made on tables tb, returned nil and left tables tb1. Assign and ClearAssignments
see and write the tables of their transaction, the other calls the committed tables. -/
def Call.succeeds : Call → Tables → Tables → Prop
  | .assign t, tb, tb1 =>
    ∃ tx w, (Assign t tx w).1 = Ret.nil ∧ seen tx w = tb ∧ written (Assign t tx w) = tb1
  | .clearAssignments t, tb, tb1 =>
    ∃ tx0 fs tx1, (ClearAssignments t (some tx0) fs).1 = Ret.nil ∧
      (ClearAssignments t (some tx0) fs).2.1 = some tx1 ∧ tx0.work = tb ∧ tx1.work = tb1
  | .claim t g, tb, tb1 =>
    ∃ fs, (Claim t g ⟨tb, fs⟩).1 = Ret.nil ∧ (Claim t g ⟨tb, fs⟩).2.db = tb1
  | .reject t g, tb, tb1 =>
    ∃ fs, (Reject t g ⟨tb, fs⟩).1 = Ret.nil ∧ (Reject t g ⟨tb, fs⟩).2.db = tb1
  | .acknowledge t, tb, tb1 =>
    ∃ fs, (Acknowledge t ⟨tb, fs⟩).1 = Ret.nil ∧ (Acknowledge t ⟨tb, fs⟩).2.db = tb1
  | .complete t, tb, tb1 =>
    ∃ fs, (Complete t ⟨tb, fs⟩).1 = Ret.nil ∧ (Complete t ⟨tb, fs⟩).2.db = tb1
  | .incomplete t, tb, tb1 =>
    ∃ fs, (Incomplete t ⟨tb, fs⟩).1 = Ret.nil ∧ (Incomplete t ⟨tb, fs⟩).2.db = tb1

/-- Tables reached from tb by the calls cs, each returning nil, each allowed by `ok` on the
tables it is made on. -/
inductive Reaches (ok : Call → Tables → Prop) : List Call → Tables → Tables → Prop where
  | done (tb : Tables) : Reaches ok [] tb tb
  | step (c : Call) (cs : List Call) (tb tb1 tb2 : Tables) :
      ok c tb → c.succeeds tb tb1 → Reaches ok cs tb1 tb2 → Reaches ok (c :: cs) tb tb2

/-- No restriction on the calls. -/
def anyCall : Call → Tables → Prop := fun _ _ => True

/-- Restriction on Reject only: Reject(T, g) is made when T has no assignment row of an agent
other than g. -/
def rejectByLastAssignee : Call → Tables → Prop
  | .reject t g, tb => ∀ x ∈ assigneesOf tb t.opID t.ID, x = g
  | _, _ => True

/-- The task a call is addressed to. -/
def Call.task : Call → Task
  | .assign t => t
  | .clearAssignments t => t
  | .claim t _ => t
  | .reject t _ => t
  | .acknowledge t => t
  | .complete t => t
  | .incomplete t => t

/-- Tables a call leaves when it returns nil, as a function of the tables it is made on. -/
def Call.effect : Call → Tables → Tables
  | .assign t, tb => runAll (Assign.stmts t) tb
  | .clearAssignments t, tb => runAll (ClearAssignments.stmts t) tb
  | .claim t g, tb =>
    (Stmt.insertAssignment t.opID t.ID g).run ((Stmt.updateState "assigned" t.ID t.opID).run tb)
  | .reject t g, tb =>
    (Stmt.deleteAssignment t.opID t.ID g).run ((Stmt.updateState "pending" t.ID t.opID).run tb)
  | .acknowledge t, tb => (Stmt.updateState "acknowledged" t.ID t.opID).run tb
  | .complete t, tb => (Stmt.updateState "completed" t.ID t.opID).run tb
  | .incomplete t, tb => (Stmt.updateState "assigned" t.ID t.opID).run tb

/-! ## Operations and task lookup -/

/-- Modelled from the spec: struct Marker is declared outside model/task.go; a marker is a
task of the operation, and task.go reads only its embedded Task (`m.Task`, and `m.Order`
promoted from it). -/
structure Marker where
  Task : Task
deriving DecidableEq

/-- Modelled from the spec: struct Link is declared outside model/task.go; a link is a task of
the operation, and task.go reads only its embedded Task (`l.Task`, and `l.Order` promoted
from it). -/
structure Link where
  Task : Task
deriving DecidableEq

/-- Modelled from the spec: struct Operation is declared outside model/task.go; task.go reads
its lists of markers and of links. -/
structure Operation where
  ID : OperationID
  Markers : List Marker
  Links : List Link
deriving DecidableEq

/-- The Go value `Task{}`: every field zero. -/
def emptyTask : Task := ⟨"", [], [], 0, 0, "", "", 0, ""⟩

/-- The loop `for _, m := range o.Markers` of GetTask. -/
def GetTask.markers (taskID : TaskID) : List Marker → Option Task
  | [] => none
  | m :: rest => if m.Task.ID = taskID then some m.Task else GetTask.markers taskID rest

/-- The loop `for _, l := range o.Links` of GetTask. -/
def GetTask.links (taskID : TaskID) : List Link → Option Task
  | [] => none
  | l :: rest => if l.Task.ID = taskID then some l.Task else GetTask.links taskID rest

/-- Method `(o *Operation) GetTask(taskID TaskID) (*Task, error)`: the pointer returned (none
for nil) and the error. -/
def GetTask (o : Operation) (taskID : TaskID) : Option Task × Option String :=
  match GetTask.markers taskID o.Markers with
  | some t => (some t, none)
  | none =>
    match GetTask.links taskID o.Links with
    | some t => (some t, none)
    | none => (some emptyTask, some "task not found")

/-- The loop `for _, m := range o.Markers` of GetTaskByStepNumber. -/
def GetTaskByStepNumber.markers (step : Int) : List Marker → Option Task
  | [] => none
  | m :: rest =>
    if m.Task.Order = step then some m.Task else GetTaskByStepNumber.markers step rest

/-- The loop `for _, l := range o.Links` of GetTaskByStepNumber. -/
def GetTaskByStepNumber.links (step : Int) : List Link → Option Task
  | [] => none
  | l :: rest =>
    if l.Task.Order = step then some l.Task else GetTaskByStepNumber.links step rest

/-- Method `(o *Operation) GetTaskByStepNumber(step int16) (*Task, error)`. -/
def GetTaskByStepNumber (o : Operation) (step : Int) : Option Task × Option String :=
  match GetTaskByStepNumber.markers step o.Markers with
  | some t => (some t, none)
  | none =>
    match GetTaskByStepNumber.links step o.Links with
    | some t => (some t, none)
    | none => (some emptyTask, some "task not found")

/-- The task found by a scan of the markers, then of the links, for the first one that
satisfies p; none when no marker and no link does. -/
def firstTask (p : Task → Bool) (o : Operation) : Option Task :=
  match o.Markers.find? (fun m => p m.Task) with
  | some m => some m.Task
  | none =>
    match o.Links.find? (fun l => p l.Task) with
    | some l => some l.Task
    | none => none

/-- Method `(t *Task) IsAssignedTo(gid GoogleID) bool`: the count query is one storage call;
when it fails the error is logged and the answer is false. -/
def IsAssignedTo (t : Task) (gid : GoogleID) (w : World) : Bool × World :=
  match nextFault w.faults with
  | some _ => (false, ⟨w.db, w.faults.tail⟩)
  | none =>
    (decide ((w.db.assignments.filter
        (fun r => r.opID == t.opID && r.taskID == t.ID && r.gid == gid)).length = 1),
      ⟨w.db, w.faults.tail⟩)

/-! ## Firebase messaging (Firebase/messaging.go)

The handlers receive a `wasabee.FirebaseCmd` and talk to the Firebase client `c`. The client
and the token store of the agents are kept as an explicit state: the stored tokens, the log of
the calls made to `c.Send` with their outcome, the log of the topic calls, and the outcomes of
the calls to come. -/

abbrev TeamID := String

/-- Modelled from the spec: the command codes of the envelope (§6); type
`wasabee.FirebaseCommandCode` is declared outside Firebase/messaging.go. -/
inductive FirebaseCommandCode where
  | genericMessage
  | agentLocationChange
  | markerStatusChange
  | markerAssignmentChange
  | mapChange
  | linkStatusChange
  | linkAssignmentChange
  | agentLogin
  | subscribeToTeam
  | unsubscribeFromTeam
deriving DecidableEq

/-- Modelled from the spec: method `String()` of the command code, with the names of §6. -/
def FirebaseCommandCode.text : FirebaseCommandCode → String
  | .genericMessage => "generic-message"
  | .agentLocationChange => "agent-location-change"
  | .markerStatusChange => "marker-status-change"
  | .markerAssignmentChange => "marker-assignment-change"
  | .mapChange => "map-change"
  | .linkStatusChange => "link-status-change"
  | .linkAssignmentChange => "link-assignment-change"
  | .agentLogin => "agent-login"
  | .subscribeToTeam => "subscribe-to-team"
  | .unsubscribeFromTeam => "unsubscribe-from-team"

/-- Modelled from the spec: the command envelope `wasabee.FirebaseCmd`, declared outside
Firebase/messaging.go, with the fields the handlers read. -/
structure FirebaseCmd where
  Cmd : FirebaseCommandCode
  TeamID : TeamID
  OpID : OperationID
  ObjID : String
  Gid : GoogleID
  Msg : String
deriving DecidableEq

/-- The fields of `messaging.Message` the handlers set; the Go map Data is kept as the list
of its entries in the order of the literal. -/
structure Message where
  Token : String
  Topic : String
  Data : List (String × String)
deriving DecidableEq

/-- One call of `c.Send`: the message handed over and whether the call returned no error. -/
structure SendCall where
  msg : Message
  ok : Bool
deriving DecidableEq

/-- One call of `c.SubscribeToTopic` (subscribe true) or `c.UnsubscribeFromTopic`. -/
structure TopicCall where
  subscribe : Bool
  tokens : List String
  topic : String
deriving DecidableEq

/-- Entry of `messaging.TopicManagementResponse.Errors`. -/
structure ErrorInfo where
  Index : Int
  Reason : String
deriving DecidableEq

/-- Type `messaging.TopicManagementResponse`. -/
structure TopicManagementResponse where
  SuccessCount : Int
  FailureCount : Int
  Errors : List ErrorInfo
deriving DecidableEq

/-- State around the handlers: stored tokens as rows (gid, token), calls of `c.Send` so far,
topic calls so far, outcomes of the token lookups and sends to come. -/
structure FbWorld where
  tokens : List (GoogleID × String)
  sends : List SendCall
  topicCalls : List TopicCall
  faults : Faults
deriving DecidableEq

/-- Tokens stored for an agent, in row order. -/
def tokensOf (w : FbWorld) (gid : GoogleID) : List String :=
  (w.tokens.filter (fun r => r.1 == gid)).map (fun r => r.2)

/-- Modelled from the spec: method `GoogleID.FirebaseTokens`, declared outside src/, is the
`resolveTokens(agent)` of the identity layer: the tokens stored for the agent, or an error. -/
def FirebaseTokens (gid : GoogleID) (w : FbWorld) : List String × Option String × FbWorld :=
  match nextFault w.faults with
  | some e => ([], some e, ⟨w.tokens, w.sends, w.topicCalls, w.faults.tail⟩)
  | none => (tokensOf w gid, none, ⟨w.tokens, w.sends, w.topicCalls, w.faults.tail⟩)

/-- Modelled from the spec: method `GoogleID.FirebaseRemoveToken`, declared outside src/, is
the pruning of the identity layer: afterwards the token is no longer returned for the agent. -/
def FirebaseRemoveToken (gid : GoogleID) (token : String) (w : FbWorld) : FbWorld :=
  ⟨w.tokens.filter (fun r => !(r.1 == gid && r.2 == token)), w.sends, w.topicCalls, w.faults⟩

/-- Call `c.Send(ctx, &msg)`: logged with its outcome. -/
def clientSend (m : Message) (w : FbWorld) : Option String × FbWorld :=
  match nextFault w.faults with
  | some e => (some e, ⟨w.tokens, w.sends ++ [⟨m, false⟩], w.topicCalls, w.faults.tail⟩)
  | none => (none, ⟨w.tokens, w.sends ++ [⟨m, true⟩], w.topicCalls, w.faults.tail⟩)

/-- The loop `for _, token := range tokens` of genericMessage. -/
def genericMessage.loop (fb : FirebaseCmd) : List String → FbWorld → Ret × FbWorld
  | [], w => (.nil, w)
  | token :: rest, w =>
    if token = "" then genericMessage.loop fb rest w
    else
      match clientSend ⟨token, "", [("msg", fb.Msg), ("cmd", fb.Cmd.text)]⟩ w with
      | (some e, w1) => (.err e, w1)
      | (none, w1) => genericMessage.loop fb rest w1

/-- Handler `genericMessage(ctx, c, fb) error`. -/
def genericMessage (fb : FirebaseCmd) (w : FbWorld) : Ret × FbWorld :=
  if fb.Gid = "" then (.nil, w)
  else
    match FirebaseTokens fb.Gid w with
    | (_, some e, w1) => (.err e, w1)
    | (tokens, none, w1) => genericMessage.loop fb tokens w1

/-- Handler `agentLocationChange(ctx, c, fb) error`. -/
def agentLocationChange (fb : FirebaseCmd) (w : FbWorld) : Ret × FbWorld :=
  if fb.TeamID = "" then (.err "only send location changes to teams", w)
  else
    match clientSend
      ⟨"", fb.TeamID, [("gid", fb.Gid), ("msg", fb.Msg), ("cmd", fb.Cmd.text)]⟩ w with
    | (some e, w1) => (.err e, w1)
    | (none, w1) => (.nil, w1)

/-- Handler `markerStatusChange(ctx, c, fb) error`. -/
def markerStatusChange (fb : FirebaseCmd) (w : FbWorld) : Ret × FbWorld :=
  if fb.TeamID = "" then (.err "only send status changes to teams", w)
  else
    match clientSend ⟨"", fb.TeamID,
      [("opID", fb.OpID), ("markerID", fb.ObjID), ("msg", fb.Msg), ("cmd", fb.Cmd.text)]⟩ w with
    | (some e, w1) => (.err e, w1)
    | (none, w1) => (.nil, w1)

/-- The loop `for _, token := range tokens` of markerAssignmentChange. -/
def markerAssignmentChange.loop (fb : FirebaseCmd) : List String → FbWorld → Ret × FbWorld
  | [], w => (.nil, w)
  | token :: rest, w =>
    if token = "" then markerAssignmentChange.loop fb rest w
    else
      match clientSend ⟨token, "",
        [("opID", fb.OpID), ("markerID", fb.ObjID), ("msg", fb.Msg), ("cmd", fb.Cmd.text)]⟩
        w with
      | (some e, w1) => (.err e, w1)
      | (none, w1) => markerAssignmentChange.loop fb rest w1

/-- Handler `markerAssignmentChange(ctx, c, fb) error`. -/
def markerAssignmentChange (fb : FirebaseCmd) (w : FbWorld) : Ret × FbWorld :=
  if fb.Gid = "" then (.nil, w)
  else
    match FirebaseTokens fb.Gid w with
    | (_, some e, w1) => (.err e, w1)
    | (tokens, none, w1) => markerAssignmentChange.loop fb tokens w1

/-- Handler `mapChange(ctx, c, fb) error`. -/
def mapChange (fb : FirebaseCmd) (w : FbWorld) : Ret × FbWorld :=
  if fb.TeamID = "" then (.err "only send status changes to teams", w)
  else
    match clientSend
      ⟨"", fb.TeamID, [("opID", fb.OpID), ("msg", fb.Msg), ("cmd", fb.Cmd.text)]⟩ w with
    | (some e, w1) => (.err e, w1)
    | (none, w1) => (.nil, w1)

/-- Handler `linkStatusChange(ctx, c, fb) error`. -/
def linkStatusChange (fb : FirebaseCmd) (w : FbWorld) : Ret × FbWorld :=
  if fb.TeamID = "" then (.err "only send status changes to teams", w)
  else
    match clientSend ⟨"", fb.TeamID,
      [("opID", fb.OpID), ("linkID", fb.ObjID), ("msg", fb.Msg), ("cmd", fb.Cmd.text)]⟩ w with
    | (some e, w1) => (.err e, w1)
    | (none, w1) => (.nil, w1)

/-- The loop `for _, token := range tokens` of linkAssignmentChange. -/
def linkAssignmentChange.loop (fb : FirebaseCmd) : List String → FbWorld → Ret × FbWorld
  | [], w => (.nil, w)
  | token :: rest, w =>
    if token = "" then linkAssignmentChange.loop fb rest w
    else
      match clientSend ⟨token, "",
        [("opID", fb.OpID), ("linkID", fb.ObjID), ("msg", fb.Msg), ("cmd", fb.Cmd.text)]⟩
        w with
      | (some e, w1) => (.err e, w1)
      | (none, w1) => linkAssignmentChange.loop fb rest w1

/-- Handler `linkAssignmentChange(ctx, c, fb) error`. -/
def linkAssignmentChange (fb : FirebaseCmd) (w : FbWorld) : Ret × FbWorld :=
  if fb.Gid = "" then (.nil, w)
  else
    match FirebaseTokens fb.Gid w with
    | (_, some e, w1) => (.err e, w1)
    | (tokens, none, w1) => linkAssignmentChange.loop fb tokens w1

/-- Handler `agentLogin(ctx, c, fb) error`. -/
def agentLogin (fb : FirebaseCmd) (w : FbWorld) : Ret × FbWorld :=
  if fb.TeamID = "" then (.err "only send status changes to teams", w)
  else
    match clientSend
      ⟨"", fb.TeamID, [("gid", fb.Gid), ("msg", fb.Msg), ("cmd", fb.Cmd.text)]⟩ w with
    | (some e, w1) => (.err e, w1)
    | (none, w1) => (.nil, w1)

/-- The loop `for _, f := range tmr.Errors` of subscribeToTeam; `tokens[f.Index]` panics when
the index is out of range. -/
def subscribeToTeam.errors (gid : GoogleID) (tokens : List String) :
    List ErrorInfo → FbWorld → Ret × FbWorld
  | [], w => (.nil, w)
  | f :: rest, w =>
    if f.Index < 0 then (.panic, w)
    else
      match tokens[f.Index.toNat]? with
      | none => (.panic, w)
      | some token => subscribeToTeam.errors gid tokens rest (FirebaseRemoveToken gid token w)

/-- Handler `subscribeToTeam(ctx, c, fb) error`. The pair `reply` is what the topic call of
the Firebase client returns: the response (none for nil) and the error. -/
def subscribeToTeam (fb : FirebaseCmd) (reply : Option TopicManagementResponse × Option String)
    (w : FbWorld) : Ret × FbWorld :=
  if fb.Gid = "" then (.nil, w)
  else if fb.TeamID = "" then (.nil, w)
  else
    match FirebaseTokens fb.Gid w with
    | (_, some e, w1) => (.err e, w1)
    | (tokens, none, w1) =>
      if tokens.length = 0 then (.nil, w1)
      else
        match reply with
        | (_, some e) =>
          (.err e, ⟨w1.tokens, w1.sends,
            w1.topicCalls ++ [⟨decide (fb.Msg = "subscribe"), tokens, fb.TeamID⟩], w1.faults⟩)
        | (none, none) =>
          (.nil, ⟨w1.tokens, w1.sends,
            w1.topicCalls ++ [⟨decide (fb.Msg = "subscribe"), tokens, fb.TeamID⟩], w1.faults⟩)
        | (some tmr, none) =>
          if tmr.FailureCount > 0 then
            subscribeToTeam.errors fb.Gid tokens tmr.Errors
              ⟨w1.tokens, w1.sends,
                w1.topicCalls ++ [⟨decide (fb.Msg = "subscribe"), tokens, fb.TeamID⟩],
                w1.faults⟩
          else
            (.nil, ⟨w1.tokens, w1.sends,
              w1.topicCalls ++ [⟨decide (fb.Msg = "subscribe"), tokens, fb.TeamID⟩],
              w1.faults⟩)

/-! ## Fan-out to the tokens of an agent -/

/-- Sends in order one message to each of the given tokens, stopping at the first send that
fails; `mk` builds the message for a token. -/
def fanOut (mk : String → Message) : List String → FbWorld → Ret × FbWorld
  | [], w => (.nil, w)
  | token :: rest, w =>
    match clientSend (mk token) w with
    | (some e, w1) => (.err e, w1)
    | (none, w1) => fanOut mk rest w1

/-- Message of genericMessage for a token. -/
def genericMsg (fb : FirebaseCmd) (token : String) : Message :=
  ⟨token, "", [("msg", fb.Msg), ("cmd", fb.Cmd.text)]⟩

/-- Message of markerAssignmentChange for a token. -/
def markerAssignmentMsg (fb : FirebaseCmd) (token : String) : Message :=
  ⟨token, "", [("opID", fb.OpID), ("markerID", fb.ObjID), ("msg", fb.Msg), ("cmd", fb.Cmd.text)]⟩

/-- Message of linkAssignmentChange for a token. -/
def linkAssignmentMsg (fb : FirebaseCmd) (token : String) : Message :=
  ⟨token, "", [("opID", fb.OpID), ("linkID", fb.ObjID), ("msg", fb.Msg), ("cmd", fb.Cmd.text)]⟩

/-- The non-blank tokens stored for the agent of an envelope, in order. -/
def nonBlankTokens (w : FbWorld) (gid : GoogleID) : List String :=
  (tokensOf w gid).filter (fun token => token ≠ "")

/-- A handler addressed to a team, on envelope fb in state w: with a team id it calls
`c.Send` once, with a message whose topic is the team id and whose token is empty, and returns
what the send returns; without a team id it returns an error and does nothing. -/
def sendsOnceToTeam (h : FirebaseCmd → FbWorld → Ret × FbWorld) (fb : FirebaseCmd)
    (w : FbWorld) : Prop :=
  (fb.TeamID ≠ "" →
    ∃ m : Message, m.Topic = fb.TeamID ∧ m.Token = "" ∧
      (h fb w).2.sends = w.sends ++ [⟨m, decide (nextFault w.faults = none)⟩] ∧
      (h fb w).1 = Ret.ofError (nextFault w.faults)) ∧
  (fb.TeamID = "" → (∃ e, (h fb w).1 = Ret.err e) ∧ (h fb w).2 = w)

/-- The shape shared by genericMessage, markerAssignmentChange and linkAssignmentChange:
nothing without an agent id, then the token lookup, then the fan-out to the non-blank
tokens with the messages built by `mk`. -/
def agentHandler (mk : FirebaseCmd → String → Message) (fb : FirebaseCmd) (w : FbWorld) :
    Ret × FbWorld :=
  if fb.Gid = "" then (.nil, w)
  else
    match FirebaseTokens fb.Gid w with
    | (_, some e, w1) => (.err e, w1)
    | (tokens, none, w1) => fanOut (mk fb) (tokens.filter (fun token => token ≠ "")) w1

/-- Tokens a topic-management response reports as failed: the tokens of the list handed to
the topic call at the indexes of its errors. -/
def reportedTokens (tokens : List String) (errs : List ErrorInfo) : List String :=
  errs.filterMap (fun f => if f.Index < 0 then none else tokens[f.Index.toNat]?)

/-! ## Frame of a call -/

/-- The task a statement is addressed to: its operation and its id. -/
def Stmt.key : Stmt → OperationID × TaskID
  | .deleteDepends op t => (op, t)
  | .insertDepends op t _ => (op, t)
  | .deleteAssignments t op => (op, t)
  | .insertAssignment op t _ => (op, t)
  | .deleteAssignment op t _ => (op, t)
  | .updateState _ id op => (op, id)

/-- Tables tb1 agree with tb on every task other than (op, id): same assignment rows, same
states, same dependency edges, for each other pair of operation and task id. -/
def sameElsewhere (op : OperationID) (id : TaskID) (tb tb1 : Tables) : Prop :=
  ∀ op1 id1, ¬ (op1 = op ∧ id1 = id) →
    assigneesOf tb1 op1 id1 = assigneesOf tb op1 id1 ∧
    statesOf tb1 op1 id1 = statesOf tb op1 id1 ∧
    dependsOf tb1 op1 id1 = dependsOf tb op1 id1

/-! ## Precache of the assignments, and measures on Go maps -/

/-- The loop `for rows.Next()` of assignmentPrecache over the selected rows (taskID, gid): a
row whose Scan fails is logged and skipped. -/
def assignmentPrecache.rows :
    GoMap (List GoogleID) → List (TaskID × GoogleID) → Faults → GoMap (List GoogleID) × Faults
  | buf, [], fs => (buf, fs)
  | buf, (t, g) :: rest, fs =>
    match nextFault fs with
    | some _ => assignmentPrecache.rows buf rest fs.tail
    | none =>
      match GoMap.get buf t with
      | none => assignmentPrecache.rows (GoMap.set buf t [g]) rest fs.tail
      | some old => assignmentPrecache.rows (GoMap.set buf t (old ++ [g])) rest fs.tail

/-- Method `(o OperationID) assignmentPrecache() (map[TaskID][]GoogleID, error)`. -/
def assignmentPrecache (o : OperationID) (w : World) :
    GoMap (List GoogleID) × Option StorageError × World :=
  match nextFault w.faults with
  | some e => ([], some e, ⟨w.db, w.faults.tail⟩)
  | none =>
    let sel := (w.db.assignments.filter (fun r => r.opID == o)).map (fun r => (r.taskID, r.gid))
    let out := assignmentPrecache.rows [] sel w.faults.tail
    (out.1, none, ⟨w.db, out.2⟩)

/-- Keys of a Go map. -/
def GoMap.keys {ν : Type} (m : GoMap ν) : List String :=
  m.map (fun p => p.1)

/-- Sum of the lengths of the lists a Go map holds. -/
def GoMap.lengthSum (m : GoMap (List String)) : Nat :=
  (m.map (fun p => p.2.length)).sum

/-- Rows (key, value) added to a map of lists: each value is appended to the list of its key,
in row order. Both precache loops do this when no Scan fails. -/
def groupRows : GoMap (List String) → List (String × String) → GoMap (List String)
  | buf, [] => buf
  | buf, (k, v) :: rest =>
    groupRows (GoMap.set buf k ((GoMap.get buf k).getD [] ++ [v])) rest

/-! ## Telegram update loop (Telegram/bot.go) -/

/-- One turn of the loop `for update := range c.upChan` of WasabeeBot. The argument `ok` tells
whether `runUpdate(update)` returned nil. The result is the counter `i` after the turn and
whether the turn set a new webhook endpoint. A failed update is logged and skipped
(`continue`); otherwise the endpoint is changed when `i % 100 == 0`, which also resets `i` to
1, and `i++` follows in both cases. -/
def WasabeeBot.turn (i : Nat) (ok : Bool) : Nat × Bool :=
  if ok = false then (i, false)
  else if i % 100 = 0 then (1 + 1, true)
  else (i + 1, false)

/-- The loop of WasabeeBot from counter `i`, `count` updates having been processed without
error so far: the list of the numbers k such that the endpoint was changed right after the
k-th update processed without error. -/
def WasabeeBot.changePoints : Nat → Nat → List Bool → List Nat
  | _, _, [] => []
  | i, count, ok :: rest =>
    if (WasabeeBot.turn i ok).2 then
      (if ok then count + 1 else count) ::
        WasabeeBot.changePoints (WasabeeBot.turn i ok).1 (if ok then count + 1 else count) rest
    else
      WasabeeBot.changePoints (WasabeeBot.turn i ok).1 (if ok then count + 1 else count) rest

/-! ## Strings as bytes

Go strings are byte sequences, and the slices and the length taken by the http package count
bytes. -/

/-- A Go string: its bytes. -/
abbrev Bytes := List Nat

/-- The bytes of a string of ASCII characters. -/
def ascii (s : String) : Bytes := s.toList.map Char.toNat

/-- Function `strings.ToLower` on the bytes of an ASCII string. -/
def asciiLower (b : Bytes) : Bytes :=
  b.map (fun c => if 65 ≤ c ∧ c ≤ 90 then c + 32 else c)

/-! ## Language selection (http/server.go) -/

/-- The language key computed by templateExecute from the Accept-Language header `tmp`;
`templateSet` lists the keys of `config.TemplateSet`, and `toLower` is `strings.ToLower`.
The result is none when the slice `[:2]` is out of range, a run-time panic. -/
def templateExecute.lang (toLower : Bytes → Bytes) (templateSet : List Bytes) (tmp : Bytes) :
    Option Bytes :=
  match (if tmp = [] then some (ascii "en")
         else if (toLower tmp).length < 2 then none
         else some ((toLower tmp).take 2)) with
  | none => none
  | some lang => if templateSet.contains lang then some lang else some (ascii "en")

/-! ## Redirect after login (http/routes.go, http/server.go) -/

/-- Constant `me`. -/
def me : Bytes := ascii "/me"

/-- Constant `login`. -/
def login : Bytes := ascii "/login"

/-- The `location` computed by callbackRoute from `ses.Values["loginReq"]` (none when the
session has no such value). The result is none when a slice `rr[:len(me)]` or
`rr[:len(login)]` is out of range, a run-time panic; the second slice is evaluated only when
the first comparison is false. -/
def callbackRoute.location (loginReq : Option Bytes) : Option Bytes :=
  match loginReq with
  | none => some (me ++ ascii "?a=0")
  | some rr =>
    if rr.length < me.length then none
    else if rr.take me.length = me then some (me ++ ascii "?postlogin=1")
    else if rr.length < login.length then none
    else if rr.take login.length = login then some (me ++ ascii "?postlogin=1")
    else some rr

/-- What googleRoute stores in `ses.Values["loginReq"]` for the form value `returnto`. -/
def googleRoute.loginReq (ret : Bytes) : Bytes :=
  if ret ≠ [] then ret else me

/-! ## Newline normalisation (model_simple.go) -/

/-- Call `strings.Replace(s, "\r\n", "\n", -1)`. -/
def replaceCRLF : Bytes → Bytes
  | 13 :: 10 :: rest => 10 :: replaceCRLF rest
  | b :: rest => b :: replaceCRLF rest
  | [] => []

/-- Call `strings.Replace(s, "\r", "\n", -1)`. -/
def replaceCR : Bytes → Bytes
  | [] => []
  | b :: rest => (if b = 13 then 10 else b) :: replaceCR rest

/-- Call `strings.Trim(s, "\n")`: leading and trailing newlines removed. -/
def trimNewlines (s : Bytes) : Bytes :=
  ((s.dropWhile (fun b => b == 10)).reverse.dropWhile (fun b => b == 10)).reverse

/-- The new value of `document.Content` in SimpleDocument.Store. -/
def normalizeNewlines (content : Bytes) : Bytes :=
  trimNewlines (replaceCR (replaceCRLF content)) ++ [10]

/-! ## Notification bus (spec sections 4.5 and 4.6)

Package `messaging`, to which Telegram/bot.go hands its `messaging.Bus` by
`messaging.RegisterMessageBus("Telegram", b)`, is outside the sources at hand; the registry
and the dispatch are modelled from the specification. -/

/-- Modelled from the spec: the addressing target of an envelope, an agent id or a team id,
"exactly one of agent target, team target is set per envelope" (section 3). -/
inductive Target where
  | agent (gid : GoogleID)
  | team (id : TeamID)
deriving DecidableEq

/-- Modelled from the spec: the command envelope (section 3): command code, target and the
free-form payload fields. -/
structure Envelope where
  Cmd : FirebaseCommandCode
  target : Target
  ObjID : String
  Msg : String
deriving DecidableEq

/-- Modelled from the spec: a channel adapter (section 4.6), given by what its calls return:
`resolveTokens` the tokens of an agent, `sendDirect` and `sendTopic` ok (none) or an
error. -/
structure Adapter where
  resolveTokens : GoogleID → List String
  sendDirect : String → Envelope → Option StorageError
  sendTopic : String → Envelope → Option StorageError

/-- A call of an adapter method made by the bus, with the channel name of the adapter. -/
inductive BusCall where
  | sendTopic (channel : String) (topic : String) (e : Envelope)
  | sendDirect (channel : String) (token : String) (e : Envelope)
deriving DecidableEq

/-- Modelled from the spec: `registerChannel(name, adapter)`, the "idempotent upsert into
the process-wide channel registry" (section 4.5). -/
def registerChannel (r : GoMap Adapter) (name : String) (a : Adapter) : GoMap Adapter :=
  GoMap.set r name a

/-- The registry after a sequence of registrations, from the empty registry. -/
def registryOf (regs : List (String × Adapter)) : GoMap Adapter :=
  regs.foldl (fun r p => registerChannel r p.1 p.2) []

/-- Modelled from the spec: what dispatch does with one adapter (section 4.5). A team target
is "sent once per adapter, addressed by the team's topic name (the team id, verbatim)"; an
agent target is "fanned out per-agent, resolving that agent's channel-specific tokens first",
"all are attempted; empty/blank tokens are skipped". The result is the calls made and the
failures, which are logged. -/
def dispatch.one (name : String) (a : Adapter) (e : Envelope) :
    List BusCall × List (String × StorageError) :=
  match e.target with
  | .team id =>
    ([BusCall.sendTopic name id e], ((a.sendTopic id e).map (fun err => (name, err))).toList)
  | .agent gid =>
    (((a.resolveTokens gid).filter (fun t => t ≠ "")).map (fun t => BusCall.sendDirect name t e),
     ((a.resolveTokens gid).filter (fun t => t ≠ "")).filterMap
       (fun t => (a.sendDirect t e).map (fun err => (name, err))))

/-- Modelled from the spec: `dispatch(envelope)` "iterates every registered adapter and
invokes the method matching the envelope's addressing mode"; "one adapter's failure is logged
and does not prevent the others from running", and the dispatch call itself does not fail.
The result is the way the call ends, the calls made and the failures logged. -/
def dispatch : GoMap Adapter → Envelope → Ret × List BusCall × List (String × StorageError)
  | [], _ => (Ret.nil, [], [])
  | (name, a) :: rest, e =>
    ((dispatch rest e).1,
     (dispatch.one name a e).1 ++ (dispatch rest e).2.1,
     (dispatch.one name a e).2 ++ (dispatch rest e).2.2)

/-! ## Agent message handlers (http/agent.go)

A handler is embedded as a function of what the request and the rest of the server give it;
its result is the writes to the response and the notifications handed to the messaging
layer, in order. Go errors are kept as their text. -/

/-- Body of a response. Function `jsonError` and the constants `jsonStatusOK` and
`jsonStatusEmpty` are declared outside http/agent.go; the bodies are kept symbolic. -/
inductive Body where
  | jsonError (err : String)
  | jsonStatusOK
  | jsonStatusEmpty
deriving DecidableEq

/-- A write to the `http.ResponseWriter`: `http.Error(res, body, code)` or
`fmt.Fprint(res, body)`. -/
inductive ResWrite where
  | httpError (body : Body) (code : Nat)
  | fprint (body : Body)
deriving DecidableEq

/-- The status code of a response: that of its first write, 200 for a plain write and for
no write at all. -/
def statusOf : List ResWrite → Nat
  | ResWrite.httpError _ code :: _ => code
  | _ => 200

/-- A call that hands a notification for agent `togid` to the messaging layer. -/
inductive Sent where
  | SendMessage (togid : GoogleID) (message : String)
  | FirebaseGenericMessage (togid : GoogleID) (msg : String)
  | FirebaseTarget (togid : GoogleID) (msg : String)
deriving DecidableEq

/-- Variable `msg` of agentFBMessageRoute. -/
structure FBMsg where
  Sender : String
  Message : String
  Date : String
deriving DecidableEq

/-- Variable `target` of agentTargetRoute. -/
structure TargetData where
  Name : String
  ID : String
  Lat : String
  Lng : String
  Type_ : String
deriving DecidableEq

/-- Variable `templateData` of agentTargetRoute. -/
structure TemplateData where
  Name : String
  ID : String
  Lat : String
  Lon : String
  Type_ : String
  Sender : String
deriving DecidableEq

/-- What the request and the server give the handlers of http/agent.go: the results of the
calls they make. -/
structure AgentReq where
  /-- Call `getAgentID(req)`. -/
  getAgentID : Except String GoogleID
  /-- Value `mux.Vars(req)["id"]`. -/
  id : String
  /-- Call `wasabee.ToGid(id)`. -/
  ToGid : String → Except String GoogleID
  /-- Call `req.FormValue("m")`. -/
  formM : String
  /-- Call `contentTypeIs(req, jsonTypeShort)`. -/
  contentTypeJSON : Bool
  /-- Call `ioutil.ReadAll(req.Body)`. -/
  body : Except String String
  /-- Call `json.Unmarshal(jRaw, &msg)`. -/
  unmarshalMsg : String → Except String FBMsg
  /-- Call `json.Unmarshal(jRaw, &target)`. -/
  unmarshalTarget : String → Except String TargetData
  /-- Call `gid.IngressName()`. -/
  IngressName : GoogleID → String × Option String
  /-- Call `json.Marshal(msg)`. -/
  marshalMsg : FBMsg → Except String String
  /-- Call `json.Marshal(templateData)`. -/
  marshalTemplateData : TemplateData → Except String String
  /-- Call `gid.ExecuteTemplate("target", templateData)`. -/
  ExecuteTemplate : GoogleID → TemplateData → Except String String
  /-- Call `gid.CanSendTo(togid)`. -/
  CanSendTo : GoogleID → GoogleID → Bool
  /-- Call `togid.SendMessage(message)`. -/
  SendMessage : GoogleID → String → Bool × Option String

/-- Function agentMessageRoute. -/
def agentMessageRoute (q : AgentReq) : List ResWrite × List Sent :=
  match q.getAgentID with
  | .error err => ([ResWrite.httpError (Body.jsonError err) 500], [])
  | .ok gid =>
    match q.ToGid q.id with
    | .error err => ([ResWrite.httpError (Body.jsonError err) 500], [])
    | .ok togid =>
      if q.CanSendTo gid togid = false then
        ([ResWrite.httpError
            (Body.jsonError "forbidden: only team owners can send to agents on the team") 403],
         [])
      else
        match q.SendMessage togid
            (if q.formM = "" then "This is a toast notification" else q.formM) with
        | (_, some err) =>
          ([ResWrite.httpError (Body.jsonError err) 500],
           [Sent.SendMessage togid
              (if q.formM = "" then "This is a toast notification" else q.formM)])
        | (false, none) =>
          ([ResWrite.httpError (Body.jsonError "message did not send") 500],
           [Sent.SendMessage togid
              (if q.formM = "" then "This is a toast notification" else q.formM)])
        | (true, none) =>
          ([ResWrite.fprint Body.jsonStatusOK],
           [Sent.SendMessage togid
              (if q.formM = "" then "This is a toast notification" else q.formM)])

/-- Function agentFBMessageRoute. A failed Unmarshal, IngressName or Marshal is logged and
the handler returns without a write. The test `err != nil` after FirebaseGenericMessage
looks at the error of Marshal, which is nil there. -/
def agentFBMessageRoute (q : AgentReq) : List ResWrite × List Sent :=
  match q.getAgentID with
  | .error err => ([ResWrite.httpError (Body.jsonError err) 500], [])
  | .ok gid =>
    match q.ToGid q.id with
    | .error err => ([ResWrite.httpError (Body.jsonError err) 500], [])
    | .ok togid =>
      if q.contentTypeJSON = false then
        ([ResWrite.httpError
            (Body.jsonError "invalid request (needs to be application/json)") 406], [])
      else
        match q.body with
        | .error err => ([ResWrite.httpError (Body.jsonError err) 500], [])
        | .ok jBlob =>
          if jBlob = "" then ([ResWrite.httpError Body.jsonStatusEmpty 406], [])
          else
            match q.unmarshalMsg jBlob with
            | .error _ => ([], [])
            | .ok msg =>
              match q.IngressName gid with
              | (_, some _) => ([], [])
              | (name, none) =>
                match q.marshalMsg ⟨name, msg.Message, msg.Date⟩ with
                | .error _ => ([], [])
                | .ok toSend =>
                  ([ResWrite.fprint Body.jsonStatusOK], [Sent.FirebaseGenericMessage togid toSend])

/-- The end of agentTargetRoute, from `json.Marshal(templateData)` on: a failed Marshal
writes an error and the handler goes on, with an empty `out`. -/
def agentTargetRoute.firebase (q : AgentReq) (togid : GoogleID) (td : TemplateData) :
    List ResWrite × List Sent :=
  match q.marshalTemplateData td with
  | .error err =>
    ([ResWrite.httpError (Body.jsonError err) 500, ResWrite.fprint Body.jsonStatusOK],
     [Sent.FirebaseTarget togid ""])
  | .ok out => ([ResWrite.fprint Body.jsonStatusOK], [Sent.FirebaseTarget togid out])

/-- The part of agentTargetRoute after the checks of the request: template, SendMessage and
the firebase target. A failed IngressName or ExecuteTemplate is logged only, and so is a
message that did not send. -/
def agentTargetRoute.send (q : AgentReq) (gid togid : GoogleID) (target : TargetData) :
    List ResWrite × List Sent :=
  let td : TemplateData :=
    ⟨target.Name, target.ID, target.Lat, target.Lng, target.Type_, (q.IngressName gid).1⟩
  let msg : String :=
    match q.ExecuteTemplate gid td with
    | .error _ => "template failed; target @ " ++ target.Lat ++ " " ++ target.Lng
    | .ok m => m
  match q.SendMessage togid msg with
  | (_, some err) =>
    ([ResWrite.httpError (Body.jsonError err) 500], [Sent.SendMessage togid msg])
  | (_, none) =>
    ((agentTargetRoute.firebase q togid td).1,
     Sent.SendMessage togid msg :: (agentTargetRoute.firebase q togid td).2)

/-- Function agentTargetRoute. -/
def agentTargetRoute (q : AgentReq) : List ResWrite × List Sent :=
  match q.getAgentID with
  | .error err => ([ResWrite.httpError (Body.jsonError err) 500], [])
  | .ok gid =>
    if q.contentTypeJSON = false then
      ([ResWrite.httpError (Body.jsonError "must use content-type: application/json") 406], [])
    else
      match q.ToGid q.id with
      | .error err => ([ResWrite.httpError (Body.jsonError err) 500], [])
      | .ok togid =>
        match q.body with
        | .error err => ([ResWrite.httpError (Body.jsonError err) 500], [])
        | .ok jBlob =>
          if jBlob = "" then ([ResWrite.httpError Body.jsonStatusEmpty 406], [])
          else
            match q.unmarshalTarget jBlob with
            | .error err => ([ResWrite.httpError (Body.jsonError err) 500], [])
            | .ok target =>
              if target.Name = "" then
                ([ResWrite.httpError (Body.jsonError "portal not set") 406], [])
              else if target.Lat = "" ∨ target.Lng = "" then
                ([ResWrite.httpError (Body.jsonError "lat/ng not set") 406], [])
              else agentTargetRoute.send q gid togid target

/-- The rows of a result set whose Scan does not fail, in row order, when the row reads draw
their outcomes from `fs` one after the other: what the loops `for rows.Next()` of
GetAssignments and dependsPrecache keep. -/
def scanned {α : Type} : List α → Faults → List α
  | [], _ => []
  | r :: rest, fs =>
    match nextFault fs with
    | some _ => scanned rest fs.tail
    | none => r :: scanned rest fs.tail

/-! ## Example data

Operation op1 with marker task t1 and link task t2, in the state of the end-to-end scenarios. -/

/-- Task t1 of operation op1, as loaded: pending, no assignee. -/
def exT1 : Task := ⟨"t1", [], [], 0, 0, "pending", "", 1, "op1"⟩

/-- Task t2 of operation op1. -/
def exT2 : Task := ⟨"t2", [], ["t0"], 0, 0, "pending", "", 2, "op1"⟩

/-- Tables in which t2 depends on t0, and a task t2 of another operation has an edge too. -/
def exTables : Tables :=
  ⟨[⟨"op1", "t2", "t0"⟩, ⟨"op2", "t2", "t7"⟩],
   [],
   [⟨"t1", "op1", "pending", "", 0, 1⟩, ⟨"t2", "op1", "pending", "", 0, 2⟩]⟩

/-- Task t1 as sent by a client that assigns it to agent-A and left one entry blank. -/
def exT1Blank : Task := ⟨"t1", ["agent-A", ""], [], 0, 0, "pending", "", 1, "op1"⟩

/-- Task t1 as sent by a client that assigns it to agent-A and agent-B. -/
def exT1Two : Task := ⟨"t1", ["agent-A", "agent-B"], [], 0, 0, "pending", "", 1, "op1"⟩

/-- Tables in which t1 is completed and assigned to agent-A and agent-B. -/
def exTablesDone : Tables :=
  ⟨[⟨"op1", "t2", "t0"⟩],
   [⟨"op1", "t1", "agent-A"⟩, ⟨"op1", "t1", "agent-B"⟩, ⟨"op1", "t2", "agent-A"⟩],
   [⟨"t1", "op1", "completed", "", 0, 1⟩, ⟨"t2", "op1", "assigned", "", 0, 2⟩]⟩

/-- The example tables with no storage failure to come. -/
def exWorld : World := ⟨exTables, []⟩

/-- A task of op1 with the given id and order. -/
def exTask (id : TaskID) (order : Int) : Task := ⟨id, [], [], 0, 0, "pending", "", order, "op1"⟩

/-- Operation op1: markers m1, m2, m3 and links l1, l2, m3; m2, m3 and l1 share order 2, and
the id m3 is used by a marker and by a link. -/
def exOp : Operation :=
  ⟨"op1",
   [⟨exTask "m1" 1⟩, ⟨exTask "m2" 2⟩, ⟨exTask "m3" 2⟩],
   [⟨exTask "l1" 2⟩, ⟨exTask "l2" 3⟩, ⟨exTask "m3" 4⟩]⟩

/-- The example tables after agent-A claimed t1 twice. -/
def exTablesTwice : Tables :=
  (Claim exT1 "agent-A" (Claim exT1 "agent-A" ⟨exTables, []⟩).2).2.db

/-- Task t1 as sent by a client whose list names agent-A twice. -/
def exT1Dup : Task := ⟨"t1", ["agent-A", "agent-A"], [], 0, 0, "pending", "", 1, "op1"⟩

/-- The envelope of scenario 3: marker m1 of op1 is done, addressed to team T9. -/
def exFbTeam : FirebaseCmd := ⟨.markerStatusChange, "T9", "op1", "m1", "", "done"⟩

/-- An envelope addressed to agent-A. -/
def exFbAgent : FirebaseCmd := ⟨.genericMessage, "", "", "", "agent-A", "hello"⟩

/-- An envelope with neither agent nor team. -/
def exFbNoTarget : FirebaseCmd := ⟨.genericMessage, "", "", "", "", "hello"⟩

/-- An envelope that subscribes agent-A to team T9. -/
def exFbSubscribe : FirebaseCmd := ⟨.subscribeToTeam, "T9", "", "", "agent-A", "subscribe"⟩

/-- Token store in which agent-A holds tokA, a blank token and tokB, and agent-B holds tokC. -/
def exFbWorld : FbWorld :=
  ⟨[("agent-A", "tokA"), ("agent-A", ""), ("agent-B", "tokC"), ("agent-A", "tokB")], [], [], []⟩

/-- Adapter "push" of end-to-end scenario 3: every send returns a transport error. -/
def exPush : Adapter := ⟨fun _ => ["tok1"], fun _ _ => some "transport", fun _ _ => some "transport"⟩

/-- Adapter "bot" of end-to-end scenario 3: every send succeeds. -/
def exBot : Adapter := ⟨fun _ => [], fun _ _ => none, fun _ _ => none⟩

/-- The registrations of scenario 3, adapter "push" being registered twice. -/
def exRegs : List (String × Adapter) := [("push", exBot), ("bot", exBot), ("push", exPush)]

/-- A request of agent-A for agent-B, whom agent-A may not send to (CanSendTo is false): a
JSON body, the form value m set, and every call of the server succeeding. -/
def exAgentReq : AgentReq :=
  { getAgentID := .ok "agent-A"
    id := "agent-B"
    ToGid := fun s => .ok s
    formM := "hello"
    contentTypeJSON := true
    body := .ok "json"
    unmarshalMsg := fun _ => .ok ⟨"", "hello", "today"⟩
    unmarshalTarget := fun _ => .ok ⟨"portal", "p1", "1.0", "2.0", "capture"⟩
    IngressName := fun _ => ("AgentA", none)
    marshalMsg := fun m => .ok (m.Sender ++ ":" ++ m.Message)
    marshalTemplateData := fun td => .ok (td.Sender ++ ":" ++ td.Name)
    ExecuteTemplate := fun _ td => .ok ("target " ++ td.Name)
    CanSendTo := fun _ _ => false
    SendMessage := fun _ _ => (true, none) }

/-- The same request when agent-A may send to agent-B. -/
def exAgentReqAllowed : AgentReq := { exAgentReq with CanSendTo := fun _ _ => true }

/-- Tables in which t2 of operation op1 depends on t0 and on t1. -/
def exTablesTwoEdges : Tables :=
  ⟨[⟨"op1", "t2", "t0"⟩, ⟨"op1", "t2", "t1"⟩], [], [⟨"t2", "op1", "pending", "", 0, 2⟩]⟩

/-! ## Lemmas on the storage calls -/

theorem txExec_cases (s : Stmt) (tx : Tx) (fs : Faults) :
    (tx.done = true ∧ txExec s tx fs = (some ErrTxDone, tx, fs)) ∨
    (tx.done = false ∧ ∃ e, nextFault fs = some e ∧ txExec s tx fs = (some e, tx, fs.tail)) ∨
    (tx.done = false ∧ nextFault fs = none ∧
      txExec s tx fs = (none, ⟨s.run tx.work, false⟩, fs.tail)) := by
  unfold txExec
  cases hd : tx.done with
  | true => simp
  | false =>
    cases hf : nextFault fs with
    | none => simp
    | some e => simp

theorem runStmts_append (a b : List Stmt) (tx : Tx) (fs : Faults) :
    runStmts (a ++ b) tx fs =
      match runStmts a tx fs with
      | (some e, tx1, fs1) => (some e, tx1, fs1)
      | (none, tx1, fs1) => runStmts b tx1 fs1 := by
  induction a generalizing tx fs with
  | nil => simp [runStmts]
  | cons s rest ih =>
    simp only [List.cons_append, runStmts]
    rcases txExec_cases s tx fs with ⟨_, h⟩ | ⟨_, e, _, h⟩ | ⟨_, _, h⟩
    · simp [h]
    · simp [h]
    · simp [h, ih]

/-- A run that ended without error executed every statement. -/
theorem runStmts_work (ss : List Stmt) (tx : Tx) (fs : Faults)
    (h : (runStmts ss tx fs).1 = none) :
    (runStmts ss tx fs).2.1.work = runAll ss tx.work := by
  induction ss generalizing tx fs with
  | nil => simp [runStmts, runAll]
  | cons s rest ih =>
    simp only [runStmts] at h ⊢
    rcases txExec_cases s tx fs with ⟨_, h1⟩ | ⟨_, e, _, h1⟩ | ⟨_, _, h1⟩
    · simp [h1] at h
    · simp [h1] at h
    · simp only [h1] at h ⊢
      rw [ih _ _ h]
      simp [runAll]

/-- In an open transaction a run returns the first failure among its calls, and when there
is none it executed every statement and used one fault entry per statement. -/
theorem runStmts_spec (ss : List Stmt) (tx : Tx) (fs : Faults) (hd : tx.done = false) :
    (runStmts ss tx fs).1 = firstFault ss.length fs ∧
    (firstFault ss.length fs = none →
      runStmts ss tx fs = (none, ⟨runAll ss tx.work, false⟩, fs.drop ss.length)) := by
  induction ss generalizing tx fs with
  | nil =>
    cases tx with
    | mk work done =>
      simp only at hd
      subst hd
      simp [runStmts, firstFault, runAll]
  | cons s rest ih =>
    simp only [runStmts, List.length_cons, firstFault]
    rcases txExec_cases s tx fs with ⟨h0, _⟩ | ⟨_, e, hf, h1⟩ | ⟨_, hf, h1⟩
    · simp [hd] at h0
    · simp [h1, hf]
    · have := ih ⟨s.run tx.work, false⟩ fs.tail rfl
      simp only [h1, hf]
      refine ⟨this.1, fun hn => ?_⟩
      rw [this.2 hn]
      cases fs <;> simp [runAll]

theorem firstFault_succ (n : Nat) (fs : Faults) :
    firstFault (n + 1) fs =
      match firstFault n fs with
      | some e => some e
      | none => nextFault (fs.drop n) := by
  induction n generalizing fs with
  | zero =>
    cases h : nextFault fs <;> simp [firstFault, h]
  | succ n ih =>
    rw [firstFault]
    cases h : nextFault fs with
    | some e => simp [firstFault, h]
    | none =>
      simp only [ih fs.tail]
      conv_rhs => rw [firstFault]
      simp only [h]
      cases fs <;> simp

/-! ## The bodies as statement runs -/

theorem SetDepends_inserts_eq (t : Task) (d : List TaskID) (tx : Tx) (fs : Faults) :
    SetDepends.inserts t d tx fs =
      runStmts (d.map (fun x => Stmt.insertDepends t.opID t.ID x)) tx fs := by
  induction d generalizing tx fs with
  | nil => simp [SetDepends.inserts, runStmts]
  | cons x rest ih => simp [SetDepends.inserts, runStmts, ih]

theorem SetDepends_body_eq (t : Task) (d : List TaskID) (tx : Tx) (fs : Faults) :
    SetDepends.body t d tx fs = runStmts (SetDepends.stmts t d) tx fs := by
  simp [SetDepends.body, SetDepends.stmts, runStmts, SetDepends_inserts_eq]

theorem ClearAssignments_body_eq (t : Task) (tx : Tx) (fs : Faults) :
    ClearAssignments.body t tx fs = runStmts (ClearAssignments.stmts t) tx fs := by
  simp only [ClearAssignments.body, ClearAssignments.stmts, runStmts]

theorem Assign_inserts_eq (t : Task) (gs : List GoogleID) (tx : Tx) (fs : Faults) :
    Assign.inserts t gs tx fs =
      runStmts ((gs.filter (fun g => g ≠ "")).map
        (fun g => Stmt.insertAssignment t.opID t.ID g)) tx fs := by
  induction gs generalizing tx fs with
  | nil => simp [Assign.inserts, runStmts]
  | cons g rest ih =>
    by_cases hg : g = ""
    · simp [Assign.inserts, hg, ih]
    · simp [Assign.inserts, hg, runStmts, ih]

theorem Assign_body_eq (t : Task) (tx : Tx) (fs : Faults) :
    Assign.body t tx fs = runStmts (Assign.stmts t) tx fs := by
  simp only [Assign.body, Assign.stmts, runStmts_append, ClearAssignments_body_eq,
    Assign_inserts_eq]
  rcases h : runStmts (ClearAssignments.stmts t) tx fs with ⟨_ | e, tx1, fs1⟩
  · by_cases hl : t.Assignments.length > 0
    · simp only [hl, if_true]
      rw [runStmts_append]
      rcases h2 : runStmts ((t.Assignments.filter (fun g => g ≠ "")).map
        (fun g => Stmt.insertAssignment t.opID t.ID g)) tx1 fs1 with ⟨_ | e2, tx2, fs2⟩
      · simp only [runStmts]
      · rfl
    · simp [hl, runStmts]
  · rfl

theorem SetDepends_own (t : Task) (d : List TaskID) (w : World) :
    SetDepends t d none w = inOwnTx (runStmts (SetDepends.stmts t d)) w := by
  simp only [SetDepends, inOwnTx, SetDepends_body_eq]

theorem SetDepends_caller (t : Task) (d : List TaskID) (tx : Tx) (w : World) :
    SetDepends t d (some tx) w = inCallerTx (runStmts (SetDepends.stmts t d)) tx w := by
  simp only [SetDepends, inCallerTx, SetDepends_body_eq]

theorem Assign_own (t : Task) (w : World) :
    Assign t none w = inOwnTx (runStmts (Assign.stmts t)) w := by
  simp only [Assign, inOwnTx, Assign_body_eq]

theorem Assign_caller (t : Task) (tx : Tx) (w : World) :
    Assign t (some tx) w = inCallerTx (runStmts (Assign.stmts t)) tx w := by
  simp only [Assign, inCallerTx, Assign_body_eq]

/-! ## Transactions -/

theorem txRollback_db (tx : Tx) (w : World) : (txRollback tx w).2.2.db = w.db := by
  unfold txRollback
  split <;> rfl

/-- A failed Begin: tx stays nil and the first statement panics. -/
theorem inOwnTx_begin_failed (body : Tx → Faults → Option StorageError × Tx × Faults)
    (w : World) (e : StorageError) (hb : nextFault w.faults = some e) :
    (inOwnTx body w).1 = Ret.panic ∧ (inOwnTx body w).2.2.db = w.db := by
  simp [inOwnTx, dbBegin, hb]

/-- A run in a transaction of its own, after a successful Begin: the call returns the first
failure among the statements and the commit; the committed tables are those of the full run
when there is none and the old ones otherwise. -/
theorem inOwnTx_spec (ss : List Stmt) (w : World) (hb : nextFault w.faults = none) :
    (inOwnTx (runStmts ss) w).1 = Ret.ofError (firstFault (ss.length + 1) w.faults.tail) ∧
    (inOwnTx (runStmts ss) w).2.1 = none ∧
    (inOwnTx (runStmts ss) w).2.2.db =
      (if firstFault (ss.length + 1) w.faults.tail = none then runAll ss w.db else w.db) := by
  have hs := runStmts_spec ss ⟨w.db, false⟩ w.faults.tail rfl
  simp only [inOwnTx, dbBegin, hb, firstFault_succ]
  cases hf : firstFault ss.length w.faults.tail with
  | some e =>
    rcases hr : runStmts ss ⟨w.db, false⟩ w.faults.tail with ⟨r, tx1, fs1⟩
    rw [hr, hf] at hs
    simp only at hs
    simp [hs.1, Ret.ofError, txRollback_db]
  | none =>
    rw [hs.2 hf]
    simp only [txCommit]
    cases hc : nextFault (List.drop ss.length w.faults.tail) with
    | some e => simp [Ret.ofError, txRollback_db]
    | none => simp [Ret.ofError, txRollback_db]

/-- A run in the caller's transaction: success means every statement ran on the caller's
working tables, and the committed tables are never touched. -/
theorem inCallerTx_spec (ss : List Stmt) (tx : Tx) (w : World) :
    (inCallerTx (runStmts ss) tx w).2.2.db = w.db ∧
    ((inCallerTx (runStmts ss) tx w).1 = Ret.nil →
      ∃ tx1, (inCallerTx (runStmts ss) tx w).2.1 = some tx1 ∧ tx1.work = runAll ss tx.work) := by
  have hw := runStmts_work ss tx w.faults
  rcases hr : runStmts ss tx w.faults with ⟨_ | e, tx1, fs1⟩
  · rw [hr] at hw
    exact ⟨by simp [inCallerTx, hr], fun _ => ⟨tx1, by simp [inCallerTx, hr], hw rfl⟩⟩
  · simp [inCallerTx, hr]

/-- Success of either way of running the statements means the written tables are those of the
full run, started from the tables the call saw. -/
theorem written_inOwnTx (ss : List Stmt) (w : World)
    (h : (inOwnTx (runStmts ss) w).1 = Ret.nil) :
    written (inOwnTx (runStmts ss) w) = runAll ss w.db := by
  cases hb : nextFault w.faults with
  | some e =>
    have := (inOwnTx_begin_failed (runStmts ss) w e hb).1
    rw [this] at h
    cases h
  | none =>
    obtain ⟨h1, h2, h3⟩ := inOwnTx_spec ss w hb
    cases hf : firstFault (ss.length + 1) w.faults.tail with
    | some e =>
      rw [h1, hf] at h
      simp [Ret.ofError] at h
    | none =>
      simp only [written, h2, h3, hf, if_true]

theorem written_inCallerTx (ss : List Stmt) (tx : Tx) (w : World)
    (h : (inCallerTx (runStmts ss) tx w).1 = Ret.nil) :
    written (inCallerTx (runStmts ss) tx w) = runAll ss tx.work := by
  obtain ⟨tx1, h1, h2⟩ := (inCallerTx_spec ss tx w).2 h
  simp only [written, h1, h2]

/-! ## Lemmas on Go maps and the precache loops -/

theorem GoMap_get_set {ν : Type} (m : GoMap ν) (k k1 : String) (v : ν) :
    GoMap.get (GoMap.set m k v) k1 = if k1 = k then some v else GoMap.get m k1 := by
  induction m with
  | nil =>
    by_cases h : k1 = k
    · simp [GoMap.set, GoMap.get, h]
    · have : ¬ k = k1 := fun hh => h hh.symm
      simp [GoMap.set, GoMap.get, h, this]
  | cons p rest ih =>
    obtain ⟨a, b⟩ := p
    by_cases h1 : a = k
    · subst h1
      by_cases h : k1 = a
      · simp [GoMap.set, GoMap.get, h]
      · have : ¬ a = k1 := fun hh => h hh.symm
        simp [GoMap.set, GoMap.get, h, this]
    · by_cases h2 : a = k1
      · subst h2
        simp [GoMap.set, GoMap.get, h1]
      · simp [GoMap.set, GoMap.get, h1, h2, ih]

/-- With no failing Scan, the precache loop appends to each key the dependsOn values of its
rows, in row order. -/
theorem dependsPrecache_rows_get (sel : List (TaskID × TaskID)) (buf : GoMap (List TaskID))
    (k : TaskID) :
    (GoMap.get (dependsPrecache.rows buf sel []).1 k).getD [] =
      (GoMap.get buf k).getD [] ++ (sel.filter (fun p => p.1 == k)).map (fun p => p.2) := by
  induction sel generalizing buf with
  | nil => simp [dependsPrecache.rows]
  | cons p rest ih =>
    obtain ⟨a, b⟩ := p
    simp only [dependsPrecache.rows, nextFault, List.tail_nil]
    cases hb : GoMap.get buf a with
    | none =>
      simp only [ih, GoMap_get_set]
      by_cases h : k = a
      · subst h; simp [hb]
      · have : ¬ a = k := fun hh => h hh.symm
        simp [h, this, List.filter_cons]
    | some old =>
      simp only [ih, GoMap_get_set]
      by_cases h : k = a
      · subst h; simp [hb]
      · have : ¬ a = k := fun hh => h hh.symm
        simp [h, this, List.filter_cons]

/-- With no storage failure, dependsPrecache maps a task to its stored dependency edges. -/
theorem dependsPrecache_get (tb : Tables) (o : OperationID) (k : TaskID) :
    (GoMap.get (dependsPrecache o ⟨tb, []⟩).1 k).getD [] = dependsOf tb o k := by
  simp only [dependsPrecache, nextFault, List.tail_nil, dependsPrecache_rows_get, dependsOf]
  simp [GoMap.get, List.filter_map, List.filter_filter, Function.comp_def, Bool.and_comm]

/-! ## What the statement runs leave in the tables -/

theorem runAll_cons (s : Stmt) (ss : List Stmt) (tb : Tables) :
    runAll (s :: ss) tb = runAll ss (s.run tb) := rfl

theorem runAll_append (a b : List Stmt) (tb : Tables) :
    runAll (a ++ b) tb = runAll b (runAll a tb) := by
  simp [runAll, List.foldl_append]

theorem runAll_insertDepends (op : OperationID) (id : TaskID) (d : List TaskID) (tb : Tables) :
    runAll (d.map (fun x => Stmt.insertDepends op id x)) tb =
      ⟨tb.depends ++ d.map (fun x => ⟨op, id, x⟩), tb.assignments, tb.task⟩ := by
  induction d generalizing tb with
  | nil => simp [runAll]
  | cons x rest ih => simp [runAll_cons, ih, Stmt.run]

theorem runAll_insertAssignment (op : OperationID) (id : TaskID) (gs : List GoogleID)
    (tb : Tables) :
    runAll (gs.map (fun g => Stmt.insertAssignment op id g)) tb =
      ⟨tb.depends, tb.assignments ++ gs.map (fun g => ⟨op, id, g⟩), tb.task⟩ := by
  induction gs generalizing tb with
  | nil => simp [runAll]
  | cons x rest ih => simp [runAll_cons, ih, Stmt.run]

/-- Tables after the statements of SetDepends all succeeded. -/
theorem runAll_SetDepends (t : Task) (d : List TaskID) (tb : Tables) :
    runAll (SetDepends.stmts t d) tb =
      ⟨tb.depends.filter (fun r => !(r.opID == t.opID && r.taskID == t.ID)) ++
          d.map (fun x => ⟨t.opID, t.ID, x⟩),
        tb.assignments, tb.task⟩ := by
  simp [SetDepends.stmts, runAll_cons, runAll_insertDepends, Stmt.run]

theorem dependsOf_runAll_SetDepends (t : Task) (d : List TaskID) (tb : Tables) :
    dependsOf (runAll (SetDepends.stmts t d) tb) t.opID t.ID = d := by
  rw [runAll_SetDepends]
  simp only [dependsOf, List.filter_append, List.filter_filter, List.map_append]
  have h1 : List.filter (fun a =>
      (a.opID == t.opID && a.taskID == t.ID) && !(a.opID == t.opID && a.taskID == t.ID))
      tb.depends = [] := by
    simp
  have h2 : List.filter (fun (r : DependsRow) => r.opID == t.opID && r.taskID == t.ID)
      (d.map (fun x => ⟨t.opID, t.ID, x⟩)) = d.map (fun x => ⟨t.opID, t.ID, x⟩) := by
    simp
  rw [h1, h2]
  simp [Function.comp_def]

theorem setState_key (s : String) (id : TaskID) (op : OperationID) (r : TaskRow) :
    (setState s id op r).ID = r.ID ∧ (setState s id op r).opID = r.opID := by
  unfold setState
  split <;> simp

theorem setState_state (s : String) (id : TaskID) (op : OperationID) (r : TaskRow) :
    (setState s id op r).state = if r.ID = id ∧ r.opID = op then s else r.state := by
  unfold setState
  by_cases h : r.ID = id ∧ r.opID = op
  · simp [h.1, h.2]
  · have : (r.ID == id && r.opID == op) = false := by simpa using h
    simp [this, h]

theorem statesOf_setState (l : List TaskRow) (s : String) (id id1 : TaskID)
    (op op1 : OperationID) :
    ((l.map (setState s id op)).filter (fun r => r.ID == id1 && r.opID == op1)).map
        (fun r => r.state) =
      if id1 = id ∧ op1 = op then
        ((l.filter (fun r => r.ID == id1 && r.opID == op1)).map (fun r => r.state)).map
          (fun _ => s)
      else (l.filter (fun r => r.ID == id1 && r.opID == op1)).map (fun r => r.state) := by
  have hc : ((fun (r : TaskRow) => r.ID == id1 && r.opID == op1) ∘ setState s id op) =
      (fun (r : TaskRow) => r.ID == id1 && r.opID == op1) := by
    funext r
    simp [Function.comp, (setState_key s id op r).1, (setState_key s id op r).2]
  rw [List.filter_map, hc, List.map_map, List.map_map]
  by_cases hq : id1 = id ∧ op1 = op
  · rw [if_pos hq]
    apply List.map_congr_left
    intro r hr
    have hm := (List.mem_filter.mp hr).2
    simp only [Bool.and_eq_true, beq_iff_eq] at hm
    simp [Function.comp, setState_state, ← hq.1, ← hq.2, hm.1, hm.2]
  · rw [if_neg hq]
    apply List.map_congr_left
    intro r hr
    have hm := (List.mem_filter.mp hr).2
    simp only [Bool.and_eq_true, beq_iff_eq] at hm
    have : ¬ (r.ID = id ∧ r.opID = op) := fun hh => hq ⟨hm.1 ▸ hh.1, hm.2 ▸ hh.2⟩
    simp [Function.comp, setState_state, this]

/-- States of a task after an UPDATE of the state column. -/
theorem statesOf_updateState (tb : Tables) (s : String) (id id1 : TaskID) (op op1 : OperationID) :
    statesOf ((Stmt.updateState s id op).run tb) op1 id1 =
      if id1 = id ∧ op1 = op then (statesOf tb op1 id1).map (fun _ => s)
      else statesOf tb op1 id1 := by
  simp only [statesOf, Stmt.run]
  exact statesOf_setState tb.task s id id1 op op1

/-- Tables after the statements of ClearAssignments both succeeded. -/
theorem runAll_ClearAssignments (t : Task) (tb : Tables) :
    runAll (ClearAssignments.stmts t) tb =
      ⟨tb.depends, tb.assignments.filter (fun r => !(r.taskID == t.ID && r.opID == t.opID)),
        tb.task.map (setState "pending" t.ID t.opID)⟩ := rfl

/-- Tables after the statements of Assign all succeeded. -/
theorem runAll_Assign (t : Task) (tb : Tables) :
    runAll (Assign.stmts t) tb =
      ⟨tb.depends,
        tb.assignments.filter (fun r => !(r.taskID == t.ID && r.opID == t.opID)) ++
          (t.Assignments.filter (fun g => g ≠ "")).map (fun g => ⟨t.opID, t.ID, g⟩),
        if t.Assignments.length > 0 then
          (tb.task.map (setState "pending" t.ID t.opID)).map (setState "assigned" t.ID t.opID)
        else tb.task.map (setState "pending" t.ID t.opID)⟩ := by
  unfold Assign.stmts
  rw [runAll_append, runAll_ClearAssignments]
  by_cases hl : t.Assignments.length > 0
  · simp only [hl, if_true]
    rw [runAll_append, runAll_insertAssignment]
    rfl
  · have : t.Assignments = [] := by
      cases h : t.Assignments with
      | nil => rfl
      | cons a b => simp [h] at hl
    simp [this, runAll]

theorem assigneesOf_filter_append (d : List DependsRow) (a : List AssignmentRow)
    (k : List TaskRow) (op : OperationID) (id : TaskID) (gs : List GoogleID) :
    assigneesOf ⟨d, a.filter (fun r => !(r.taskID == id && r.opID == op)) ++
      gs.map (fun g => ⟨op, id, g⟩), k⟩ op id = gs := by
  simp only [assigneesOf, List.filter_append, List.filter_filter, List.map_append]
  have h1 : List.filter (fun (r : AssignmentRow) =>
      (r.opID == op && r.taskID == id) && !(r.taskID == id && r.opID == op)) a = [] := by
    simp only [List.filter_eq_nil_iff]
    intro r _
    by_cases h : r.opID = op ∧ r.taskID = id
    · simp [h.1, h.2]
    · have : (r.opID == op && r.taskID == id) = false := by simpa using h
      simp [this]
  have h2 : List.filter (fun (r : AssignmentRow) => r.opID == op && r.taskID == id)
      (gs.map (fun g => ⟨op, id, g⟩)) = gs.map (fun g => ⟨op, id, g⟩) := by
    simp
  rw [h1, h2]
  simp [Function.comp_def]

theorem assigneesOf_runAll_Assign (t : Task) (tb : Tables) :
    assigneesOf (runAll (Assign.stmts t) tb) t.opID t.ID =
      t.Assignments.filter (fun g => g ≠ "") := by
  rw [runAll_Assign]
  exact assigneesOf_filter_append _ _ _ _ _ _

theorem statesOf_runAll_Assign (t : Task) (tb : Tables) :
    statesOf (runAll (Assign.stmts t) tb) t.opID t.ID =
      (statesOf tb t.opID t.ID).map
        (fun _ => if t.Assignments = [] then "pending" else "assigned") := by
  rw [runAll_Assign]
  by_cases hl : t.Assignments.length > 0
  · have hne : t.Assignments ≠ [] := by
      intro h
      simp [h] at hl
    simp only [statesOf, hl, if_true, hne, if_false]
    rw [statesOf_setState, statesOf_setState]
    simp [Function.comp_def]
  · have : t.Assignments = [] := by
      cases h : t.Assignments with
      | nil => rfl
      | cons a b => simp [h] at hl
    simp only [statesOf, this, List.length_nil, gt_iff_lt, lt_self_iff_false, if_false,
      statesOf_setState, and_self, if_true]

theorem statesOf_runAll_ClearAssignments (t : Task) (tb : Tables) :
    statesOf (runAll (ClearAssignments.stmts t) tb) t.opID t.ID =
      (statesOf tb t.opID t.ID).map (fun _ => "pending") := by
  rw [runAll_ClearAssignments]
  simp only [statesOf, statesOf_setState, and_self, if_true]

theorem assigneesOf_runAll_ClearAssignments (t : Task) (tb : Tables) :
    assigneesOf (runAll (ClearAssignments.stmts t) tb) t.opID t.ID = [] := by
  rw [runAll_ClearAssignments]
  have := assigneesOf_filter_append tb.depends tb.assignments
    (tb.task.map (setState "pending" t.ID t.opID)) t.opID t.ID []
  simpa using this

/-! ## Reads -/

theorem GetAssignments_rows_nofault (tmp sel : List GoogleID) :
    GetAssignments.rows tmp sel [] = (tmp ++ sel, []) := by
  induction sel generalizing tmp with
  | nil => simp [GetAssignments.rows]
  | cons g rest ih => simp [GetAssignments.rows, nextFault, ih]

/-- With no storage failure GetAssignments returns the assignees of the task, in row order,
and the empty list for a task whose ID is empty. -/
theorem GetAssignments_read (t : Task) (tb : Tables) :
    GetAssignments t ⟨tb, []⟩ =
      (if t.ID = "" then [] else assigneesOf tb t.opID t.ID, none, ⟨tb, []⟩) := by
  unfold GetAssignments
  by_cases h : t.ID = ""
  · simp [h]
  · simp [h, nextFault, GetAssignments_rows_nofault, assigneesOf]

/-! ## Success of SetDepends and Assign -/

theorem SetDepends_written (t : Task) (d : List TaskID) (tx : Option Tx) (w : World)
    (h : (SetDepends t d tx w).1 = Ret.nil) :
    written (SetDepends t d tx w) = runAll (SetDepends.stmts t d) (seen tx w) := by
  cases tx with
  | none =>
    rw [SetDepends_own] at h ⊢
    exact written_inOwnTx _ _ h
  | some tx0 =>
    rw [SetDepends_caller] at h ⊢
    exact written_inCallerTx _ _ _ h

theorem Assign_written (t : Task) (tx : Option Tx) (w : World)
    (h : (Assign t tx w).1 = Ret.nil) :
    written (Assign t tx w) = runAll (Assign.stmts t) (seen tx w) := by
  cases tx with
  | none =>
    rw [Assign_own] at h ⊢
    exact written_inOwnTx _ _ h
  | some tx0 =>
    rw [Assign_caller] at h ⊢
    exact written_inCallerTx _ _ _ h

/-! ## The calls made on `db` directly -/

theorem dbExec_cases (s : Stmt) (w : World) :
    (∃ e, nextFault w.faults = some e ∧ dbExec s w = (some e, ⟨w.db, w.faults.tail⟩)) ∨
    (nextFault w.faults = none ∧ dbExec s w = (none, ⟨s.run w.db, w.faults.tail⟩)) := by
  unfold dbExec
  cases h : nextFault w.faults <;> simp

/-- A call made of two statements on `db` returns nil only when both ran. -/
theorem Claim_nil (t : Task) (g : GoogleID) (w : World) (h : (Claim t g w).1 = Ret.nil) :
    (Claim t g w).2.db =
      (Stmt.insertAssignment t.opID t.ID g).run
        ((Stmt.updateState "assigned" t.ID t.opID).run w.db) := by
  unfold Claim at h ⊢
  rcases dbExec_cases (Stmt.updateState "assigned" t.ID t.opID) w with ⟨e, _, h1⟩ | ⟨_, h1⟩
  · simp [h1] at h
  · simp only [h1] at h ⊢
    rcases dbExec_cases (Stmt.insertAssignment t.opID t.ID g)
      ⟨(Stmt.updateState "assigned" t.ID t.opID).run w.db, w.faults.tail⟩ with
      ⟨e, _, h2⟩ | ⟨_, h2⟩
    · simp [h2] at h
    · simp [h2]

theorem Reject_nil (t : Task) (g : GoogleID) (w : World) (h : (Reject t g w).1 = Ret.nil) :
    (Reject t g w).2.db =
      (Stmt.deleteAssignment t.opID t.ID g).run
        ((Stmt.updateState "pending" t.ID t.opID).run w.db) := by
  unfold Reject at h ⊢
  rcases dbExec_cases (Stmt.updateState "pending" t.ID t.opID) w with ⟨e, _, h1⟩ | ⟨_, h1⟩
  · simp [h1] at h
  · simp only [h1] at h ⊢
    rcases dbExec_cases (Stmt.deleteAssignment t.opID t.ID g)
      ⟨(Stmt.updateState "pending" t.ID t.opID).run w.db, w.faults.tail⟩ with
      ⟨e, _, h2⟩ | ⟨_, h2⟩
    · simp [h2] at h
    · simp [h2]

theorem runStmts_cons_done (s : Stmt) (ss : List Stmt) (tx : Tx) (fs : Faults)
    (h : (runStmts (s :: ss) tx fs).1 = none) : tx.done = false := by
  simp only [runStmts] at h
  rcases txExec_cases s tx fs with ⟨_, h1⟩ | ⟨hd, _⟩ | ⟨hd, _⟩
  · simp [h1] at h
  · exact hd
  · exact hd

theorem assigneesOf_insert (tb : Tables) (op : OperationID) (id : TaskID) (g : GoogleID) :
    assigneesOf ((Stmt.insertAssignment op id g).run tb) op id = assigneesOf tb op id ++ [g] := by
  simp [assigneesOf, Stmt.run, List.filter_append]

theorem assigneesOf_updateState (tb : Tables) (s : String) (id id1 : TaskID)
    (op op1 : OperationID) :
    assigneesOf ((Stmt.updateState s id op).run tb) op1 id1 = assigneesOf tb op1 id1 := rfl

theorem statesOf_insertAssignment (tb : Tables) (op op1 : OperationID) (id id1 : TaskID)
    (g : GoogleID) :
    statesOf ((Stmt.insertAssignment op id g).run tb) op1 id1 = statesOf tb op1 id1 := rfl

theorem statesOf_deleteAssignment (tb : Tables) (op op1 : OperationID) (id id1 : TaskID)
    (g : GoogleID) :
    statesOf ((Stmt.deleteAssignment op id g).run tb) op1 id1 = statesOf tb op1 id1 := rfl

theorem assigneesOf_deleteAssignment (tb : Tables) (op : OperationID) (id : TaskID)
    (g : GoogleID) :
    assigneesOf ((Stmt.deleteAssignment op id g).run tb) op id =
      (assigneesOf tb op id).filter (fun x => x ≠ g) := by
  simp only [assigneesOf, Stmt.run, List.filter_filter, List.filter_map]
  congr 1
  apply List.filter_congr
  intro r _
  by_cases h : r.opID = op ∧ r.taskID = id
  · by_cases hg : r.gid = g <;> simp [h.1, h.2, hg, Function.comp]
  · have : (r.opID == op && r.taskID == id) = false := by simpa using h
    simp [this, Function.comp]

/-! ## Effects task by task -/

theorem Acknowledge_nil (t : Task) (w : World) (h : (Acknowledge t w).1 = Ret.nil) :
    (Acknowledge t w).2.db = (Stmt.updateState "acknowledged" t.ID t.opID).run w.db := by
  unfold Acknowledge at h ⊢
  rcases dbExec_cases (Stmt.updateState "acknowledged" t.ID t.opID) w with ⟨e, _, h1⟩ | ⟨_, h1⟩
  · simp [h1] at h
  · simp [h1]

theorem Complete_nil (t : Task) (w : World) (h : (Complete t w).1 = Ret.nil) :
    (Complete t w).2.db = (Stmt.updateState "completed" t.ID t.opID).run w.db := by
  unfold Complete at h ⊢
  rcases dbExec_cases (Stmt.updateState "completed" t.ID t.opID) w with ⟨e, _, h1⟩ | ⟨_, h1⟩
  · simp [h1] at h
  · simp [h1]

theorem Incomplete_nil (t : Task) (w : World) (h : (Incomplete t w).1 = Ret.nil) :
    (Incomplete t w).2.db = (Stmt.updateState "assigned" t.ID t.opID).run w.db := by
  unfold Incomplete at h ⊢
  rcases dbExec_cases (Stmt.updateState "assigned" t.ID t.opID) w with ⟨e, _, h1⟩ | ⟨_, h1⟩
  · simp [h1] at h
  · simp [h1]

/-- ClearAssignments returns nil only when both statements ran on the caller's tables. -/
theorem ClearAssignments_nil (t : Task) (tx0 tx1 : Tx) (fs : Faults)
    (h : (ClearAssignments t (some tx0) fs).1 = Ret.nil)
    (h1 : (ClearAssignments t (some tx0) fs).2.1 = some tx1) :
    tx1.work = runAll (ClearAssignments.stmts t) tx0.work := by
  simp only [ClearAssignments, ClearAssignments_body_eq] at h h1
  have hw := runStmts_work (ClearAssignments.stmts t) tx0 fs
  rcases hr : runStmts (ClearAssignments.stmts t) tx0 fs with ⟨_ | e, tx2, fs2⟩
  · rw [hr] at h1 hw
    simp only [Option.some.injEq] at h1
    rw [← h1]
    exact hw rfl
  · rw [hr] at h
    simp at h

/-- A call that returned nil left the tables its statements produce. -/
theorem Call.succeeds_effect (c : Call) (tb tb1 : Tables) (h : c.succeeds tb tb1) :
    tb1 = c.effect tb := by
  cases c with
  | assign t =>
    obtain ⟨tx, w, h1, h2, h3⟩ := h
    rw [← h3, ← h2, Assign_written t tx w h1]
    rfl
  | clearAssignments t =>
    obtain ⟨tx0, fs, tx1, h1, h2, h3, h4⟩ := h
    rw [← h4, ← h3, ClearAssignments_nil t tx0 tx1 fs h1 h2]
    rfl
  | claim t g =>
    obtain ⟨fs, h1, h2⟩ := h
    rw [← h2, Claim_nil t g _ h1]
    rfl
  | reject t g =>
    obtain ⟨fs, h1, h2⟩ := h
    rw [← h2, Reject_nil t g _ h1]
    rfl
  | acknowledge t =>
    obtain ⟨fs, h1, h2⟩ := h
    rw [← h2, Acknowledge_nil t _ h1]
    rfl
  | complete t =>
    obtain ⟨fs, h1, h2⟩ := h
    rw [← h2, Complete_nil t _ h1]
    rfl
  | incomplete t =>
    obtain ⟨fs, h1, h2⟩ := h
    rw [← h2, Incomplete_nil t _ h1]
    rfl

theorem assignees_filter_key (a : List AssignmentRow) (op op1 : OperationID) (id id1 : TaskID) :
    (a.filter (fun r => !(r.taskID == id && r.opID == op))).filter
        (fun r => r.opID == op1 && r.taskID == id1) =
      if op1 = op ∧ id1 = id then [] else a.filter (fun r => r.opID == op1 && r.taskID == id1) := by
  rw [List.filter_filter]
  by_cases hq : op1 = op ∧ id1 = id
  · rw [if_pos hq, List.filter_eq_nil_iff]
    intro r _
    by_cases h : r.opID = op ∧ r.taskID = id
    · simp [h.1, h.2, hq.1, hq.2]
    · have : (r.opID == op && r.taskID == id) = false := by simpa using h
      simp [hq.1, hq.2, this]
  · rw [if_neg hq]
    apply List.filter_congr
    intro r _
    by_cases h : r.opID = op1 ∧ r.taskID = id1
    · have : ¬ (r.taskID = id ∧ r.opID = op) := fun hh => hq ⟨h.1 ▸ hh.2, h.2 ▸ hh.1⟩
      have h2 : (r.taskID == id && r.opID == op) = false := by simpa using this
      simp only [h2, Bool.not_false, Bool.and_true]
    · have : (r.opID == op1 && r.taskID == id1) = false := by simpa using h
      simp [this]

/-- Assignees of any task after a replace of the rows of task (op, id) by the agents gs. -/
theorem assigneesOf_replace (d : List DependsRow) (a : List AssignmentRow) (k k1 : List TaskRow)
    (op op1 : OperationID) (id id1 : TaskID) (gs : List GoogleID) :
    assigneesOf ⟨d, a.filter (fun r => !(r.taskID == id && r.opID == op)) ++
      gs.map (fun g => ⟨op, id, g⟩), k⟩ op1 id1 =
      if op1 = op ∧ id1 = id then gs else assigneesOf ⟨d, a, k1⟩ op1 id1 := by
  simp only [assigneesOf, List.filter_append, assignees_filter_key, List.map_append]
  by_cases hq : op1 = op ∧ id1 = id
  · obtain ⟨rfl, rfl⟩ := hq
    have h2 : List.filter (fun (r : AssignmentRow) => r.opID == op1 && r.taskID == id1)
        (gs.map (fun g => ⟨op1, id1, g⟩)) = gs.map (fun g => ⟨op1, id1, g⟩) := by
      simp
    simp [h2, Function.comp_def]
  · have h2 : List.filter (fun (r : AssignmentRow) => r.opID == op1 && r.taskID == id1)
        (gs.map (fun g => ⟨op, id, g⟩)) = [] := by
      rw [List.filter_eq_nil_iff]
      intro r hr
      obtain ⟨g, _, rfl⟩ := List.mem_map.mp hr
      have : ¬ (op = op1 ∧ id = id1) := fun hh => hq ⟨hh.1.symm, hh.2.symm⟩
      simpa using this
    simp [hq, h2]

theorem assigneesOf_insert_key (tb : Tables) (op op1 : OperationID) (id id1 : TaskID)
    (g : GoogleID) :
    assigneesOf ((Stmt.insertAssignment op id g).run tb) op1 id1 =
      assigneesOf tb op1 id1 ++ (if op1 = op ∧ id1 = id then [g] else []) := by
  simp only [assigneesOf, Stmt.run, List.filter_append, List.map_append]
  by_cases hq : op1 = op ∧ id1 = id
  · simp [hq.1, hq.2]
  · have : ¬ (op = op1 ∧ id = id1) := fun hh => hq ⟨hh.1.symm, hh.2.symm⟩
    have h2 : ((op == op1) && (id == id1)) = false := by simpa using this
    simp [hq, List.filter_cons, h2]

theorem assigneesOf_deleteAssignment_key (tb : Tables) (op op1 : OperationID) (id id1 : TaskID)
    (g : GoogleID) :
    assigneesOf ((Stmt.deleteAssignment op id g).run tb) op1 id1 =
      if op1 = op ∧ id1 = id then (assigneesOf tb op1 id1).filter (fun x => x ≠ g)
      else assigneesOf tb op1 id1 := by
  by_cases hq : op1 = op ∧ id1 = id
  · rw [if_pos hq, hq.1, hq.2]
    exact assigneesOf_deleteAssignment tb op id g
  · rw [if_neg hq]
    simp only [assigneesOf, Stmt.run, List.filter_filter]
    congr 1
    apply List.filter_congr
    intro r _
    by_cases h : r.opID = op1 ∧ r.taskID = id1
    · have : ¬ (r.opID = op ∧ r.taskID = id) := fun hh => hq ⟨h.1 ▸ hh.1, h.2 ▸ hh.2⟩
      have h2 : (r.opID == op && r.taskID == id) = false := by simpa using this
      simp [h2]
    · have : (r.opID == op1 && r.taskID == id1) = false := by simpa using h
      simp [this]

/-! ## The assignment invariant -/

/-- The invariant task by task: a task with an assignee has no pending row. -/
theorem NoPendingAssigned_iff (tb : Tables) :
    NoPendingAssigned tb ↔
      ∀ op id, assigneesOf tb op id ≠ [] → "pending" ∉ statesOf tb op id := by
  constructor
  · intro h op id hne hp
    obtain ⟨g, hg⟩ := List.exists_mem_of_ne_nil _ hne
    simp only [assigneesOf, List.mem_map, List.mem_filter, Bool.and_eq_true, beq_iff_eq] at hg
    obtain ⟨a, ⟨ha, ha1, ha2⟩, _⟩ := hg
    simp only [statesOf, List.mem_map, List.mem_filter, Bool.and_eq_true, beq_iff_eq] at hp
    obtain ⟨r, ⟨hr, hr1, hr2⟩, hst⟩ := hp
    exact h a ha r hr (hr1.trans ha2.symm) (hr2.trans ha1.symm) hst
  · intro h a ha r hr hid hop hst
    apply h a.opID a.taskID
    · apply List.ne_nil_of_mem (a := a.gid)
      simp only [assigneesOf, List.mem_map, List.mem_filter, Bool.and_eq_true, beq_iff_eq]
      exact ⟨a, ⟨ha, rfl, rfl⟩, rfl⟩
    · simp only [statesOf, List.mem_map, List.mem_filter, Bool.and_eq_true, beq_iff_eq]
      exact ⟨r, ⟨hr, hid, hop⟩, hst⟩

/-- A change that leaves the other tasks alone and leaves its own task without assignee or
without pending row keeps the invariant. -/
theorem NoPendingAssigned_of_local (tb tb1 : Tables) (op : OperationID) (id : TaskID)
    (hother : ∀ op1 id1, ¬ (op1 = op ∧ id1 = id) →
      assigneesOf tb1 op1 id1 = assigneesOf tb op1 id1 ∧
      statesOf tb1 op1 id1 = statesOf tb op1 id1)
    (hself : assigneesOf tb1 op id = [] ∨ "pending" ∉ statesOf tb1 op id)
    (h : NoPendingAssigned tb) : NoPendingAssigned tb1 := by
  rw [NoPendingAssigned_iff] at h ⊢
  intro op1 id1 hne
  by_cases hq : op1 = op ∧ id1 = id
  · obtain ⟨rfl, rfl⟩ := hq
    rcases hself with h1 | h1
    · exact absurd h1 hne
    · exact h1
  · obtain ⟨h1, h2⟩ := hother op1 id1 hq
    rw [h2]
    apply h
    rw [← h1]
    exact hne

/-- Assignees of any task after a call that returned nil. -/
theorem assigneesOf_effect (c : Call) (tb : Tables) (op1 : OperationID) (id1 : TaskID) :
    assigneesOf (c.effect tb) op1 id1 =
      if op1 = c.task.opID ∧ id1 = c.task.ID then
        match c with
        | .assign t => t.Assignments.filter (fun g => g ≠ "")
        | .clearAssignments _ => []
        | .claim _ g => assigneesOf tb op1 id1 ++ [g]
        | .reject _ g => (assigneesOf tb op1 id1).filter (fun x => x ≠ g)
        | _ => assigneesOf tb op1 id1
      else assigneesOf tb op1 id1 := by
  cases c with
  | assign t =>
    simp only [Call.effect, Call.task, runAll_Assign]
    exact assigneesOf_replace _ _ _ _ _ _ _ _ _
  | clearAssignments t =>
    simp only [Call.effect, Call.task, runAll_ClearAssignments]
    have := assigneesOf_replace tb.depends tb.assignments
      (tb.task.map (setState "pending" t.ID t.opID)) tb.task t.opID op1 t.ID id1 []
    simpa using this
  | claim t g =>
    simp only [Call.effect, Call.task, assigneesOf_insert_key, assigneesOf_updateState]
    split <;> simp
  | reject t g =>
    simp only [Call.effect, Call.task, assigneesOf_deleteAssignment_key, assigneesOf_updateState]
  | acknowledge t => simp [Call.effect, assigneesOf_updateState]
  | complete t => simp [Call.effect, assigneesOf_updateState]
  | incomplete t => simp [Call.effect, assigneesOf_updateState]

/-- States of any task after a call that returned nil. -/
theorem statesOf_effect (c : Call) (tb : Tables) (op1 : OperationID) (id1 : TaskID) :
    statesOf (c.effect tb) op1 id1 =
      if id1 = c.task.ID ∧ op1 = c.task.opID then
        (statesOf tb op1 id1).map (fun _ =>
          match c with
          | .assign t => if t.Assignments = [] then "pending" else "assigned"
          | .clearAssignments _ => "pending"
          | .claim _ _ => "assigned"
          | .reject _ _ => "pending"
          | .acknowledge _ => "acknowledged"
          | .complete _ => "completed"
          | .incomplete _ => "assigned")
      else statesOf tb op1 id1 := by
  cases c with
  | assign t =>
    simp only [Call.effect, Call.task]
    by_cases hq : id1 = t.ID ∧ op1 = t.opID
    · obtain ⟨rfl, rfl⟩ := hq
      simp [statesOf_runAll_Assign]
    · rw [if_neg hq, runAll_Assign]
      by_cases hl : t.Assignments.length > 0
      · simp only [statesOf, hl, if_true]
        rw [statesOf_setState, statesOf_setState]
        simp [hq]
      · simp only [statesOf, hl, if_false]
        rw [statesOf_setState]
        simp [hq]
  | clearAssignments t =>
    simp only [Call.effect, Call.task, runAll_ClearAssignments, statesOf]
    rw [statesOf_setState]
  | claim t g =>
    simp only [Call.effect, Call.task, statesOf_insertAssignment, statesOf_updateState]
  | reject t g =>
    simp only [Call.effect, Call.task, statesOf_deleteAssignment, statesOf_updateState]
  | acknowledge t => simp only [Call.effect, Call.task, statesOf_updateState]
  | complete t => simp only [Call.effect, Call.task, statesOf_updateState]
  | incomplete t => simp only [Call.effect, Call.task, statesOf_updateState]

/-- One call keeps the invariant, a Reject when it is made by the last assignee. -/
theorem NoPendingAssigned_effect (c : Call) (tb : Tables) (hok : rejectByLastAssignee c tb)
    (h : NoPendingAssigned tb) : NoPendingAssigned (c.effect tb) := by
  apply NoPendingAssigned_of_local tb (c.effect tb) c.task.opID c.task.ID _ _ h
  · intro op1 id1 hq
    have hq2 : ¬ (id1 = c.task.ID ∧ op1 = c.task.opID) := fun hh => hq ⟨hh.2, hh.1⟩
    rw [assigneesOf_effect, statesOf_effect, if_neg hq, if_neg hq2]
    exact ⟨rfl, rfl⟩
  · rw [assigneesOf_effect, statesOf_effect]
    simp only [and_self, if_true]
    cases c with
    | assign t =>
      by_cases hA : t.Assignments = []
      · left
        simp [hA]
      · right
        simp [hA]
    | clearAssignments t => left; rfl
    | claim t g => right; simp
    | reject t g =>
      left
      simp only [rejectByLastAssignee, Call.task] at hok ⊢
      rw [List.filter_eq_nil_iff]
      intro x hx
      simp [hok x hx]
    | acknowledge t => right; simp
    | complete t => right; simp
    | incomplete t => right; simp

/-! ## Failures -/

theorem inCallerTx_ret (ss : List Stmt) (tb : Tables) (w : World) :
    (inCallerTx (runStmts ss) ⟨tb, false⟩ w).1 = Ret.ofError (firstFault ss.length w.faults) := by
  have hs := (runStmts_spec ss ⟨tb, false⟩ w.faults rfl).1
  rcases hr : runStmts ss ⟨tb, false⟩ w.faults with ⟨_ | e, tx1, fs1⟩
  · rw [hr] at hs
    simp only at hs
    simp [inCallerTx, hr, ← hs, Ret.ofError]
  · rw [hr] at hs
    simp only at hs
    simp [inCallerTx, hr, ← hs, Ret.ofError]

/-- A call in a transaction of its own that does not return nil leaves the committed tables
as they were. -/
theorem inOwnTx_not_nil (ss : List Stmt) (w : World)
    (h : (inOwnTx (runStmts ss) w).1 ≠ Ret.nil) : (inOwnTx (runStmts ss) w).2.2.db = w.db := by
  cases hb : nextFault w.faults with
  | some e => exact (inOwnTx_begin_failed (runStmts ss) w e hb).2
  | none =>
    obtain ⟨h1, _, h3⟩ := inOwnTx_spec ss w hb
    cases hf : firstFault (ss.length + 1) w.faults.tail with
    | none =>
      rw [h1, hf] at h
      exact absurd rfl h
    | some e =>
      rw [h3, hf]
      simp

/-- A call in a transaction of its own whose Begin succeeded and one of whose statements or
whose commit fails returns the first failure and leaves the committed tables as they were. -/
theorem inOwnTx_fault (ss : List Stmt) (db : Tables) (fs : Faults) (e : StorageError)
    (h : firstFault (ss.length + 1) fs = some e) :
    (inOwnTx (runStmts ss) ⟨db, none :: fs⟩).1 = Ret.err e ∧
    (inOwnTx (runStmts ss) ⟨db, none :: fs⟩).2.2.db = db := by
  obtain ⟨h1, _, h3⟩ := inOwnTx_spec ss ⟨db, none :: fs⟩ rfl
  simp only [List.tail_cons] at h1 h3
  rw [h1, h3, h]
  simp [Ret.ofError]

theorem SetDepends_stmts_length (t : Task) (d : List TaskID) :
    (SetDepends.stmts t d).length = d.length + 1 := by
  simp [SetDepends.stmts]

theorem dependsPrecache_query_ok (o : OperationID) (w : World) (h : nextFault w.faults = none) :
    (dependsPrecache o w).2.1 = none := by
  simp [dependsPrecache, h]

theorem GetAssignments_query_ok (t : Task) (w : World) (h : nextFault w.faults = none) :
    (GetAssignments t w).2.1 = none := by
  unfold GetAssignments
  split
  · rfl
  · simp [h]

/-! ## The dependency table under the assignment statements -/

/-- Statements that leave table depends alone. -/
theorem runStmts_depends (ss : List Stmt)
    (hss : ∀ s ∈ ss, ∀ tb : Tables, (s.run tb).depends = tb.depends) (tx : Tx) (fs : Faults) :
    (runStmts ss tx fs).2.1.work.depends = tx.work.depends := by
  induction ss generalizing tx fs with
  | nil => rfl
  | cons s rest ih =>
    simp only [runStmts]
    rcases txExec_cases s tx fs with ⟨_, h1⟩ | ⟨_, e, _, h1⟩ | ⟨_, _, h1⟩
    · simp [h1]
    · simp [h1]
    · simp only [h1]
      rw [ih (fun s1 hs1 => hss s1 (List.mem_cons_of_mem _ hs1))]
      exact hss s (List.mem_cons_self _ _) tx.work

theorem runAll_depends (ss : List Stmt)
    (hss : ∀ s ∈ ss, ∀ tb : Tables, (s.run tb).depends = tb.depends) (tb : Tables) :
    (runAll ss tb).depends = tb.depends := by
  induction ss generalizing tb with
  | nil => rfl
  | cons s rest ih =>
    rw [runAll_cons, ih (fun s1 hs1 => hss s1 (List.mem_cons_of_mem _ hs1))]
    exact hss s (List.mem_cons_self _ _) tb

theorem Assign_stmts_depends (t : Task) :
    ∀ s ∈ Assign.stmts t, ∀ tb : Tables, (s.run tb).depends = tb.depends := by
  intro s hs tb
  simp only [Assign.stmts, ClearAssignments.stmts, List.mem_append, List.mem_cons,
    List.mem_singleton, List.not_mem_nil, or_false] at hs
  rcases hs with (rfl | rfl) | hs
  · rfl
  · rfl
  · split at hs
    · simp only [List.mem_append, List.mem_map, List.mem_singleton] at hs
      rcases hs with ⟨g, _, rfl⟩ | rfl
      · rfl
      · rfl
    · simp at hs

theorem ClearAssignments_stmts_depends (t : Task) :
    ∀ s ∈ ClearAssignments.stmts t, ∀ tb : Tables, (s.run tb).depends = tb.depends := by
  intro s hs tb
  simp only [ClearAssignments.stmts, List.mem_cons, List.mem_singleton, List.not_mem_nil,
    or_false] at hs
  rcases hs with rfl | rfl <;> rfl

/-- A run in a transaction of its own leaves table depends as it was, whatever the outcome. -/
theorem inOwnTx_depends (ss : List Stmt)
    (hss : ∀ s ∈ ss, ∀ tb : Tables, (s.run tb).depends = tb.depends) (w : World) :
    (inOwnTx (runStmts ss) w).2.1 = none ∧
    (inOwnTx (runStmts ss) w).2.2.db.depends = w.db.depends := by
  cases hb : nextFault w.faults with
  | some e =>
    have h := (inOwnTx_begin_failed (runStmts ss) w e hb).2
    refine ⟨?_, by rw [h]⟩
    simp [inOwnTx, dbBegin, hb]
  | none =>
    obtain ⟨_, h2, h3⟩ := inOwnTx_spec ss w hb
    refine ⟨h2, ?_⟩
    rw [h3]
    split
    · exact runAll_depends ss hss w.db
    · rfl

/-- A run in the caller's transaction leaves table depends as it was, in the transaction and
in the committed tables, whatever the outcome. -/
theorem inCallerTx_depends (ss : List Stmt)
    (hss : ∀ s ∈ ss, ∀ tb : Tables, (s.run tb).depends = tb.depends) (tx : Tx) (w : World) :
    (written (inCallerTx (runStmts ss) tx w)).depends = tx.work.depends ∧
    (inCallerTx (runStmts ss) tx w).2.2.db.depends = w.db.depends := by
  have h := runStmts_depends ss hss tx w.faults
  rcases hr : runStmts ss tx w.faults with ⟨_ | e, tx1, fs1⟩
  · rw [hr] at h
    simp only [inCallerTx, hr, written]
    exact ⟨h, trivial⟩
  · rw [hr] at h
    simp only [inCallerTx, hr, written]
    exact ⟨h, trivial⟩

theorem dbExec_fields (s : Stmt) (w : World) :
    (dbExec s w).2.db = w.db ∨ (dbExec s w).2.db = s.run w.db := by
  rcases dbExec_cases s w with ⟨e, _, h⟩ | ⟨_, h⟩
  · left
    rw [h]
  · right
    rw [h]

/-- A call made of one UPDATE of the state column on `db`: it returns nil exactly when the
statement did not fail, and it never touches the tables of assignments and dependencies. -/
theorem dbExec_updateState (s : String) (id : TaskID) (op : OperationID) (w : World) :
    ((dbExec (Stmt.updateState s id op) w).1 = none ↔ nextFault w.faults = none) ∧
    (dbExec (Stmt.updateState s id op) w).2.db.assignments = w.db.assignments ∧
    (dbExec (Stmt.updateState s id op) w).2.db.depends = w.db.depends := by
  rcases dbExec_cases (Stmt.updateState s id op) w with ⟨e, hf, h⟩ | ⟨hf, h⟩
  · rw [h]
    simp [hf]
  · rw [h]
    simp [hf, Stmt.run]

/-! ## Task lookup -/

theorem GetTask_markers_find (taskID : TaskID) (ms : List Marker) :
    GetTask.markers taskID ms =
      (ms.find? (fun m => m.Task.ID == taskID)).map (fun m => m.Task) := by
  induction ms with
  | nil => rfl
  | cons m rest ih =>
    by_cases h : m.Task.ID = taskID
    · simp [GetTask.markers, List.find?_cons, h]
    · simp [GetTask.markers, List.find?_cons, h, ih]

theorem GetTask_links_find (taskID : TaskID) (ls : List Link) :
    GetTask.links taskID ls =
      (ls.find? (fun l => l.Task.ID == taskID)).map (fun l => l.Task) := by
  induction ls with
  | nil => rfl
  | cons l rest ih =>
    by_cases h : l.Task.ID = taskID
    · simp [GetTask.links, List.find?_cons, h]
    · simp [GetTask.links, List.find?_cons, h, ih]

theorem GetTaskByStepNumber_markers_find (step : Int) (ms : List Marker) :
    GetTaskByStepNumber.markers step ms =
      (ms.find? (fun m => m.Task.Order == step)).map (fun m => m.Task) := by
  induction ms with
  | nil => rfl
  | cons m rest ih =>
    by_cases h : m.Task.Order = step
    · simp [GetTaskByStepNumber.markers, List.find?_cons, h]
    · simp [GetTaskByStepNumber.markers, List.find?_cons, h, ih]

theorem GetTaskByStepNumber_links_find (step : Int) (ls : List Link) :
    GetTaskByStepNumber.links step ls =
      (ls.find? (fun l => l.Task.Order == step)).map (fun l => l.Task) := by
  induction ls with
  | nil => rfl
  | cons l rest ih =>
    by_cases h : l.Task.Order = step
    · simp [GetTaskByStepNumber.links, List.find?_cons, h]
    · simp [GetTaskByStepNumber.links, List.find?_cons, h, ih]

/-- The scan finds nothing exactly when no marker and no link satisfies the test. -/
theorem firstTask_eq_none_iff (p : Task → Bool) (o : Operation) :
    firstTask p o = none ↔
      (∀ m ∈ o.Markers, p m.Task = false) ∧ (∀ l ∈ o.Links, p l.Task = false) := by
  unfold firstTask
  cases hm : o.Markers.find? (fun m => p m.Task) with
  | some m =>
    constructor
    · intro h
      cases h
    · intro hall
      have := List.find?_some hm
      have h2 := hall.1 m (List.mem_of_find?_eq_some hm)
      simp [h2] at this
  | none =>
    cases hl : o.Links.find? (fun l => p l.Task) with
    | some l =>
      constructor
      · intro h
        cases h
      · intro hall
        have := List.find?_some hl
        have h2 := hall.2 l (List.mem_of_find?_eq_some hl)
        simp [h2] at this
    | none =>
      simp only [true_iff]
      rw [List.find?_eq_none] at hm hl
      exact ⟨fun m h => by simpa using hm m h, fun l h => by simpa using hl l h⟩

/-- GetTask returns what the scan finds, and the empty Task with the error otherwise. -/
theorem GetTask_eq (o : Operation) (taskID : TaskID) :
    GetTask o taskID =
      match firstTask (fun t => t.ID == taskID) o with
      | some t => (some t, none)
      | none => (some emptyTask, some "task not found") := by
  unfold GetTask firstTask
  rw [GetTask_markers_find, GetTask_links_find]
  cases o.Markers.find? (fun m => m.Task.ID == taskID) with
  | some m => rfl
  | none =>
    cases o.Links.find? (fun l => l.Task.ID == taskID) with
    | some l => rfl
    | none => rfl

theorem GetTaskByStepNumber_eq (o : Operation) (step : Int) :
    GetTaskByStepNumber o step =
      match firstTask (fun t => t.Order == step) o with
      | some t => (some t, none)
      | none => (some emptyTask, some "task not found") := by
  unfold GetTaskByStepNumber firstTask
  rw [GetTaskByStepNumber_markers_find, GetTaskByStepNumber_links_find]
  cases o.Markers.find? (fun m => m.Task.Order == step) with
  | some m => rfl
  | none =>
    cases o.Links.find? (fun l => l.Task.Order == step) with
    | some l => rfl
    | none => rfl

theorem find_first {α : Type} (q : α → Bool) (pre post : List α) (x : α)
    (hx : q x = true) (hpre : ∀ y ∈ pre, q y = false) :
    (pre ++ x :: post).find? q = some x := by
  induction pre with
  | nil => simp [List.find?_cons, hx]
  | cons y rest ih =>
    have hy := hpre y (List.mem_cons_self _ _)
    simp only [List.cons_append, List.find?_cons, hy]
    exact ih (fun z hz => hpre z (List.mem_cons_of_mem _ hz))

/-- The scan returns the first marker that satisfies the test. -/
theorem firstTask_marker (p : Task → Bool) (o : Operation) (pre post : List Marker)
    (m : Marker) (ho : o.Markers = pre ++ m :: post) (hm : p m.Task = true)
    (hpre : ∀ x ∈ pre, p x.Task = false) : firstTask p o = some m.Task := by
  unfold firstTask
  rw [ho, find_first (fun m => p m.Task) pre post m hm hpre]

/-- The scan returns the first link that satisfies the test when no marker does. -/
theorem firstTask_link (p : Task → Bool) (o : Operation) (pre post : List Link)
    (l : Link) (hms : ∀ m ∈ o.Markers, p m.Task = false)
    (ho : o.Links = pre ++ l :: post) (hl : p l.Task = true)
    (hpre : ∀ x ∈ pre, p x.Task = false) : firstTask p o = some l.Task := by
  unfold firstTask
  have h1 : o.Markers.find? (fun m => p m.Task) = none := by
    rw [List.find?_eq_none]
    intro m hm
    simp [hms m hm]
  rw [h1, ho, find_first (fun l => p l.Task) pre post l hl hpre]

/-! ## Firebase handlers -/

theorem clientSend_cases (m : Message) (w : FbWorld) :
    (∃ e, nextFault w.faults = some e ∧
      clientSend m w = (some e, ⟨w.tokens, w.sends ++ [⟨m, false⟩], w.topicCalls,
        w.faults.tail⟩)) ∨
    (nextFault w.faults = none ∧
      clientSend m w = (none, ⟨w.tokens, w.sends ++ [⟨m, true⟩], w.topicCalls,
        w.faults.tail⟩)) := by
  unfold clientSend
  cases h : nextFault w.faults <;> simp

theorem genericMessage_loop_eq (fb : FirebaseCmd) (tokens : List String) (w : FbWorld) :
    genericMessage.loop fb tokens w =
      fanOut (genericMsg fb) (tokens.filter (fun token => token ≠ "")) w := by
  induction tokens generalizing w with
  | nil => rfl
  | cons token rest ih =>
    by_cases h : token = ""
    · simp [genericMessage.loop, h, ih]
    · simp [genericMessage.loop, h, fanOut, genericMsg, ih]

theorem markerAssignmentChange_loop_eq (fb : FirebaseCmd) (tokens : List String)
    (w : FbWorld) :
    markerAssignmentChange.loop fb tokens w =
      fanOut (markerAssignmentMsg fb) (tokens.filter (fun token => token ≠ "")) w := by
  induction tokens generalizing w with
  | nil => rfl
  | cons token rest ih =>
    by_cases h : token = ""
    · simp [markerAssignmentChange.loop, h, ih]
    · simp [markerAssignmentChange.loop, h, fanOut, markerAssignmentMsg, ih]

theorem linkAssignmentChange_loop_eq (fb : FirebaseCmd) (tokens : List String) (w : FbWorld) :
    linkAssignmentChange.loop fb tokens w =
      fanOut (linkAssignmentMsg fb) (tokens.filter (fun token => token ≠ "")) w := by
  induction tokens generalizing w with
  | nil => rfl
  | cons token rest ih =>
    by_cases h : token = ""
    · simp [linkAssignmentChange.loop, h, ih]
    · simp [linkAssignmentChange.loop, h, fanOut, linkAssignmentMsg, ih]

/-- When no send fails the fan-out calls `c.Send` once for each token, in order. -/
theorem fanOut_ok (mk : String → Message) (toks : List String) (w : FbWorld)
    (h : firstFault toks.length w.faults = none) :
    fanOut mk toks w =
      (Ret.nil, ⟨w.tokens, w.sends ++ toks.map (fun token => ⟨mk token, true⟩), w.topicCalls,
        w.faults.drop toks.length⟩) := by
  induction toks generalizing w with
  | nil =>
    cases w
    simp [fanOut]
  | cons token rest ih =>
    simp only [List.length_cons, firstFault] at h
    rcases clientSend_cases (mk token) w with ⟨e, hf, _⟩ | ⟨hf, hs⟩
    · simp [hf] at h
    · simp only [hf] at h
      simp only [fanOut, hs]
      rw [ih _ h]
      cases hfs : w.faults <;> simp

theorem fanOut_append (mk : String → Message) (a b : List String) (w : FbWorld) :
    fanOut mk (a ++ b) w =
      match fanOut mk a w with
      | (Ret.nil, w1) => fanOut mk b w1
      | r => r := by
  induction a generalizing w with
  | nil => simp [fanOut]
  | cons token rest ih =>
    simp only [List.cons_append, fanOut]
    rcases clientSend_cases (mk token) w with ⟨e, _, hs⟩ | ⟨_, hs⟩
    · simp [hs]
    · simp only [hs]
      exact ih _

/-- The fan-out stops at the first send that fails: the tokens before it got their message,
the failing send is the last call, and nothing is sent to the tokens after it. -/
theorem fanOut_fail (mk : String → Message) (pre post : List String) (token : String)
    (w : FbWorld) (e : String) (hpre : firstFault pre.length w.faults = none)
    (hf : nextFault (w.faults.drop pre.length) = some e) :
    fanOut mk (pre ++ token :: post) w =
      (Ret.err e, ⟨w.tokens,
        w.sends ++ pre.map (fun x => ⟨mk x, true⟩) ++ [⟨mk token, false⟩], w.topicCalls,
        (w.faults.drop pre.length).tail⟩) := by
  rw [fanOut_append, fanOut_ok mk pre w hpre]
  simp only [fanOut]
  rcases clientSend_cases (mk token)
    ⟨w.tokens, w.sends ++ pre.map (fun x => ⟨mk x, true⟩), w.topicCalls,
      w.faults.drop pre.length⟩ with ⟨e1, hf1, hs⟩ | ⟨hf1, _⟩
  · simp only at hf1
    rw [hf] at hf1
    cases hf1
    simp [hs]
  · simp only at hf1
    rw [hf] at hf1
    cases hf1

theorem genericMessage_eq (fb : FirebaseCmd) (w : FbWorld) :
    genericMessage fb w = agentHandler genericMsg fb w := by
  unfold genericMessage agentHandler
  split
  · rfl
  · rcases FirebaseTokens fb.Gid w with ⟨tokens, _ | e, w1⟩
    · exact genericMessage_loop_eq fb tokens w1
    · rfl

theorem markerAssignmentChange_eq (fb : FirebaseCmd) (w : FbWorld) :
    markerAssignmentChange fb w = agentHandler markerAssignmentMsg fb w := by
  unfold markerAssignmentChange agentHandler
  split
  · rfl
  · rcases FirebaseTokens fb.Gid w with ⟨tokens, _ | e, w1⟩
    · exact markerAssignmentChange_loop_eq fb tokens w1
    · rfl

theorem linkAssignmentChange_eq (fb : FirebaseCmd) (w : FbWorld) :
    linkAssignmentChange fb w = agentHandler linkAssignmentMsg fb w := by
  unfold linkAssignmentChange agentHandler
  split
  · rfl
  · rcases FirebaseTokens fb.Gid w with ⟨tokens, _ | e, w1⟩
    · exact linkAssignmentChange_loop_eq fb tokens w1
    · rfl

/-- An agent-addressed handler after a successful token lookup is the fan-out to the
non-blank tokens of the agent. -/
theorem agentHandler_lookup_ok (mk : FirebaseCmd → String → Message) (fb : FirebaseCmd)
    (w : FbWorld) (hg : fb.Gid ≠ "") (hl : nextFault w.faults = none) :
    agentHandler mk fb w =
      fanOut (mk fb) (nonBlankTokens w fb.Gid)
        ⟨w.tokens, w.sends, w.topicCalls, w.faults.tail⟩ := by
  simp [agentHandler, hg, FirebaseTokens, hl, nonBlankTokens]

theorem agentHandler_all_ok (mk : FirebaseCmd → String → Message) (fb : FirebaseCmd)
    (w : FbWorld) (hg : fb.Gid ≠ "") (hl : nextFault w.faults = none)
    (hs : firstFault (nonBlankTokens w fb.Gid).length w.faults.tail = none) :
    (agentHandler mk fb w).1 = Ret.nil ∧
    (agentHandler mk fb w).2.sends =
      w.sends ++ (nonBlankTokens w fb.Gid).map (fun token => ⟨mk fb token, true⟩) := by
  rw [agentHandler_lookup_ok mk fb w hg hl, fanOut_ok _ _ _ hs]
  exact ⟨rfl, rfl⟩

theorem agentHandler_first_failure (mk : FirebaseCmd → String → Message) (fb : FirebaseCmd)
    (w : FbWorld) (pre post : List String) (token : String) (e : String)
    (hg : fb.Gid ≠ "") (hl : nextFault w.faults = none)
    (ht : nonBlankTokens w fb.Gid = pre ++ token :: post)
    (hpre : firstFault pre.length w.faults.tail = none)
    (hf : nextFault (w.faults.tail.drop pre.length) = some e) :
    (agentHandler mk fb w).1 = Ret.err e ∧
    (agentHandler mk fb w).2.sends =
      w.sends ++ pre.map (fun x => ⟨mk fb x, true⟩) ++ [⟨mk fb token, false⟩] := by
  rw [agentHandler_lookup_ok mk fb w hg hl, ht,
    fanOut_fail (mk fb) pre post token _ e hpre hf]
  exact ⟨rfl, rfl⟩

theorem agentHandler_no_agent (mk : FirebaseCmd → String → Message) (fb : FirebaseCmd)
    (w : FbWorld) (hg : fb.Gid = "") : agentHandler mk fb w = (Ret.nil, w) := by
  simp [agentHandler, hg]

/-- One send to the topic of the team, for a handler of the shape shared by the five
team-addressed handlers. -/
theorem sendsOnceToTeam_of_shape (h : FirebaseCmd → FbWorld → Ret × FbWorld)
    (data : FirebaseCmd → List (String × String)) (msg : String)
    (hh : ∀ fb w, h fb w =
      if fb.TeamID = "" then (Ret.err msg, w)
      else
        match clientSend ⟨"", fb.TeamID, data fb⟩ w with
        | (some e, w1) => (Ret.err e, w1)
        | (none, w1) => (Ret.nil, w1))
    (fb : FirebaseCmd) (w : FbWorld) : sendsOnceToTeam h fb w := by
  constructor
  · intro ht
    refine ⟨⟨"", fb.TeamID, data fb⟩, rfl, rfl, ?_⟩
    rw [hh, if_neg ht]
    rcases clientSend_cases ⟨"", fb.TeamID, data fb⟩ w with ⟨e, hf, hs⟩ | ⟨hf, hs⟩
    · simp [hs, hf, Ret.ofError]
    · simp [hs, hf, Ret.ofError]
  · intro ht
    rw [hh, if_pos ht]
    exact ⟨⟨msg, rfl⟩, rfl⟩

/-! ## Token pruning -/

theorem tokensOf_FirebaseRemoveToken (gid gid1 : GoogleID) (token : String) (w : FbWorld) :
    tokensOf (FirebaseRemoveToken gid token w) gid1 =
      if gid1 = gid then (tokensOf w gid1).filter (fun x => x ≠ token) else tokensOf w gid1 := by
  simp only [tokensOf, FirebaseRemoveToken, List.filter_filter, List.filter_map]
  by_cases hq : gid1 = gid
  · rw [if_pos hq]
    congr 1
    apply List.filter_congr
    intro r _
    by_cases h1 : r.1 = gid
    · by_cases h2 : r.2 = token <;> simp [h1, h2, hq, Function.comp]
    · have hb1 : (r.1 == gid) = false := by simpa using h1
      simp [hb1, hq, Function.comp]
  · rw [if_neg hq]
    congr 1
    apply List.filter_congr
    intro r _
    by_cases h1 : r.1 = gid1
    · have : ¬ r.1 = gid := fun hh => hq (h1.symm.trans hh)
      have hb1 : (r.1 == gid) = false := by simpa using this
      simp [hb1]
    · have hb1 : (r.1 == gid1) = false := by simpa using h1
      simp [hb1]

/-- With every index in range the loop over the errors removes, for the agent, the rows of the
reported tokens and no other row, and ends without panic. -/
theorem subscribeToTeam_errors_spec (gid : GoogleID) (tokens : List String)
    (errs : List ErrorInfo) (w : FbWorld)
    (hidx : ∀ f ∈ errs, 0 ≤ f.Index ∧ f.Index < tokens.length) :
    subscribeToTeam.errors gid tokens errs w =
      (Ret.nil, ⟨w.tokens.filter
        (fun r => !(r.1 == gid && (reportedTokens tokens errs).contains r.2)),
        w.sends, w.topicCalls, w.faults⟩) := by
  induction errs generalizing w with
  | nil =>
    cases w
    simp [subscribeToTeam.errors, reportedTokens]
  | cons f rest ih =>
    obtain ⟨h0, h1⟩ := hidx f (List.mem_cons_self _ _)
    have hlt : f.Index.toNat < tokens.length := by omega
    have hget : tokens[f.Index.toNat]? = some (tokens[f.Index.toNat]) :=
      List.getElem?_eq_getElem hlt
    have hneg : ¬ f.Index < 0 := by omega
    simp only [subscribeToTeam.errors, hneg, if_false, hget]
    rw [ih _ (fun g hg => hidx g (List.mem_cons_of_mem _ hg))]
    simp only [FirebaseRemoveToken, List.filter_filter, reportedTokens, List.filterMap_cons,
      hneg, if_false, hget]
    congr 2
    apply List.filter_congr
    intro r _
    by_cases ha : r.1 = gid
    · by_cases hb : r.2 = tokens[f.Index.toNat]
      · simp [ha, hb]
      · have hb2 : ¬ tokens[f.Index.toNat] = r.2 := fun hh => hb hh.symm
        simp [ha, hb, hb2, List.contains_cons]
    · have hb1 : (r.1 == gid) = false := by simpa using ha
      simp [hb1]

/-- The handler on a well-formed response: one topic call, then the pruning. -/
theorem subscribeToTeam_response (fb : FirebaseCmd) (r : TopicManagementResponse)
    (w : FbWorld) (hg : fb.Gid ≠ "") (ht : fb.TeamID ≠ "") (hl : nextFault w.faults = none)
    (hcount : r.Errors ≠ [] → 0 < r.FailureCount)
    (hidx : ∀ f ∈ r.Errors, 0 ≤ f.Index ∧ f.Index < (tokensOf w fb.Gid).length) :
    (subscribeToTeam fb (some r, none) w).1 = Ret.nil ∧
    (subscribeToTeam fb (some r, none) w).2.tokens =
      w.tokens.filter (fun row =>
        !(row.1 == fb.Gid && (reportedTokens (tokensOf w fb.Gid) r.Errors).contains row.2)) := by
  by_cases hempty : r.Errors = []
  · have hfilter : w.tokens.filter (fun row =>
        !(row.1 == fb.Gid && (reportedTokens (tokensOf w fb.Gid) r.Errors).contains row.2)) =
        w.tokens := by
      rw [hempty]
      simp [reportedTokens]
    rw [hfilter]
    simp only [subscribeToTeam, hg, ht, if_false, FirebaseTokens, hl]
    split
    · exact ⟨rfl, rfl⟩
    · split
      · rw [hempty]
        simp [subscribeToTeam.errors]
      · exact ⟨rfl, rfl⟩
  · have hpos := hcount hempty
    have hlen : ¬ (tokensOf w fb.Gid).length = 0 := by
      obtain ⟨f, hf⟩ := List.exists_mem_of_ne_nil _ hempty
      have := hidx f hf
      omega
    simp only [subscribeToTeam, hg, ht, if_false, FirebaseTokens, hl, hlen, hpos, gt_iff_lt,
      if_true]
    rw [subscribeToTeam_errors_spec _ _ _ _ hidx]
    exact ⟨rfl, rfl⟩

theorem prune_tokens (rows : List (GoogleID × String)) (gid gid1 : GoogleID)
    (reported : List String) :
    ((rows.filter (fun row => !(row.1 == gid && reported.contains row.2))).filter
        (fun r => r.1 == gid1)).map (fun r => r.2) =
      if gid1 = gid then
        ((rows.filter (fun r => r.1 == gid1)).map (fun r => r.2)).filter
          (fun x => !reported.contains x)
      else (rows.filter (fun r => r.1 == gid1)).map (fun r => r.2) := by
  rw [List.filter_filter]
  by_cases hq : gid1 = gid
  · rw [if_pos hq, List.filter_map, List.filter_filter]
    congr 1
    apply List.filter_congr
    intro r _
    by_cases h1 : r.1 = gid
    · simp [h1, hq, Function.comp]
    · have hb1 : (r.1 == gid) = false := by simpa using h1
      simp [hb1, hq, Function.comp]
  · rw [if_neg hq]
    congr 1
    apply List.filter_congr
    intro r _
    by_cases h1 : r.1 = gid1
    · have : ¬ r.1 = gid := fun hh => hq (h1.symm.trans hh)
      have hb1 : (r.1 == gid) = false := by simpa using this
      simp [hb1]
    · have hb1 : (r.1 == gid1) = false := by simpa using h1
      simp [hb1]

/-! ## Frame lemmas -/

theorem sameElsewhere_refl (op : OperationID) (id : TaskID) (tb : Tables) :
    sameElsewhere op id tb tb :=
  fun _ _ _ => ⟨rfl, rfl, rfl⟩

theorem sameElsewhere_trans (op : OperationID) (id : TaskID) (a b c : Tables)
    (h1 : sameElsewhere op id a b) (h2 : sameElsewhere op id b c) : sameElsewhere op id a c := by
  intro op1 id1 hq
  obtain ⟨x1, x2, x3⟩ := h1 op1 id1 hq
  obtain ⟨y1, y2, y3⟩ := h2 op1 id1 hq
  exact ⟨y1.trans x1, y2.trans x2, y3.trans x3⟩

theorem dependsOf_deleteDepends_other (tb : Tables) (op op1 : OperationID) (id id1 : TaskID)
    (hq : ¬ (op1 = op ∧ id1 = id)) :
    dependsOf ((Stmt.deleteDepends op id).run tb) op1 id1 = dependsOf tb op1 id1 := by
  simp only [dependsOf, Stmt.run, List.filter_filter]
  congr 1
  apply List.filter_congr
  intro r _
  by_cases h : r.opID = op1 ∧ r.taskID = id1
  · have : ¬ (r.opID = op ∧ r.taskID = id) := fun hh => hq ⟨h.1 ▸ hh.1, h.2 ▸ hh.2⟩
    have h2 : (r.opID == op && r.taskID == id) = false := by simpa using this
    simp [h2]
  · have : (r.opID == op1 && r.taskID == id1) = false := by simpa using h
    simp [this]

theorem dependsOf_insertDepends_other (tb : Tables) (op op1 : OperationID) (id id1 x : TaskID)
    (hq : ¬ (op1 = op ∧ id1 = id)) :
    dependsOf ((Stmt.insertDepends op id x).run tb) op1 id1 = dependsOf tb op1 id1 := by
  have : ¬ (op = op1 ∧ id = id1) := fun hh => hq ⟨hh.1.symm, hh.2.symm⟩
  have h2 : ((op == op1) && (id == id1)) = false := by simpa using this
  simp [dependsOf, Stmt.run, List.filter_append, List.filter_cons, h2]

/-- A statement changes nothing outside the task it is addressed to. -/
theorem Stmt_run_sameElsewhere (s : Stmt) (tb : Tables) :
    sameElsewhere s.key.1 s.key.2 tb (s.run tb) := by
  intro op1 id1 hq
  cases s with
  | deleteDepends op t =>
    exact ⟨rfl, rfl, dependsOf_deleteDepends_other tb op op1 t id1 hq⟩
  | insertDepends op t x =>
    exact ⟨rfl, rfl, dependsOf_insertDepends_other tb op op1 t id1 x hq⟩
  | deleteAssignments t op =>
    refine ⟨?_, rfl, rfl⟩
    simp only [Stmt.key] at hq
    simp only [assigneesOf, Stmt.run, assignees_filter_key, if_neg hq]
  | insertAssignment op t g =>
    refine ⟨?_, rfl, rfl⟩
    simp only [Stmt.key] at hq
    rw [assigneesOf_insert_key, if_neg hq, List.append_nil]
  | deleteAssignment op t g =>
    refine ⟨?_, rfl, rfl⟩
    simp only [Stmt.key] at hq
    rw [assigneesOf_deleteAssignment_key, if_neg hq]
  | updateState st id op =>
    refine ⟨rfl, ?_, rfl⟩
    simp only [Stmt.key] at hq
    have hq2 : ¬ (id1 = id ∧ op1 = op) := fun hh => hq ⟨hh.2, hh.1⟩
    rw [statesOf_updateState, if_neg hq2]

/-- A run of statements addressed to one task, complete or cut short by a failure, changes
nothing outside that task. -/
theorem runStmts_sameElsewhere (op : OperationID) (id : TaskID) (ss : List Stmt)
    (hss : ∀ s ∈ ss, s.key = (op, id)) (tx : Tx) (fs : Faults) :
    sameElsewhere op id tx.work (runStmts ss tx fs).2.1.work := by
  induction ss generalizing tx fs with
  | nil => exact sameElsewhere_refl op id tx.work
  | cons s rest ih =>
    simp only [runStmts]
    rcases txExec_cases s tx fs with ⟨_, h1⟩ | ⟨_, e, _, h1⟩ | ⟨_, _, h1⟩
    · rw [h1]
      exact sameElsewhere_refl op id tx.work
    · rw [h1]
      exact sameElsewhere_refl op id tx.work
    · simp only [h1]
      have hs := Stmt_run_sameElsewhere s tx.work
      rw [hss s (List.mem_cons_self _ _)] at hs
      exact sameElsewhere_trans op id _ _ _ hs
        (ih (fun s1 hs1 => hss s1 (List.mem_cons_of_mem _ hs1)) _ _)

theorem runAll_sameElsewhere (op : OperationID) (id : TaskID) (ss : List Stmt)
    (hss : ∀ s ∈ ss, s.key = (op, id)) (tb : Tables) :
    sameElsewhere op id tb (runAll ss tb) := by
  induction ss generalizing tb with
  | nil => exact sameElsewhere_refl op id tb
  | cons s rest ih =>
    rw [runAll_cons]
    have hs := Stmt_run_sameElsewhere s tb
    rw [hss s (List.mem_cons_self _ _)] at hs
    exact sameElsewhere_trans op id _ _ _ hs
      (ih (fun s1 hs1 => hss s1 (List.mem_cons_of_mem _ hs1)) _)

theorem SetDepends_stmts_key (t : Task) (d : List TaskID) :
    ∀ s ∈ SetDepends.stmts t d, s.key = (t.opID, t.ID) := by
  intro s hs
  simp only [SetDepends.stmts, List.mem_cons, List.mem_map] at hs
  rcases hs with rfl | ⟨x, _, rfl⟩ <;> rfl

theorem ClearAssignments_stmts_key (t : Task) :
    ∀ s ∈ ClearAssignments.stmts t, s.key = (t.opID, t.ID) := by
  intro s hs
  simp only [ClearAssignments.stmts, List.mem_cons, List.mem_singleton, List.not_mem_nil,
    or_false] at hs
  rcases hs with rfl | rfl <;> rfl

theorem Assign_stmts_key (t : Task) : ∀ s ∈ Assign.stmts t, s.key = (t.opID, t.ID) := by
  intro s hs
  simp only [Assign.stmts, ClearAssignments.stmts, List.mem_append, List.mem_cons,
    List.mem_singleton, List.not_mem_nil, or_false] at hs
  rcases hs with (rfl | rfl) | hs
  · rfl
  · rfl
  · split at hs
    · simp only [List.mem_append, List.mem_map, List.mem_singleton] at hs
      rcases hs with ⟨g, _, rfl⟩ | rfl <;> rfl
    · simp at hs

/-- A run in a transaction of its own changes nothing outside its task, in the committed
tables, whatever the outcome. -/
theorem inOwnTx_sameElsewhere (op : OperationID) (id : TaskID) (ss : List Stmt)
    (hss : ∀ s ∈ ss, s.key = (op, id)) (w : World) :
    sameElsewhere op id w.db (inOwnTx (runStmts ss) w).2.2.db ∧
    sameElsewhere op id w.db (written (inOwnTx (runStmts ss) w)) := by
  have key : sameElsewhere op id w.db (inOwnTx (runStmts ss) w).2.2.db := by
    cases hb : nextFault w.faults with
    | some e =>
      rw [(inOwnTx_begin_failed (runStmts ss) w e hb).2]
      exact sameElsewhere_refl op id w.db
    | none =>
      obtain ⟨_, _, h3⟩ := inOwnTx_spec ss w hb
      rw [h3]
      split
      · exact runAll_sameElsewhere op id ss hss w.db
      · exact sameElsewhere_refl op id w.db
  refine ⟨key, ?_⟩
  have h1 : (inOwnTx (runStmts ss) w).2.1 = none := by
    cases hb : nextFault w.faults with
    | some e => simp [inOwnTx, dbBegin, hb]
    | none => exact (inOwnTx_spec ss w hb).2.1
  simp only [written, h1]
  exact key

theorem inCallerTx_sameElsewhere (op : OperationID) (id : TaskID) (ss : List Stmt)
    (hss : ∀ s ∈ ss, s.key = (op, id)) (tx : Tx) (w : World) :
    sameElsewhere op id w.db (inCallerTx (runStmts ss) tx w).2.2.db ∧
    sameElsewhere op id tx.work (written (inCallerTx (runStmts ss) tx w)) := by
  have h := runStmts_sameElsewhere op id ss hss tx w.faults
  rcases hr : runStmts ss tx w.faults with ⟨_ | e, tx1, fs1⟩
  · rw [hr] at h
    simp only [inCallerTx, hr, written]
    exact ⟨sameElsewhere_refl op id w.db, h⟩
  · rw [hr] at h
    simp only [inCallerTx, hr, written]
    exact ⟨sameElsewhere_refl op id w.db, h⟩

/-- One or two statements on `db`, addressed to one task, change nothing outside it. -/
theorem dbExec_sameElsewhere (s : Stmt) (w : World) :
    sameElsewhere s.key.1 s.key.2 w.db (dbExec s w).2.db := by
  rcases dbExec_fields s w with h | h
  · rw [h]
    exact sameElsewhere_refl _ _ _
  · rw [h]
    exact Stmt_run_sameElsewhere s w.db

theorem Claim_sameElsewhere (t : Task) (g : GoogleID) (w : World) :
    sameElsewhere t.opID t.ID w.db (Claim t g w).2.db := by
  unfold Claim
  have h1 := dbExec_sameElsewhere (Stmt.updateState "assigned" t.ID t.opID) w
  rcases hr : dbExec (Stmt.updateState "assigned" t.ID t.opID) w with ⟨_ | e, w1⟩
  · rw [hr] at h1
    simp only
    have h2 := dbExec_sameElsewhere (Stmt.insertAssignment t.opID t.ID g) w1
    rcases hr2 : dbExec (Stmt.insertAssignment t.opID t.ID g) w1 with ⟨_ | e, w2⟩
    · rw [hr2] at h2
      exact sameElsewhere_trans _ _ _ _ _ h1 h2
    · rw [hr2] at h2
      exact sameElsewhere_trans _ _ _ _ _ h1 h2
  · rw [hr] at h1
    exact h1

theorem Reject_sameElsewhere (t : Task) (g : GoogleID) (w : World) :
    sameElsewhere t.opID t.ID w.db (Reject t g w).2.db := by
  unfold Reject
  have h1 := dbExec_sameElsewhere (Stmt.updateState "pending" t.ID t.opID) w
  rcases hr : dbExec (Stmt.updateState "pending" t.ID t.opID) w with ⟨_ | e, w1⟩
  · rw [hr] at h1
    simp only
    have h2 := dbExec_sameElsewhere (Stmt.deleteAssignment t.opID t.ID g) w1
    rcases hr2 : dbExec (Stmt.deleteAssignment t.opID t.ID g) w1 with ⟨_ | e, w2⟩
    · rw [hr2] at h2
      exact sameElsewhere_trans _ _ _ _ _ h1 h2
    · rw [hr2] at h2
      exact sameElsewhere_trans _ _ _ _ _ h1 h2
  · rw [hr] at h1
    exact h1

theorem updateCall_sameElsewhere (st : String) (t : Task) (w : World) :
    sameElsewhere t.opID t.ID w.db
      (match dbExec (Stmt.updateState st t.ID t.opID) w with
        | (some e, w1) => (Ret.err e, w1)
        | (none, w1) => (Ret.nil, w1)).2.db := by
  have h1 := dbExec_sameElsewhere (Stmt.updateState st t.ID t.opID) w
  rcases hr : dbExec (Stmt.updateState st t.ID t.opID) w with ⟨_ | e, w1⟩
  · rw [hr] at h1
    exact h1
  · rw [hr] at h1
    exact h1

/-- Statements never close a transaction. -/
theorem runStmts_done (ss : List Stmt) (tx : Tx) (fs : Faults) :
    (runStmts ss tx fs).2.1.done = tx.done := by
  induction ss generalizing tx fs with
  | nil => rfl
  | cons s rest ih =>
    simp only [runStmts]
    rcases txExec_cases s tx fs with ⟨_, h1⟩ | ⟨_, e, _, h1⟩ | ⟨hd, _, h1⟩
    · simp [h1]
    · simp [h1]
    · simp only [h1]
      rw [ih, hd]

/-! ## Begin, commit and rollback -/

/-- Own transaction, every statement succeeded: the call is the commit of the transaction that
holds the effect of all the statements; the deferred rollback finds it done and does nothing. -/
theorem inOwnTx_commits (ss : List Stmt) (db : Tables) (fs : Faults)
    (h : firstFault ss.length fs = none) :
    inOwnTx (runStmts ss) ⟨db, none :: fs⟩ =
      (Ret.ofError (txCommit ⟨runAll ss db, false⟩ ⟨db, fs.drop ss.length⟩).1, none,
        (txCommit ⟨runAll ss db, false⟩ ⟨db, fs.drop ss.length⟩).2.2) := by
  have hs := (runStmts_spec ss ⟨db, false⟩ fs rfl).2 h
  simp only [inOwnTx, dbBegin, nextFault, List.tail_cons, hs]
  simp only [txCommit, Bool.false_eq_true, if_false]
  cases hc : nextFault (List.drop ss.length fs) with
  | none => simp [Ret.ofError, txRollback]
  | some e => simp [Ret.ofError, txRollback]

/-- Own transaction, a statement failed: no commit; the call returns the failure and rolls
back the transaction, which is still open. -/
theorem inOwnTx_rolls_back (ss : List Stmt) (db : Tables) (fs : Faults) (e : StorageError)
    (h : firstFault ss.length fs = some e) :
    inOwnTx (runStmts ss) ⟨db, none :: fs⟩ =
      (Ret.err e, none,
        (txRollback (runStmts ss ⟨db, false⟩ fs).2.1
          ⟨db, (runStmts ss ⟨db, false⟩ fs).2.2⟩).2.2) ∧
    (runStmts ss ⟨db, false⟩ fs).2.1.done = false := by
  have hs := (runStmts_spec ss ⟨db, false⟩ fs rfl).1
  rw [h] at hs
  refine ⟨?_, runStmts_done ss ⟨db, false⟩ fs⟩
  rcases hr : runStmts ss ⟨db, false⟩ fs with ⟨r, tx1, fs1⟩
  rw [hr] at hs
  simp only at hs
  subst hs
  simp only [inOwnTx, dbBegin, nextFault, List.tail_cons, hr]

/-- Caller's transaction: the statements run in it; it is left open or closed as it was, and
the committed tables are not touched. -/
theorem inCallerTx_leaves_open (ss : List Stmt) (tx0 : Tx) (w : World) :
    (inCallerTx (runStmts ss) tx0 w).2.1 = some (runStmts ss tx0 w.faults).2.1 ∧
    (runStmts ss tx0 w.faults).2.1.done = tx0.done ∧
    (inCallerTx (runStmts ss) tx0 w).2.2.db = w.db := by
  refine ⟨?_, runStmts_done ss tx0 w.faults, ?_⟩
  · rcases hr : runStmts ss tx0 w.faults with ⟨_ | e, tx1, fs1⟩ <;> simp [inCallerTx, hr]
  · rcases hr : runStmts ss tx0 w.faults with ⟨_ | e, tx1, fs1⟩ <;> simp [inCallerTx, hr]

/-! ## The precache maps -/

theorem dependsPrecache_rows_group (buf : GoMap (List TaskID)) (sel : List (TaskID × TaskID)) :
    dependsPrecache.rows buf sel [] = (groupRows buf sel, []) := by
  induction sel generalizing buf with
  | nil => rfl
  | cons p rest ih =>
    obtain ⟨a, b⟩ := p
    simp only [dependsPrecache.rows, nextFault, List.tail_nil, groupRows]
    cases hb : GoMap.get buf a with
    | none => simp [ih]
    | some old => simp [ih]

theorem assignmentPrecache_rows_group (buf : GoMap (List GoogleID))
    (sel : List (TaskID × GoogleID)) :
    assignmentPrecache.rows buf sel [] = (groupRows buf sel, []) := by
  induction sel generalizing buf with
  | nil => rfl
  | cons p rest ih =>
    obtain ⟨a, b⟩ := p
    simp only [assignmentPrecache.rows, nextFault, List.tail_nil, groupRows]
    cases hb : GoMap.get buf a with
    | none => simp [ih]
    | some old => simp [ih]

theorem GoMap_mem_keys_set {ν : Type} (m : GoMap ν) (k k1 : String) (v : ν) :
    k1 ∈ GoMap.keys (GoMap.set m k v) ↔ k1 = k ∨ k1 ∈ GoMap.keys m := by
  induction m with
  | nil => simp [GoMap.set, GoMap.keys]
  | cons p rest ih =>
    obtain ⟨a, b⟩ := p
    by_cases h : a = k
    · subst h
      simp [GoMap.set, GoMap.keys]
    · simp only [GoMap.keys] at ih
      simp only [GoMap.set, beq_iff_eq, h, if_false, GoMap.keys, List.map_cons, List.mem_cons, ih]
      tauto

theorem GoMap_keys_set_nodup {ν : Type} (m : GoMap ν) (k : String) (v : ν)
    (h : (GoMap.keys m).Nodup) : (GoMap.keys (GoMap.set m k v)).Nodup := by
  induction m with
  | nil => simp [GoMap.set, GoMap.keys]
  | cons p rest ih =>
    obtain ⟨a, b⟩ := p
    simp only [GoMap.keys, List.map_cons, List.nodup_cons] at h
    by_cases hk : a = k
    · subst hk
      simp only [GoMap.set, beq_self_eq_true, if_true, GoMap.keys, List.map_cons,
        List.nodup_cons]
      exact h
    · simp only [GoMap.set, beq_iff_eq, hk, if_false]
      show (a :: GoMap.keys (GoMap.set rest k v)).Nodup
      rw [List.nodup_cons]
      refine ⟨?_, ih h.2⟩
      rw [GoMap_mem_keys_set]
      intro hmem
      rcases hmem with h1 | h1
      · exact hk h1
      · exact h.1 h1

theorem GoMap_get_isSome {ν : Type} (m : GoMap ν) (k : String) :
    (GoMap.get m k).isSome = true ↔ k ∈ GoMap.keys m := by
  induction m with
  | nil => simp [GoMap.get, GoMap.keys]
  | cons p rest ih =>
    obtain ⟨a, b⟩ := p
    by_cases h : a = k
    · subst h
      simp [GoMap.get, GoMap.keys]
    · have h2 : ¬ k = a := fun hh => h hh.symm
      simp only [GoMap.keys] at ih
      simp [GoMap.get, GoMap.keys, h, h2, ih]

theorem GoMap_lengthSum_set (m : GoMap (List String)) (k : String) (v : List String) :
    GoMap.lengthSum (GoMap.set m k v) + ((GoMap.get m k).getD []).length =
      GoMap.lengthSum m + v.length := by
  induction m with
  | nil => simp [GoMap.set, GoMap.get, GoMap.lengthSum]
  | cons p rest ih =>
    obtain ⟨a, b⟩ := p
    by_cases h : a = k
    · subst h
      simp [GoMap.set, GoMap.get, GoMap.lengthSum]
      omega
    · simp only [GoMap.lengthSum] at ih
      simp only [GoMap.set, GoMap.get, beq_iff_eq, h, if_false, GoMap.lengthSum, List.map_cons,
        List.sum_cons]
      omega

theorem groupRows_keys (buf : GoMap (List String)) (sel : List (String × String)) (k : String) :
    k ∈ GoMap.keys (groupRows buf sel) ↔ k ∈ GoMap.keys buf ∨ ∃ p ∈ sel, p.1 = k := by
  induction sel generalizing buf with
  | nil => simp [groupRows]
  | cons p rest ih =>
    obtain ⟨a, b⟩ := p
    simp only [groupRows, ih, GoMap_mem_keys_set, List.mem_cons, exists_eq_or_imp]
    constructor
    · rintro ((h | h) | h)
      · exact Or.inr (Or.inl h.symm)
      · exact Or.inl h
      · exact Or.inr (Or.inr h)
    · rintro (h | h | h)
      · exact Or.inl (Or.inr h)
      · exact Or.inl (Or.inl h.symm)
      · exact Or.inr h

theorem groupRows_nodup (buf : GoMap (List String)) (sel : List (String × String))
    (h : (GoMap.keys buf).Nodup) : (GoMap.keys (groupRows buf sel)).Nodup := by
  induction sel generalizing buf with
  | nil => exact h
  | cons p rest ih =>
    obtain ⟨a, b⟩ := p
    exact ih _ (GoMap_keys_set_nodup buf a _ h)

theorem groupRows_lengthSum (buf : GoMap (List String)) (sel : List (String × String)) :
    GoMap.lengthSum (groupRows buf sel) = GoMap.lengthSum buf + sel.length := by
  induction sel generalizing buf with
  | nil => simp [groupRows]
  | cons p rest ih =>
    obtain ⟨a, b⟩ := p
    simp only [groupRows]
    rw [ih]
    have := GoMap_lengthSum_set buf a ((GoMap.get buf a).getD [] ++ [b])
    simp only [List.length_append, List.length_cons, List.length_nil] at this ⊢
    omega

theorem groupRows_get (buf : GoMap (List String)) (sel : List (String × String)) (k : String) :
    (GoMap.get (groupRows buf sel) k).getD [] =
      (GoMap.get buf k).getD [] ++ (sel.filter (fun p => p.1 == k)).map (fun p => p.2) := by
  have h := dependsPrecache_rows_get sel buf k
  rw [dependsPrecache_rows_group] at h
  exact h

/-- The map built from the rows (key, value): its keys are the keys of the rows, each once;
a key is mapped to the values of its rows in row order; the lengths sum to the row count. -/
theorem groupRows_spec (sel : List (String × String)) :
    (∀ k, k ∈ GoMap.keys (groupRows [] sel) ↔ ∃ p ∈ sel, p.1 = k) ∧
    (GoMap.keys (groupRows [] sel)).Nodup ∧
    (∀ k ∈ GoMap.keys (groupRows [] sel),
      GoMap.get (groupRows [] sel) k =
        some ((sel.filter (fun p => p.1 == k)).map (fun p => p.2))) ∧
    GoMap.lengthSum (groupRows [] sel) = sel.length := by
  refine ⟨?_, ?_, ?_, ?_⟩
  · intro k
    rw [groupRows_keys]
    simp [GoMap.keys]
  · exact groupRows_nodup [] sel (by simp [GoMap.keys])
  · intro k hk
    have h1 := (GoMap_get_isSome (groupRows [] sel) k).mpr hk
    have h2 := groupRows_get [] sel k
    cases hg : GoMap.get (groupRows [] sel) k with
    | none => simp [hg] at h1
    | some l =>
      rw [hg] at h2
      simp only [Option.getD_some, GoMap.get, Option.getD_none, List.nil_append] at h2
      rw [h2]
  · rw [groupRows_lengthSum]
    simp [GoMap.lengthSum]

theorem dependsPrecache_group (o : OperationID) (tb : Tables) :
    dependsPrecache o ⟨tb, []⟩ =
      (groupRows [] ((tb.depends.filter (fun r => r.opID == o)).map
        (fun r => (r.taskID, r.dependsOn))), none, ⟨tb, []⟩) := by
  simp [dependsPrecache, nextFault, dependsPrecache_rows_group]

theorem assignmentPrecache_group (o : OperationID) (tb : Tables) :
    assignmentPrecache o ⟨tb, []⟩ =
      (groupRows [] ((tb.assignments.filter (fun r => r.opID == o)).map
        (fun r => (r.taskID, r.gid))), none, ⟨tb, []⟩) := by
  simp [assignmentPrecache, nextFault, assignmentPrecache_rows_group]

theorem depends_sel_filter (o : OperationID) (k : TaskID) (tb : Tables) :
    ((((tb.depends.filter (fun r => r.opID == o)).map
        (fun r => (r.taskID, r.dependsOn))).filter (fun p => p.1 == k)).map (fun p => p.2)) =
      dependsOf tb o k := by
  simp [dependsOf, List.filter_map, List.filter_filter, Function.comp_def, Bool.and_comm]

theorem assignments_sel_filter (o : OperationID) (k : TaskID) (tb : Tables) :
    ((((tb.assignments.filter (fun r => r.opID == o)).map
        (fun r => (r.taskID, r.gid))).filter (fun p => p.1 == k)).map (fun p => p.2)) =
      assigneesOf tb o k := by
  simp [assigneesOf, List.filter_map, List.filter_filter, Function.comp_def, Bool.and_comm]

/-! ## Lemmas on the newline normalisation -/

theorem replaceCR_no_CR (s : Bytes) : 13 ∉ replaceCR s := by
  induction s with
  | nil => simp [replaceCR]
  | cons b rest ih =>
    simp only [replaceCR, List.mem_cons, not_or]
    refine ⟨?_, ih⟩
    by_cases h : b = 13
    · simp [h]
    · simp only [if_neg h]
      exact fun h1 => h h1.symm

theorem replaceCR_id (s : Bytes) (h : 13 ∉ s) : replaceCR s = s := by
  induction s with
  | nil => rfl
  | cons b rest ih =>
    simp only [List.mem_cons, not_or] at h
    have h1 : b ≠ 13 := fun h2 => h.1 h2.symm
    simp only [replaceCR, if_neg h1, ih h.2]

theorem replaceCRLF_id (s : Bytes) (h : 13 ∉ s) : replaceCRLF s = s := by
  induction s with
  | nil => rfl
  | cons b rest ih =>
    simp only [List.mem_cons, not_or] at h
    have h1 : b ≠ 13 := fun h2 => h.1 h2.symm
    rw [replaceCRLF]
    · rw [ih h.2]
    · intro rest1 hb _
      exact h1 hb

theorem dropWhile_sublist_mem (p : Nat → Bool) (s : Bytes) (c : Nat)
    (h : c ∈ s.dropWhile p) : c ∈ s :=
  (List.dropWhile_sublist p).subset h

theorem trimNewlines_mem (s : Bytes) (c : Nat) (h : c ∈ trimNewlines s) : c ∈ s := by
  simp only [trimNewlines, List.mem_reverse] at h
  have h1 := dropWhile_sublist_mem _ _ _ h
  simp only [List.mem_reverse] at h1
  exact dropWhile_sublist_mem _ _ _ h1

theorem dropWhile_head (p : Nat → Bool) (s : Bytes) (c : Nat)
    (h : (s.dropWhile p).head? = some c) : p c = false := by
  induction s with
  | nil => simp at h
  | cons b rest ih =>
    simp only [List.dropWhile_cons] at h
    by_cases hb : p b = true
    · simp only [hb, if_true] at h
      exact ih h
    · simp only [hb] at h
      simp only [Bool.false_eq_true, if_false, List.head?_cons, Option.some.injEq] at h
      rw [← h]
      simpa using hb

theorem trimNewlines_eq (s : Bytes) :
    trimNewlines s = (s.dropWhile (fun b => b == 10)).rdropWhile (fun b => b == 10) := rfl

theorem trimNewlines_head (s : Bytes) : (trimNewlines s).head? ≠ some 10 := by
  intro h
  have hp : trimNewlines s <+: s.dropWhile (fun b => b == 10) := by
    rw [trimNewlines_eq]
    exact List.rdropWhile_prefix _ _
  obtain ⟨t, ht⟩ := hp
  cases hb : trimNewlines s with
  | nil => simp [hb] at h
  | cons c rest =>
    rw [hb] at h ht
    simp only [List.head?_cons, Option.some.injEq] at h
    have h1 : (s.dropWhile (fun b => b == 10)).head? = some c := by
      rw [← ht]
      rfl
    have h2 := dropWhile_head _ _ _ h1
    rw [h] at h2
    simp at h2

theorem trimNewlines_last (s : Bytes) : (trimNewlines s).getLast? ≠ some 10 := by
  intro h
  have hne : (s.dropWhile (fun b => b == 10)).rdropWhile (fun b => b == 10) ≠ [] := by
    intro h1
    rw [trimNewlines_eq, h1] at h
    simp at h
  have h1 := List.rdropWhile_last_not (fun b => b == 10) (s.dropWhile (fun b => b == 10)) hne
  rw [trimNewlines_eq, List.getLast?_eq_getLast _ hne] at h
  simp only [Option.some.injEq] at h
  rw [h] at h1
  simp at h1

theorem trimNewlines_fixed (b : Bytes) (h1 : b.head? ≠ some 10) (h2 : b.getLast? ≠ some 10) :
    trimNewlines (b ++ [10]) = b := by
  cases b with
  | nil => rfl
  | cons c rest =>
    have hc : c ≠ 10 := by
      intro h
      apply h1
      simp [h]
    have hd : (c :: rest ++ [10]).dropWhile (fun b => b == 10) = c :: rest ++ [10] := by
      simp [List.dropWhile_cons, hc]
    rw [trimNewlines_eq, hd, List.rdropWhile_concat]
    simp only [beq_self_eq_true, if_true]
    rw [List.rdropWhile_eq_self_iff]
    intro hl
    rw [List.getLast?_eq_getLast _ hl] at h2
    intro h3
    apply h2
    simp only [beq_iff_eq] at h3
    rw [h3]

theorem trimNewlines_all (s : Bytes) (h : ∀ c ∈ s, c = 10) : trimNewlines s = [] := by
  have h1 : s.dropWhile (fun b => b == 10) = [] := by
    rw [List.dropWhile_eq_nil_iff]
    intro x hx
    simp [h x hx]
  rw [trimNewlines, h1]
  rfl

/-! ## Lemmas on the notification bus -/

theorem registryOf_foldl_nodup (regs : List (String × Adapter)) (r : GoMap Adapter)
    (h : (GoMap.keys r).Nodup) :
    (GoMap.keys (regs.foldl (fun r p => registerChannel r p.1 p.2) r)).Nodup := by
  induction regs generalizing r with
  | nil => exact h
  | cons p rest ih =>
    simp only [List.foldl_cons]
    exact ih _ (GoMap_keys_set_nodup r p.1 p.2 h)

theorem registryOf_foldl_keys (regs : List (String × Adapter)) (r : GoMap Adapter)
    (name : String) :
    name ∈ GoMap.keys (regs.foldl (fun r p => registerChannel r p.1 p.2) r) ↔
      name ∈ regs.map (fun p => p.1) ∨ name ∈ GoMap.keys r := by
  induction regs generalizing r with
  | nil => simp
  | cons p rest ih =>
    simp only [List.foldl_cons, List.map_cons, List.mem_cons]
    rw [ih, registerChannel, GoMap_mem_keys_set]
    tauto

theorem dispatch_ret (r : GoMap Adapter) (e : Envelope) : (dispatch r e).1 = Ret.nil := by
  induction r with
  | nil => rfl
  | cons p rest ih =>
    obtain ⟨name, a⟩ := p
    simp only [dispatch]
    exact ih

theorem dispatch_team_calls (r : GoMap Adapter) (e : Envelope) (id : TeamID)
    (h : e.target = Target.team id) :
    (dispatch r e).2.1 = (GoMap.keys r).map (fun name => BusCall.sendTopic name id e) := by
  induction r with
  | nil => rfl
  | cons p rest ih =>
    obtain ⟨name, a⟩ := p
    simp only [dispatch, dispatch.one, h, ih, GoMap.keys, List.map_cons, List.singleton_append]

theorem dispatch_team_failures (r : GoMap Adapter) (e : Envelope) (id : TeamID)
    (h : e.target = Target.team id) :
    (dispatch r e).2.2 =
      r.filterMap (fun p => (p.2.sendTopic id e).map (fun err => (p.1, err))) := by
  induction r with
  | nil => rfl
  | cons p rest ih =>
    obtain ⟨name, a⟩ := p
    simp only [dispatch, dispatch.one, h, ih, List.filterMap_cons]
    cases a.sendTopic id e <;> rfl

/-! ## Lemmas on the notification bus and the agent handlers -/

/-- End-to-end scenario 3 on the bus: adapter "push" fails, adapter "bot" is still called,
and dispatch returns nil. -/
theorem dispatch_scenario3 :
    dispatch (registryOf exRegs) ⟨FirebaseCommandCode.markerStatusChange, Target.team "T9", "m1", "done"⟩ =
      (Ret.nil,
       [BusCall.sendTopic "push" "T9"
          ⟨FirebaseCommandCode.markerStatusChange, Target.team "T9", "m1", "done"⟩,
        BusCall.sendTopic "bot" "T9"
          ⟨FirebaseCommandCode.markerStatusChange, Target.team "T9", "m1", "done"⟩],
       [("push", "transport")]) := by
  decide

/-- Function agentTargetRoute never calls CanSendTo: its result is the same whatever the
capability check would answer. -/
theorem agentTargetRoute_unchecked (q : AgentReq) (f : GoogleID → GoogleID → Bool) :
    agentTargetRoute { q with CanSendTo := f } = agentTargetRoute q := rfl

/-- Function agentTargetRoute on the example request: agent-A may not send to agent-B, and
the message and the firebase target are both handed to the messaging layer. -/
theorem agentTargetRoute_example :
    agentTargetRoute exAgentReq =
      ([ResWrite.fprint Body.jsonStatusOK],
       [Sent.SendMessage "agent-B" "target portal",
        Sent.FirebaseTarget "agent-B" "AgentA:portal"]) := by
  decide

/-! ## Rows read when a Scan fails -/

theorem scanned_no_fault {α : Type} (rows : List α) : scanned rows [] = rows := by
  induction rows with
  | nil => rfl
  | cons r rest ih => simp [scanned, nextFault, ih]

theorem GetAssignments_rows_scanned (tmp sel : List GoogleID) (fs : Faults) :
    (GetAssignments.rows tmp sel fs).1 = tmp ++ scanned sel fs := by
  induction sel generalizing tmp fs with
  | nil => simp [GetAssignments.rows, scanned]
  | cons g rest ih =>
    simp only [GetAssignments.rows, scanned]
    cases nextFault fs with
    | some e => simp only [ih]
    | none => simp only [ih, List.append_assoc, List.singleton_append]

theorem dependsPrecache_rows_scanned (buf : GoMap (List TaskID)) (sel : List (TaskID × TaskID))
    (fs : Faults) :
    (dependsPrecache.rows buf sel fs).1 = groupRows buf (scanned sel fs) := by
  induction sel generalizing buf fs with
  | nil => rfl
  | cons p rest ih =>
    obtain ⟨a, b⟩ := p
    simp only [dependsPrecache.rows, scanned]
    cases nextFault fs with
    | some e => simp only [ih]
    | none =>
      simp only [groupRows]
      cases hb : GoMap.get buf a with
      | none => simp [ih]
      | some old => simp [ih]

/-! ## Claims -/

/-- Claim C1. When SetDepends(T, D) returns nil, the dependency edges stored for (T's
operation, T) in the tables the call wrote to are exactly D, in order, whatever edges the task
had before; dependsPrecache, read on those tables, maps T to D. This holds both when the call
ran in a transaction of its own and when the caller passed one. -/
theorem C1_SetDepends_replaces (t : Task) (d : List TaskID) (tx : Option Tx) (w : World)
    (h : (SetDepends t d tx w).1 = Ret.nil) :
    dependsOf (written (SetDepends t d tx w)) t.opID t.ID = d ∧
    (GoMap.get (dependsPrecache t.opID ⟨written (SetDepends t d tx w), []⟩).1 t.ID).getD [] = d := by
  have key : dependsOf (written (SetDepends t d tx w)) t.opID t.ID = d := by
    rw [SetDepends_written t d tx w h]
    exact dependsOf_runAll_SetDepends t d (seen tx w)
  exact ⟨key, by rw [dependsPrecache_get]; exact key⟩

/-- Scenario 2 of the specification as an instance of C1: after SetDepends(t2, [t1]) task t2
has the one dependency t1, and after SetDepends(t2, []) it has none; the edge of the other
operation is still there. -/
theorem C1_SetDepends_replaces_witness :
    (SetDepends exT2 ["t1"] none exWorld).1 = Ret.nil ∧
    dependsOf (written (SetDepends exT2 ["t1"] none exWorld)) "op1" "t2" = ["t1"] ∧
    (SetDepends exT2 [] none (SetDepends exT2 ["t1"] none exWorld).2.2).1 = Ret.nil ∧
    dependsOf (written (SetDepends exT2 [] none (SetDepends exT2 ["t1"] none exWorld).2.2))
      "op1" "t2" = [] ∧
    dependsOf (written (SetDepends exT2 [] none (SetDepends exT2 ["t1"] none exWorld).2.2))
      "op2" "t2" = ["t7"] :=
  ⟨by decide, (C1_SetDepends_replaces exT2 ["t1"] none exWorld (by decide)).1, by decide,
    (C1_SetDepends_replaces exT2 [] none (SetDepends exT2 ["t1"] none exWorld).2.2
      (by decide)).1, by decide⟩

/-- Claim C2, as stated, fails: task t1 with Assignments [agent-A, blank] is assigned
successfully, and GetAssignments then returns [agent-A], which is not the same set as the list
given, because Assign skips a blank id. -/
theorem C2_counterexample :
    exT1Blank.Assignments ≠ [] ∧
    (Assign exT1Blank none exWorld).1 = Ret.nil ∧
    (GetAssignments exT1Blank ⟨written (Assign exT1Blank none exWorld), []⟩).1 = ["agent-A"] ∧
    ¬ (∀ g, g ∈ (GetAssignments exT1Blank ⟨written (Assign exT1Blank none exWorld), []⟩).1 ↔
        g ∈ exT1Blank.Assignments) := by
  refine ⟨by decide, by decide, by decide, ?_⟩
  intro h
  have h1 := (h "").mpr (by decide)
  revert h1
  decide

/-- Claim C2, amended. For every task T with a non-empty ID whose Assignments field is a
non-empty list A, when Assign returns nil, GetAssignments read on the tables the call wrote to
returns without error the non-blank ids of A in the order of A, so its result is A as a set
whenever A has no blank id, and every row of T in table task has state assigned. -/
theorem C2_Assign_nonempty (t : Task) (tx : Option Tx) (w : World)
    (hA : t.Assignments ≠ []) (hid : t.ID ≠ "")
    (h : (Assign t tx w).1 = Ret.nil) :
    (GetAssignments t ⟨written (Assign t tx w), []⟩).1 =
        t.Assignments.filter (fun g => g ≠ "") ∧
    (GetAssignments t ⟨written (Assign t tx w), []⟩).2.1 = none ∧
    ((∀ g ∈ t.Assignments, g ≠ "") →
      ∀ g, g ∈ (GetAssignments t ⟨written (Assign t tx w), []⟩).1 ↔ g ∈ t.Assignments) ∧
    statesOf (written (Assign t tx w)) t.opID t.ID =
      (statesOf (seen tx w) t.opID t.ID).map (fun _ => "assigned") := by
  rw [GetAssignments_read, Assign_written t tx w h]
  simp only [hid, if_false, assigneesOf_runAll_Assign, statesOf_runAll_Assign, hA]
  refine ⟨trivial, trivial, ?_, trivial⟩
  intro hb g
  simp only [List.mem_filter, decide_eq_true_eq]
  exact ⟨fun hg => hg.1, fun hg => ⟨hg, by simpa using hb g hg⟩⟩

/-- Instance of C2: t1 assigned to agent-A and agent-B while it was completed and assigned. -/
theorem C2_Assign_nonempty_witness :
    exT1Two.Assignments ≠ [] ∧ exT1Two.ID ≠ "" ∧
    (Assign exT1Two none ⟨exTablesDone, []⟩).1 = Ret.nil ∧
    (GetAssignments exT1Two ⟨written (Assign exT1Two none ⟨exTablesDone, []⟩), []⟩).1 =
      ["agent-A", "agent-B"] ∧
    stateOf (written (Assign exT1Two none ⟨exTablesDone, []⟩)) "op1" "t1" = some "assigned" :=
  ⟨by decide, by decide, by decide,
    (C2_Assign_nonempty exT1Two none ⟨exTablesDone, []⟩ (by decide) (by decide) (by decide)).1,
    by decide⟩

/-- Claim C3. When ClearAssignments(T) returns nil, the caller passed a transaction, and in its
working tables the task has no assignment row and each of its rows in table task has state
pending, whatever the rows and states were; once that transaction is committed GetAssignments
returns the empty list. -/
theorem C3_ClearAssignments (t : Task) (tx : Option Tx) (fs : Faults) (db : Tables)
    (h : (ClearAssignments t tx fs).1 = Ret.nil) :
    ∃ tx0 tx1, tx = some tx0 ∧ (ClearAssignments t tx fs).2.1 = some tx1 ∧
      assigneesOf tx1.work t.opID t.ID = [] ∧
      statesOf tx1.work t.opID t.ID = (statesOf tx0.work t.opID t.ID).map (fun _ => "pending") ∧
      (txCommit tx1 ⟨db, []⟩).1 = none ∧
      (GetAssignments t (txCommit tx1 ⟨db, []⟩).2.2).1 = [] := by
  cases tx with
  | none => simp [ClearAssignments] at h
  | some tx0 =>
    simp only [ClearAssignments, ClearAssignments_body_eq] at h ⊢
    rcases hr : runStmts (ClearAssignments.stmts t) tx0 fs with ⟨_ | e, tx1, fs1⟩
    · have hd : tx0.done = false := by
        apply runStmts_cons_done (Stmt.deleteAssignments t.ID t.opID)
          [Stmt.updateState "pending" t.ID t.opID] tx0 fs
        show (runStmts (ClearAssignments.stmts t) tx0 fs).1 = none
        rw [hr]
      have hs := runStmts_spec (ClearAssignments.stmts t) tx0 fs hd
      rw [hr] at hs
      have hf := hs.1
      simp only at hf
      have he := hs.2 hf.symm
      simp only [Prod.mk.injEq, true_and] at he
      refine ⟨tx0, tx1, rfl, rfl, ?_, ?_, ?_, ?_⟩
      · rw [he.1]
        exact assigneesOf_runAll_ClearAssignments t tx0.work
      · rw [he.1]
        exact statesOf_runAll_ClearAssignments t tx0.work
      · rw [he.1]
        simp [txCommit, nextFault]
      · rw [he.1]
        simp only [txCommit, nextFault, List.tail_nil, Bool.false_eq_true, if_false,
          GetAssignments_read, assigneesOf_runAll_ClearAssignments, ite_self]
    · rw [hr] at h
      simp at h

/-- Instance of C3: t1, completed and assigned to two agents, is cleared in a transaction. -/
theorem C3_ClearAssignments_witness :
    (ClearAssignments exT1 (some ⟨exTablesDone, false⟩) []).1 = Ret.nil ∧
    ∃ tx0 tx1, some (Tx.mk exTablesDone false) = some tx0 ∧
      (ClearAssignments exT1 (some ⟨exTablesDone, false⟩) []).2.1 = some tx1 ∧
      assigneesOf tx1.work exT1.opID exT1.ID = [] ∧
      statesOf tx1.work exT1.opID exT1.ID =
        (statesOf tx0.work exT1.opID exT1.ID).map (fun _ => "pending") ∧
      (txCommit tx1 ⟨exTablesDone, []⟩).1 = none ∧
      (GetAssignments exT1 (txCommit tx1 ⟨exTablesDone, []⟩).2.2).1 = [] :=
  ⟨by decide,
    C3_ClearAssignments exT1 (some ⟨exTablesDone, false⟩) [] exTablesDone (by decide)⟩

/-- Claim C4. When Claim(T, g) returns nil, table assignments is the old table with the one row
(T's operation, T, g) added at the end, so every assignment T had is kept and g is added to its
assignees, and every row of T in table task has state assigned. -/
theorem C4_Claim (t : Task) (g : GoogleID) (w : World) (h : (Claim t g w).1 = Ret.nil) :
    (Claim t g w).2.db.assignments = w.db.assignments ++ [⟨t.opID, t.ID, g⟩] ∧
    assigneesOf (Claim t g w).2.db t.opID t.ID = assigneesOf w.db t.opID t.ID ++ [g] ∧
    statesOf (Claim t g w).2.db t.opID t.ID =
      (statesOf w.db t.opID t.ID).map (fun _ => "assigned") := by
  rw [Claim_nil t g w h]
  refine ⟨rfl, ?_, ?_⟩
  · rw [assigneesOf_insert, assigneesOf_updateState]
  · rw [statesOf_insertAssignment, statesOf_updateState]
    simp

/-- Scenario 1 of the specification as an instance of C4: t1 starts pending with no assignee;
after Claim(t1, agent-A) it is assigned with assignees [agent-A], and after Claim(t1, agent-B)
it is assigned with assignees [agent-A, agent-B]. -/
theorem C4_Claim_witness :
    stateOf exWorld.db "op1" "t1" = some "pending" ∧
    (GetAssignments exT1 exWorld).1 = [] ∧
    (Claim exT1 "agent-A" exWorld).1 = Ret.nil ∧
    assigneesOf (Claim exT1 "agent-A" exWorld).2.db "op1" "t1" = ["agent-A"] ∧
    (GetAssignments exT1 (Claim exT1 "agent-A" exWorld).2).1 = ["agent-A"] ∧
    stateOf (Claim exT1 "agent-A" exWorld).2.db "op1" "t1" = some "assigned" ∧
    (Claim exT1 "agent-B" (Claim exT1 "agent-A" exWorld).2).1 = Ret.nil ∧
    (GetAssignments exT1 (Claim exT1 "agent-B" (Claim exT1 "agent-A" exWorld).2).2).1 =
      ["agent-A", "agent-B"] ∧
    stateOf (Claim exT1 "agent-B" (Claim exT1 "agent-A" exWorld).2).2.db "op1" "t1" =
      some "assigned" :=
  ⟨by decide, by decide, by decide,
    (C4_Claim exT1 "agent-A" exWorld (by decide)).2.1,
    by decide, by decide, by decide, by decide, by decide⟩

/-- Claim C5, as stated, fails: agent-A claimed t1 twice, both calls returning nil, and holds
two assignment rows for t1; Reject(t1, agent-A) returns nil and removes both rows, not exactly
one. -/
theorem C5_counterexample :
    (Claim exT1 "agent-A" ⟨exTables, []⟩).1 = Ret.nil ∧
    (Claim exT1 "agent-A" (Claim exT1 "agent-A" ⟨exTables, []⟩).2).1 = Ret.nil ∧
    exTablesTwice.assignments = [⟨"op1", "t1", "agent-A"⟩, ⟨"op1", "t1", "agent-A"⟩] ∧
    "agent-A" ∈ assigneesOf exTablesTwice "op1" "t1" ∧
    (Reject exT1 "agent-A" ⟨exTablesTwice, []⟩).1 = Ret.nil ∧
    (Reject exT1 "agent-A" ⟨exTablesTwice, []⟩).2.db.assignments = [] ∧
    ¬ ((Reject exT1 "agent-A" ⟨exTablesTwice, []⟩).2.db.assignments.length + 1 =
        exTablesTwice.assignments.length) := by
  decide

/-- Claim C5, amended. When g is one of T's assignees and Reject(T, g) returns nil, the rows
removed from table assignments are all the rows (T's operation, T, g): at least one, exactly
the one row when g holds one row for T, and every one of them when g holds several. Every
other row stays in place, so the other assignees of T are the same as before, and every row
of T in table task has state pending, whether other assignees remain or not. -/
theorem C5_Reject (t : Task) (g : GoogleID) (w : World)
    (hg : g ∈ assigneesOf w.db t.opID t.ID) (h : (Reject t g w).1 = Ret.nil) :
    (Reject t g w).2.db.assignments =
      w.db.assignments.filter
        (fun r => !(r.opID == t.opID && r.taskID == t.ID && r.gid == g)) ∧
    (Reject t g w).2.db.assignments.length +
        (w.db.assignments.filter
          (fun r => r.opID == t.opID && r.taskID == t.ID && r.gid == g)).length =
      w.db.assignments.length ∧
    0 < (w.db.assignments.filter
          (fun r => r.opID == t.opID && r.taskID == t.ID && r.gid == g)).length ∧
    ((w.db.assignments.filter
          (fun r => r.opID == t.opID && r.taskID == t.ID && r.gid == g)).length = 1 →
      (Reject t g w).2.db.assignments.length + 1 = w.db.assignments.length) ∧
    assigneesOf (Reject t g w).2.db t.opID t.ID =
      (assigneesOf w.db t.opID t.ID).filter (fun x => x ≠ g) ∧
    statesOf (Reject t g w).2.db t.opID t.ID =
      (statesOf w.db t.opID t.ID).map (fun _ => "pending") := by
  rw [Reject_nil t g w h]
  have hlen := List.length_eq_length_filter_add
    (l := w.db.assignments) (fun r => r.opID == t.opID && r.taskID == t.ID && r.gid == g)
  refine ⟨rfl, ?_, ?_, ?_, ?_, ?_⟩
  · simp only [Stmt.run]
    omega
  · simp only [assigneesOf, List.mem_map, List.mem_filter] at hg
    obtain ⟨r, ⟨hr, hk⟩, hgid⟩ := hg
    apply List.length_pos_of_mem (a := r)
    simp only [List.mem_filter]
    refine ⟨hr, ?_⟩
    simp only [Bool.and_eq_true, beq_iff_eq] at hk ⊢
    exact ⟨hk, hgid⟩
  · intro h1
    simp only [Stmt.run]
    omega
  · rw [assigneesOf_deleteAssignment, assigneesOf_updateState]
  · rw [statesOf_deleteAssignment, statesOf_updateState]
    simp

/-- Instance of C5: t1 is completed and assigned to agent-A and agent-B; agent-A rejects it. One
row goes, agent-B stays assigned, and the state is pending. -/
theorem C5_Reject_witness :
    "agent-A" ∈ assigneesOf exTablesDone "op1" "t1" ∧
    (Reject exT1 "agent-A" ⟨exTablesDone, []⟩).1 = Ret.nil ∧
    (Reject exT1 "agent-A" ⟨exTablesDone, []⟩).2.db.assignments =
      [⟨"op1", "t1", "agent-B"⟩, ⟨"op1", "t2", "agent-A"⟩] ∧
    assigneesOf (Reject exT1 "agent-A" ⟨exTablesDone, []⟩).2.db "op1" "t1" = ["agent-B"] ∧
    stateOf (Reject exT1 "agent-A" ⟨exTablesDone, []⟩).2.db "op1" "t1" = some "pending" :=
  ⟨by decide, by decide,
    (C5_Reject exT1 "agent-A" ⟨exTablesDone, []⟩ (by decide) (by decide)).1,
    by decide, by decide⟩

/-- Claim C6, as stated, fails: t1 is completed and its Assignments list is empty; Assign
returns nil and leaves t1 pending, not completed, because Assign runs ClearAssignments. -/
theorem C6_counterexample :
    exT1.Assignments = [] ∧
    (Assign exT1 none ⟨exTablesDone, []⟩).1 = Ret.nil ∧
    stateOf exTablesDone "op1" "t1" = some "completed" ∧
    stateOf (written (Assign exT1 none ⟨exTablesDone, []⟩)) "op1" "t1" = some "pending" ∧
    ¬ (stateOf (written (Assign exT1 none ⟨exTablesDone, []⟩)) "op1" "t1" =
        stateOf exTablesDone "op1" "t1") := by
  decide

/-- Claim C6, amended. When Assign returns nil for a task T whose Assignments list is empty,
T has no assignment row and every row of T in table task has state pending, whatever its state
was; the state written is assigned only when the list is non-empty. -/
theorem C6_Assign_empty (t : Task) (tx : Option Tx) (w : World)
    (h : (Assign t tx w).1 = Ret.nil) :
    (t.Assignments = [] →
      assigneesOf (written (Assign t tx w)) t.opID t.ID = [] ∧
      statesOf (written (Assign t tx w)) t.opID t.ID =
        (statesOf (seen tx w) t.opID t.ID).map (fun _ => "pending")) ∧
    (t.Assignments ≠ [] →
      statesOf (written (Assign t tx w)) t.opID t.ID =
        (statesOf (seen tx w) t.opID t.ID).map (fun _ => "assigned")) := by
  rw [Assign_written t tx w h, assigneesOf_runAll_Assign, statesOf_runAll_Assign]
  constructor
  · intro hA
    simp [hA]
  · intro hA
    simp [hA]

/-- Instance of C6: the empty list given for the completed task t1. -/
theorem C6_Assign_empty_witness :
    (Assign exT1 none ⟨exTablesDone, []⟩).1 = Ret.nil ∧
    exT1.Assignments = [] ∧
    assigneesOf (written (Assign exT1 none ⟨exTablesDone, []⟩)) "op1" "t1" = [] ∧
    statesOf (written (Assign exT1 none ⟨exTablesDone, []⟩)) "op1" "t1" = ["pending"] :=
  ⟨by decide, by decide,
    ((C6_Assign_empty exT1 none ⟨exTablesDone, []⟩ (by decide)).1 (by decide)).1,
    by decide⟩

/-- Claim C7, as stated, fails: in tables where no task with an assignment row is pending, t1
is assigned to agent-A and agent-B; Reject(t1, agent-A) returns nil and leaves t1 pending while
the row of agent-B is still there. -/
theorem C7_counterexample :
    NoPendingAssigned exTablesDone ∧
    Reaches anyCall [Call.reject exT1 "agent-A"] exTablesDone
      (Reject exT1 "agent-A" ⟨exTablesDone, []⟩).2.db ∧
    ¬ NoPendingAssigned (Reject exT1 "agent-A" ⟨exTablesDone, []⟩).2.db := by
  refine ⟨by decide, ?_, by decide⟩
  exact Reaches.step _ _ _ _ _ trivial ⟨[], by decide, rfl⟩ (Reaches.done _)

/-- Claim C7, amended. From tables in which no task with an assignment row is pending, every
sequence of Assign, ClearAssignments, Claim, Acknowledge, Complete and Incomplete calls that
return nil, and of Reject(T, g) calls that return nil and are made when T has no assignment row
of an agent other than g, leads to tables in which no task with an assignment row is pending. -/
theorem C7_invariant (cs : List Call) (tb tb1 : Tables) (h0 : NoPendingAssigned tb)
    (hr : Reaches rejectByLastAssignee cs tb tb1) : NoPendingAssigned tb1 := by
  induction hr with
  | done tb => exact h0
  | step c cs tb tb1 tb2 hok hs _ ih =>
    apply ih
    rw [Call.succeeds_effect c tb tb1 hs]
    exact NoPendingAssigned_effect c tb hok h0

/-- Instance of C7: from the example tables, agent-A claims t1, t1 is completed, and agent-A,
its only assignee, rejects it; the invariant holds at the end. -/
theorem C7_invariant_witness :
    NoPendingAssigned exTables ∧
    Reaches rejectByLastAssignee
      [Call.claim exT1 "agent-A", Call.complete exT1, Call.reject exT1 "agent-A"] exTables
      (Reject exT1 "agent-A"
        ⟨(Complete exT1 ⟨(Claim exT1 "agent-A" ⟨exTables, []⟩).2.db, []⟩).2.db, []⟩).2.db ∧
    NoPendingAssigned (Reject exT1 "agent-A"
        ⟨(Complete exT1 ⟨(Claim exT1 "agent-A" ⟨exTables, []⟩).2.db, []⟩).2.db, []⟩).2.db :=
  have hr : Reaches rejectByLastAssignee
      [Call.claim exT1 "agent-A", Call.complete exT1, Call.reject exT1 "agent-A"] exTables
      (Reject exT1 "agent-A"
        ⟨(Complete exT1 ⟨(Claim exT1 "agent-A" ⟨exTables, []⟩).2.db, []⟩).2.db, []⟩).2.db :=
    Reaches.step _ _ _ _ _ trivial ⟨[], by decide, rfl⟩
      (Reaches.step _ _ _ _ _ trivial ⟨[], by decide, rfl⟩
        (Reaches.step _ _ _ _ _ (by unfold rejectByLastAssignee; decide) ⟨[], by decide, rfl⟩
          (Reaches.done _)))
  ⟨by decide, hr, C7_invariant _ _ _ (by decide) hr⟩

/-- Claim C8 at its failing inputs. Claim(t1, agent-A) on the pending task t1, the UPDATE
succeeding and the INSERT failing, returns the error and leaves t1 in state assigned with no
assignment row. Reject(t1, agent-A) on the completed task t1, the UPDATE succeeding and the
DELETE failing, returns the error and leaves t1 pending with every assignment row in place. -/
theorem C8_Claim_Reject_partial :
    (Claim exT1 "agent-A" ⟨exTables, [none, some "insert failed"]⟩).1 =
      Ret.err "insert failed" ∧
    stateOf exTables "op1" "t1" = some "pending" ∧
    stateOf (Claim exT1 "agent-A" ⟨exTables, [none, some "insert failed"]⟩).2.db "op1" "t1" =
      some "assigned" ∧
    assigneesOf (Claim exT1 "agent-A" ⟨exTables, [none, some "insert failed"]⟩).2.db
      "op1" "t1" = [] ∧
    (Reject exT1 "agent-A" ⟨exTablesDone, [none, some "delete failed"]⟩).1 =
      Ret.err "delete failed" ∧
    stateOf exTablesDone "op1" "t1" = some "completed" ∧
    stateOf (Reject exT1 "agent-A" ⟨exTablesDone, [none, some "delete failed"]⟩).2.db
      "op1" "t1" = some "pending" ∧
    (Reject exT1 "agent-A" ⟨exTablesDone, [none, some "delete failed"]⟩).2.db.assignments =
      exTablesDone.assignments := by
  decide

/-- Claim C9. SetDepends and Assign called with a nil tx, Begin having succeeded: when the
delete, an insert, a state update or the commit fails (e is the first failure among the
statements and the commit), the call returns e and the committed tables are those from before
the call. More generally a call with a nil tx that does not return nil leaves the committed
tables unchanged. The statements of SetDepends are one DELETE and one INSERT for each element
of d; those of Assign are listed by Assign.stmts. -/
theorem C9_own_transaction_atomic (t : Task) (d : List TaskID) (db : Tables) (fs : Faults)
    (e : StorageError) :
    (firstFault (d.length + 2) fs = some e →
      (SetDepends t d none ⟨db, none :: fs⟩).1 = Ret.err e ∧
      (SetDepends t d none ⟨db, none :: fs⟩).2.2.db = db) ∧
    (firstFault ((Assign.stmts t).length + 1) fs = some e →
      (Assign t none ⟨db, none :: fs⟩).1 = Ret.err e ∧
      (Assign t none ⟨db, none :: fs⟩).2.2.db = db) ∧
    ((SetDepends t d none ⟨db, fs⟩).1 ≠ Ret.nil → (SetDepends t d none ⟨db, fs⟩).2.2.db = db) ∧
    ((Assign t none ⟨db, fs⟩).1 ≠ Ret.nil → (Assign t none ⟨db, fs⟩).2.2.db = db) := by
  refine ⟨?_, ?_, ?_, ?_⟩
  · intro h
    rw [SetDepends_own]
    apply inOwnTx_fault
    rw [SetDepends_stmts_length]
    exact h
  · intro h
    rw [Assign_own]
    exact inOwnTx_fault _ _ _ _ h
  · intro h
    rw [SetDepends_own] at h ⊢
    exact inOwnTx_not_nil _ _ h
  · intro h
    rw [Assign_own] at h ⊢
    exact inOwnTx_not_nil _ _ h

/-- Instance of C9: SetDepends(t2, [t1, t3]) whose second INSERT fails, and Assign of two
agents to t1 whose commit fails; both return the error and the tables are unchanged. -/
theorem C9_own_transaction_atomic_witness :
    firstFault (["t1", "t3"].length + 2) [none, none, some "insert failed"] =
      some "insert failed" ∧
    (SetDepends exT2 ["t1", "t3"] none ⟨exTables, [none, none, none, some "insert failed"]⟩).1 =
      Ret.err "insert failed" ∧
    (SetDepends exT2 ["t1", "t3"] none
      ⟨exTables, [none, none, none, some "insert failed"]⟩).2.2.db = exTables ∧
    firstFault ((Assign.stmts exT1Two).length + 1)
      [none, none, none, none, none, some "commit failed"] = some "commit failed" ∧
    (Assign exT1Two none
      ⟨exTables, [none, none, none, none, none, none, some "commit failed"]⟩).1 =
      Ret.err "commit failed" ∧
    (Assign exT1Two none
      ⟨exTables, [none, none, none, none, none, none, some "commit failed"]⟩).2.2.db =
      exTables :=
  ⟨by decide,
    ((C9_own_transaction_atomic exT2 ["t1", "t3"] exTables [none, none, some "insert failed"]
      "insert failed").1 (by decide)).1,
    ((C9_own_transaction_atomic exT2 ["t1", "t3"] exTables [none, none, some "insert failed"]
      "insert failed").1 (by decide)).2,
    by decide,
    ((C9_own_transaction_atomic exT1Two [] exTables
      [none, none, none, none, none, some "commit failed"] "commit failed").2.1 (by decide)).1,
    ((C9_own_transaction_atomic exT1Two [] exTables
      [none, none, none, none, none, some "commit failed"] "commit failed").2.1 (by decide)).2⟩

/-- Claim C10, as stated, fails: reading the assignees of t1, the query succeeds and the Scan
of the first row fails; GetAssignments returns the other row with a nil error. In the same way
dependsPrecache returns an empty map and a nil error when the Scan of the only row fails. -/
theorem C10_counterexample :
    nextFault (List.tail [none, some "scan failed"]) = some "scan failed" ∧
    (GetAssignments exT1 ⟨exTablesDone, [none, some "scan failed"]⟩).1 = ["agent-B"] ∧
    (GetAssignments exT1 ⟨exTablesDone, [none, some "scan failed"]⟩).2.1 = none ∧
    (dependsPrecache "op1" ⟨exTablesDone, [none, some "scan failed"]⟩).1 = [] ∧
    (dependsPrecache "op1" ⟨exTablesDone, [none, some "scan failed"]⟩).2.1 = none := by
  decide

/-- Claim C10, amended. A failure of a statement or of the commit inside SetDepends and Assign
is returned (e is the first failure), in a transaction of their own whose Begin succeeded and
in an open transaction of the caller; a failure of the query inside GetAssignments and
dependsPrecache is returned; a row read that fails is not returned: once the query succeeded
both calls return a nil error whatever the row reads do, GetAssignments returns the assignees
of the rows whose read did not fail, in row order, and dependsPrecache the map built from the
dependency rows whose read did not fail. -/
theorem C10_failures_returned (t : Task) (d : List TaskID) (o : OperationID) (db tb : Tables)
    (fs : Faults) (e : StorageError) :
    (firstFault (d.length + 2) fs = some e →
      (SetDepends t d none ⟨db, none :: fs⟩).1 = Ret.err e) ∧
    (firstFault ((Assign.stmts t).length + 1) fs = some e →
      (Assign t none ⟨db, none :: fs⟩).1 = Ret.err e) ∧
    (firstFault (d.length + 1) fs = some e →
      (SetDepends t d (some ⟨tb, false⟩) ⟨db, fs⟩).1 = Ret.err e) ∧
    (firstFault (Assign.stmts t).length fs = some e →
      (Assign t (some ⟨tb, false⟩) ⟨db, fs⟩).1 = Ret.err e) ∧
    (t.ID ≠ "" → nextFault fs = some e → (GetAssignments t ⟨db, fs⟩).2.1 = some e) ∧
    (nextFault fs = some e → (dependsPrecache o ⟨db, fs⟩).2.1 = some e) ∧
    (nextFault fs = none →
      (GetAssignments t ⟨db, fs⟩).2.1 = none ∧ (dependsPrecache o ⟨db, fs⟩).2.1 = none) ∧
    (t.ID ≠ "" → nextFault fs = none →
      (GetAssignments t ⟨db, fs⟩).1 =
        scanned ((db.assignments.filter (fun r => r.opID == t.opID && r.taskID == t.ID)).map
          (fun r => r.gid)) fs.tail) ∧
    (nextFault fs = none →
      (dependsPrecache o ⟨db, fs⟩).1 =
        groupRows [] (scanned ((db.depends.filter (fun r => r.opID == o)).map
          (fun r => (r.taskID, r.dependsOn))) fs.tail) ∧
      ∀ k, (GoMap.get (dependsPrecache o ⟨db, fs⟩).1 k).getD [] =
        ((scanned ((db.depends.filter (fun r => r.opID == o)).map
          (fun r => (r.taskID, r.dependsOn))) fs.tail).filter (fun p => p.1 == k)).map
          (fun p => p.2)) := by
  refine ⟨?_, ?_, ?_, ?_, ?_, ?_, ?_, ?_, ?_⟩
  · intro h
    rw [SetDepends_own]
    apply (inOwnTx_fault _ _ _ _ _).1
    rw [SetDepends_stmts_length]
    exact h
  · intro h
    rw [Assign_own]
    exact (inOwnTx_fault _ _ _ _ h).1
  · intro h
    rw [SetDepends_caller, inCallerTx_ret, SetDepends_stmts_length]
    simp [h, Ret.ofError]
  · intro h
    rw [Assign_caller, inCallerTx_ret]
    simp [h, Ret.ofError]
  · intro hid h
    simp [GetAssignments, hid, h]
  · intro h
    simp [dependsPrecache, h]
  · intro h
    exact ⟨GetAssignments_query_ok t ⟨db, fs⟩ h, dependsPrecache_query_ok o ⟨db, fs⟩ h⟩
  · intro hid h
    simp [GetAssignments, hid, h, GetAssignments_rows_scanned]
  · intro h
    have h1 : (dependsPrecache o ⟨db, fs⟩).1 =
        groupRows [] (scanned ((db.depends.filter (fun r => r.opID == o)).map
          (fun r => (r.taskID, r.dependsOn))) fs.tail) := by
      simp [dependsPrecache, h, dependsPrecache_rows_scanned]
    refine ⟨h1, ?_⟩
    intro k
    rw [h1, groupRows_get]
    rfl

/-- Instance of C10: a failing DELETE inside SetDepends in the caller's transaction, a failing
query inside GetAssignments, and a query that succeeds followed by a failing read of the
first of two rows: GetAssignments returns the assignee of the second row, and dependsPrecache
the map of the second dependency row. -/
theorem C10_failures_returned_witness :
    firstFault (["t1"].length + 1) [some "delete failed"] = some "delete failed" ∧
    (SetDepends exT2 ["t1"] (some ⟨exTables, false⟩) ⟨exTables, [some "delete failed"]⟩).1 =
      Ret.err "delete failed" ∧
    exT2.ID ≠ "" ∧ nextFault [some "delete failed"] = some "delete failed" ∧
    (GetAssignments exT2 ⟨exTables, [some "delete failed"]⟩).2.1 = some "delete failed" ∧
    scanned ["agent-A", "agent-B"] [some "scan failed"] = ["agent-B"] ∧
    (GetAssignments exT1 ⟨exTablesDone, [none, some "scan failed"]⟩).1 =
      scanned ((exTablesDone.assignments.filter
        (fun r => r.opID == exT1.opID && r.taskID == exT1.ID)).map (fun r => r.gid))
        [some "scan failed"] ∧
    (GetAssignments exT1 ⟨exTablesDone, [none, some "scan failed"]⟩).1 = ["agent-B"] ∧
    (dependsPrecache "op1" ⟨exTablesTwoEdges, [none, some "scan failed"]⟩).1 =
      groupRows [] (scanned ((exTablesTwoEdges.depends.filter (fun r => r.opID == "op1")).map
        (fun r => (r.taskID, r.dependsOn))) [some "scan failed"]) ∧
    (dependsPrecache "op1" ⟨exTablesTwoEdges, [none, some "scan failed"]⟩).1 =
      [("t2", ["t1"])] :=
  ⟨by decide,
    (C10_failures_returned exT2 ["t1"] "op1" exTables exTables [some "delete failed"]
      "delete failed").2.2.1 (by decide),
    by decide, by decide,
    (C10_failures_returned exT2 ["t1"] "op1" exTables exTables [some "delete failed"]
      "delete failed").2.2.2.2.1 (by decide) (by decide),
    by decide,
    (C10_failures_returned exT1 [] "op1" exTablesDone exTables [none, some "scan failed"]
      "scan failed").2.2.2.2.2.2.2.1 (by decide) (by decide),
    by decide,
    ((C10_failures_returned exT1 [] "op1" exTablesTwoEdges exTables [none, some "scan failed"]
      "scan failed").2.2.2.2.2.2.2.2 (by decide)).1,
    by decide⟩

/-- Claim C11. When Acknowledge, Complete or Incomplete returns nil, every row of the task in
table task has state acknowledged, completed or assigned respectively, whatever its state was.
None of the three looks at the task before it writes: each returns nil as soon as its one
UPDATE does not fail. None adds or removes an assignment row, whether it returns nil or not. -/
theorem C11_state_calls (t : Task) (w : World) :
    ((Acknowledge t w).1 = Ret.nil →
      statesOf (Acknowledge t w).2.db t.opID t.ID =
        (statesOf w.db t.opID t.ID).map (fun _ => "acknowledged")) ∧
    ((Complete t w).1 = Ret.nil →
      statesOf (Complete t w).2.db t.opID t.ID =
        (statesOf w.db t.opID t.ID).map (fun _ => "completed")) ∧
    ((Incomplete t w).1 = Ret.nil →
      statesOf (Incomplete t w).2.db t.opID t.ID =
        (statesOf w.db t.opID t.ID).map (fun _ => "assigned")) ∧
    (nextFault w.faults = none →
      (Acknowledge t w).1 = Ret.nil ∧ (Complete t w).1 = Ret.nil ∧
      (Incomplete t w).1 = Ret.nil) ∧
    (Acknowledge t w).2.db.assignments = w.db.assignments ∧
    (Complete t w).2.db.assignments = w.db.assignments ∧
    (Incomplete t w).2.db.assignments = w.db.assignments := by
  refine ⟨?_, ?_, ?_, ?_, ?_, ?_, ?_⟩
  · intro h
    rw [Acknowledge_nil t w h, statesOf_updateState]
    simp
  · intro h
    rw [Complete_nil t w h, statesOf_updateState]
    simp
  · intro h
    rw [Incomplete_nil t w h, statesOf_updateState]
    simp
  · intro hf
    simp [Acknowledge, Complete, Incomplete, dbExec, hf]
  · have := (dbExec_updateState "acknowledged" t.ID t.opID w).2.1
    unfold Acknowledge
    split <;> simp_all
  · have := (dbExec_updateState "completed" t.ID t.opID w).2.1
    unfold Complete
    split <;> simp_all
  · have := (dbExec_updateState "assigned" t.ID t.opID w).2.1
    unfold Incomplete
    split <;> simp_all

/-- Instance of C11 on the tables where t1 is completed and assigned to two agents: each call
returns nil, t1 ends acknowledged, completed, assigned, and the assignment rows stay. -/
theorem C11_state_calls_witness :
    (Acknowledge exT1 ⟨exTablesDone, []⟩).1 = Ret.nil ∧
    stateOf (Acknowledge exT1 ⟨exTablesDone, []⟩).2.db "op1" "t1" = some "acknowledged" ∧
    statesOf (Acknowledge exT1 ⟨exTablesDone, []⟩).2.db exT1.opID exT1.ID =
      (statesOf exTablesDone exT1.opID exT1.ID).map (fun _ => "acknowledged") ∧
    stateOf (Complete exT1 ⟨exTablesDone, []⟩).2.db "op1" "t1" = some "completed" ∧
    stateOf (Incomplete exT1 ⟨exTablesDone, []⟩).2.db "op1" "t1" = some "assigned" ∧
    (Acknowledge exT1 ⟨exTablesDone, []⟩).2.db.assignments = exTablesDone.assignments :=
  ⟨by decide, by decide,
    (C11_state_calls exT1 ⟨exTablesDone, []⟩).1 (by decide),
    by decide, by decide,
    (C11_state_calls exT1 ⟨exTablesDone, []⟩).2.2.2.2.1⟩

/-- Claim C12. No call that changes the state or the assignments of a task changes table
depends: after Assign, ClearAssignments, Claim, Reject, Acknowledge, Complete or Incomplete,
whether the call returned nil, an error or panicked, the dependency rows are the rows from
before the call, in the committed tables and in the transaction the call ran in. -/
theorem C12_depends_untouched (t : Task) (g : GoogleID) (tx : Option Tx) (w : World)
    (fs : Faults) :
    (written (Assign t tx w)).depends = (seen tx w).depends ∧
    (Assign t tx w).2.2.db.depends = w.db.depends ∧
    (∀ tx1, (ClearAssignments t tx fs).2.1 = some tx1 →
      ∃ tx0, tx = some tx0 ∧ tx1.work.depends = tx0.work.depends) ∧
    (Claim t g w).2.db.depends = w.db.depends ∧
    (Reject t g w).2.db.depends = w.db.depends ∧
    (Acknowledge t w).2.db.depends = w.db.depends ∧
    (Complete t w).2.db.depends = w.db.depends ∧
    (Incomplete t w).2.db.depends = w.db.depends := by
  refine ⟨?_, ?_, ?_, ?_, ?_, ?_, ?_, ?_⟩
  · cases tx with
    | none =>
      rw [Assign_own]
      obtain ⟨h1, h2⟩ := inOwnTx_depends (Assign.stmts t) (Assign_stmts_depends t) w
      simp only [written, h1, seen]
      exact h2
    | some tx0 =>
      rw [Assign_caller]
      exact (inCallerTx_depends (Assign.stmts t) (Assign_stmts_depends t) tx0 w).1
  · cases tx with
    | none =>
      rw [Assign_own]
      exact (inOwnTx_depends (Assign.stmts t) (Assign_stmts_depends t) w).2
    | some tx0 =>
      rw [Assign_caller]
      exact (inCallerTx_depends (Assign.stmts t) (Assign_stmts_depends t) tx0 w).2
  · intro tx1 h1
    cases tx with
    | none => simp [ClearAssignments] at h1
    | some tx0 =>
      refine ⟨tx0, rfl, ?_⟩
      have hd := runStmts_depends (ClearAssignments.stmts t)
        (ClearAssignments_stmts_depends t) tx0 fs
      simp only [ClearAssignments, ClearAssignments_body_eq] at h1
      rcases hr : runStmts (ClearAssignments.stmts t) tx0 fs with ⟨_ | e, tx2, fs2⟩
      · rw [hr] at h1 hd
        simp only [Option.some.injEq] at h1
        rw [← h1]
        exact hd
      · rw [hr] at h1 hd
        simp only [Option.some.injEq] at h1
        rw [← h1]
        exact hd
  · unfold Claim
    rcases dbExec_cases (Stmt.updateState "assigned" t.ID t.opID) w with ⟨e, _, h1⟩ | ⟨_, h1⟩
    · simp [h1]
    · simp only [h1]
      rcases dbExec_cases (Stmt.insertAssignment t.opID t.ID g)
        ⟨(Stmt.updateState "assigned" t.ID t.opID).run w.db, w.faults.tail⟩ with
        ⟨e, _, h2⟩ | ⟨_, h2⟩
      · simp only [h2]
        rfl
      · simp only [h2]
        rfl
  · unfold Reject
    rcases dbExec_cases (Stmt.updateState "pending" t.ID t.opID) w with ⟨e, _, h1⟩ | ⟨_, h1⟩
    · simp [h1]
    · simp only [h1]
      rcases dbExec_cases (Stmt.deleteAssignment t.opID t.ID g)
        ⟨(Stmt.updateState "pending" t.ID t.opID).run w.db, w.faults.tail⟩ with
        ⟨e, _, h2⟩ | ⟨_, h2⟩
      · simp only [h2]
        rfl
      · simp only [h2]
        rfl
  · have := (dbExec_updateState "acknowledged" t.ID t.opID w).2.2
    unfold Acknowledge
    split <;> simp_all
  · have := (dbExec_updateState "completed" t.ID t.opID w).2.2
    unfold Complete
    split <;> simp_all
  · have := (dbExec_updateState "assigned" t.ID t.opID w).2.2
    unfold Incomplete
    split <;> simp_all

/-- Instance of C12: an Assign whose commit fails, and a Reject, on tables with two dependency
rows; the rows are the same afterwards. -/
theorem C12_depends_untouched_witness :
    (written (Assign exT1Two none ⟨exTables, []⟩)).depends = exTables.depends ∧
    (Reject exT1 "agent-A" ⟨exTables, []⟩).2.db.depends = exTables.depends ∧
    exTables.depends = [⟨"op1", "t2", "t0"⟩, ⟨"op2", "t2", "t7"⟩] :=
  ⟨(C12_depends_untouched exT1Two "agent-A" none ⟨exTables, []⟩ []).1,
    (C12_depends_untouched exT1 "agent-A" none ⟨exTables, []⟩ []).2.2.2.2.1, by decide⟩

/-- Claim C13. GetTask returns a nil error exactly when some marker or some link of the
operation has the id. It then returns the first marker with the id, and when no marker has it
the first link with the id. When no marker and no link has the id it returns the error
`task not found` with a pointer to an empty Task. The pointer is never nil, and the lookup is
a total function: it cannot panic. -/
theorem C13_GetTask (o : Operation) (taskID : TaskID) :
    ((GetTask o taskID).2 = none ↔
      (∃ m ∈ o.Markers, m.Task.ID = taskID) ∨ (∃ l ∈ o.Links, l.Task.ID = taskID)) ∧
    (∀ pre m post, o.Markers = pre ++ m :: post → m.Task.ID = taskID →
      (∀ x ∈ pre, x.Task.ID ≠ taskID) → GetTask o taskID = (some m.Task, none)) ∧
    (∀ pre l post, (∀ m ∈ o.Markers, m.Task.ID ≠ taskID) → o.Links = pre ++ l :: post →
      l.Task.ID = taskID → (∀ x ∈ pre, x.Task.ID ≠ taskID) →
      GetTask o taskID = (some l.Task, none)) ∧
    ((∀ m ∈ o.Markers, m.Task.ID ≠ taskID) → (∀ l ∈ o.Links, l.Task.ID ≠ taskID) →
      GetTask o taskID = (some emptyTask, some "task not found")) ∧
    (GetTask o taskID).1 ≠ none := by
  have hnone := firstTask_eq_none_iff (fun t => t.ID == taskID) o
  refine ⟨?_, ?_, ?_, ?_, ?_⟩
  · rw [GetTask_eq]
    cases hf : firstTask (fun t => t.ID == taskID) o with
    | some t =>
      simp only [true_iff]
      by_contra hcon
      have : firstTask (fun t => t.ID == taskID) o = none := by
        rw [hnone]
        constructor
        · intro m hm
          simp only [beq_eq_false_iff_ne, ne_eq]
          exact fun h => hcon (Or.inl ⟨m, hm, h⟩)
        · intro l hl
          simp only [beq_eq_false_iff_ne, ne_eq]
          exact fun h => hcon (Or.inr ⟨l, hl, h⟩)
      rw [hf] at this
      cases this
    | none =>
      rw [hnone] at hf
      constructor
      · intro h
        cases h
      · intro h
        exfalso
        rcases h with ⟨m, hm, h⟩ | ⟨l, hl, h⟩
        · simpa [h] using hf.1 m hm
        · simpa [h] using hf.2 l hl
  · intro pre m post ho hm hpre
    rw [GetTask_eq, firstTask_marker _ o pre post m ho (by simpa using hm)
      (fun x hx => by simpa using hpre x hx)]
  · intro pre l post hms ho hl hpre
    rw [GetTask_eq, firstTask_link _ o pre post l (fun m hm => by simpa using hms m hm) ho
      (by simpa using hl) (fun x hx => by simpa using hpre x hx)]
  · intro hms hls
    have : firstTask (fun t => t.ID == taskID) o = none := by
      rw [hnone]
      exact ⟨fun m hm => by simpa using hms m hm, fun l hl => by simpa using hls l hl⟩
    rw [GetTask_eq, this]
  · rw [GetTask_eq]
    cases firstTask (fun t => t.ID == taskID) o <;> simp

/-- Instance of C13 on the example operation: the id m3 is found on the marker, not on the
link of the same id; l2 is found among the links; an unknown id gives the error. -/
theorem C13_GetTask_witness :
    GetTask exOp "m3" = (some (exTask "m3" 2), none) ∧
    GetTask exOp "l2" = (some (exTask "l2" 3), none) ∧
    GetTask exOp "zz" = (some emptyTask, some "task not found") :=
  ⟨(C13_GetTask exOp "m3").2.1 [⟨exTask "m1" 1⟩, ⟨exTask "m2" 2⟩] ⟨exTask "m3" 2⟩ [] rfl
      (by decide) (by decide),
    (C13_GetTask exOp "l2").2.2.1 [⟨exTask "l1" 2⟩] ⟨exTask "l2" 3⟩ [⟨exTask "m3" 4⟩]
      (by decide) rfl (by decide) (by decide),
    (C13_GetTask exOp "zz").2.2.2.1 (by decide) (by decide)⟩

/-- Claim C14. GetTaskByStepNumber returns the first match only: the first marker, in list
order, whose Order is the step, whatever later markers and links share that order, and the
first link whose Order is the step only when no marker has that order. It returns the error
`task not found` exactly when no marker and no link has that order. -/
theorem C14_GetTaskByStepNumber (o : Operation) (step : Int) :
    (∀ pre m post, o.Markers = pre ++ m :: post → m.Task.Order = step →
      (∀ x ∈ pre, x.Task.Order ≠ step) → GetTaskByStepNumber o step = (some m.Task, none)) ∧
    (∀ pre l post, (∀ m ∈ o.Markers, m.Task.Order ≠ step) → o.Links = pre ++ l :: post →
      l.Task.Order = step → (∀ x ∈ pre, x.Task.Order ≠ step) →
      GetTaskByStepNumber o step = (some l.Task, none)) ∧
    ((GetTaskByStepNumber o step).2 = some "task not found" ↔
      (∀ m ∈ o.Markers, m.Task.Order ≠ step) ∧ (∀ l ∈ o.Links, l.Task.Order ≠ step)) ∧
    ((GetTaskByStepNumber o step).2 = none ∨
      (GetTaskByStepNumber o step).2 = some "task not found") := by
  have hnone := firstTask_eq_none_iff (fun t => t.Order == step) o
  refine ⟨?_, ?_, ?_, ?_⟩
  · intro pre m post ho hm hpre
    rw [GetTaskByStepNumber_eq, firstTask_marker _ o pre post m ho (by simpa using hm)
      (fun x hx => by simpa using hpre x hx)]
  · intro pre l post hms ho hl hpre
    rw [GetTaskByStepNumber_eq, firstTask_link _ o pre post l
      (fun m hm => by simpa using hms m hm) ho
      (by simpa using hl) (fun x hx => by simpa using hpre x hx)]
  · rw [GetTaskByStepNumber_eq]
    cases hf : firstTask (fun t => t.Order == step) o with
    | some t =>
      constructor
      · intro h
        cases h
      · intro hall
        have : firstTask (fun t => t.Order == step) o = none := by
          rw [hnone]
          exact ⟨fun m hm => by simpa using hall.1 m hm,
            fun l hl => by simpa using hall.2 l hl⟩
        rw [hf] at this
        cases this
    | none =>
      rw [hnone] at hf
      simp only [true_iff]
      exact ⟨fun m hm => by simpa using hf.1 m hm, fun l hl => by simpa using hf.2 l hl⟩
  · rw [GetTaskByStepNumber_eq]
    cases firstTask (fun t => t.Order == step) o <;> simp

/-- Instance of C14 on the example operation, where markers m2 and m3 and link l1 share order
2: the lookup of 2 returns m2; order 3 is found on link l2; order 9 gives the error. -/
theorem C14_GetTaskByStepNumber_witness :
    GetTaskByStepNumber exOp 2 = (some (exTask "m2" 2), none) ∧
    GetTaskByStepNumber exOp 3 = (some (exTask "l2" 3), none) ∧
    (GetTaskByStepNumber exOp 9).2 = some "task not found" :=
  ⟨(C14_GetTaskByStepNumber exOp 2).1 [⟨exTask "m1" 1⟩] ⟨exTask "m2" 2⟩ [⟨exTask "m3" 2⟩] rfl
      (by decide) (by decide),
    (C14_GetTaskByStepNumber exOp 3).2.1 [⟨exTask "l1" 2⟩] ⟨exTask "l2" 3⟩ [⟨exTask "m3" 4⟩]
      (by decide) rfl (by decide) (by decide),
    (C14_GetTaskByStepNumber exOp 9).2.2.1.mpr ⟨by decide, by decide⟩⟩

/-- Claim C15 at its failing inputs. After agent-A claimed t1 once IsAssignedTo answers true;
after agent-A claimed t1 a second time the task has two rows for agent-A and IsAssignedTo
answers false, because it compares the row count with 1. The same happens after an Assign
whose list names agent-A twice. -/
theorem C15_IsAssignedTo_twice :
    (Claim exT1 "agent-A" ⟨exTables, []⟩).1 = Ret.nil ∧
    (IsAssignedTo exT1 "agent-A" (Claim exT1 "agent-A" ⟨exTables, []⟩).2).1 = true ∧
    (Claim exT1 "agent-A" (Claim exT1 "agent-A" ⟨exTables, []⟩).2).1 = Ret.nil ∧
    assigneesOf exTablesTwice "op1" "t1" = ["agent-A", "agent-A"] ∧
    (IsAssignedTo exT1 "agent-A" ⟨exTablesTwice, []⟩).1 = false ∧
    (Assign exT1Dup none ⟨exTables, []⟩).1 = Ret.nil ∧
    assigneesOf (written (Assign exT1Dup none ⟨exTables, []⟩)) "op1" "t1" =
      ["agent-A", "agent-A"] ∧
    (IsAssignedTo exT1 "agent-A" ⟨written (Assign exT1Dup none ⟨exTables, []⟩), []⟩).1 =
      false := by
  decide

/-- Claim C16. Each of markerStatusChange, linkStatusChange, mapChange, agentLogin and
agentLocationChange, given an envelope with a team id, calls `c.Send` exactly once, with a
message whose topic is the team id as it stands and whose token is empty, and returns what
that send returns; given an envelope with an empty team id it returns an error and sends
nothing. -/
theorem C16_team_handlers (fb : FirebaseCmd) (w : FbWorld) :
    sendsOnceToTeam markerStatusChange fb w ∧
    sendsOnceToTeam linkStatusChange fb w ∧
    sendsOnceToTeam mapChange fb w ∧
    sendsOnceToTeam agentLogin fb w ∧
    sendsOnceToTeam agentLocationChange fb w := by
  refine ⟨?_, ?_, ?_, ?_, ?_⟩
  · exact sendsOnceToTeam_of_shape markerStatusChange
      (fun fb => [("opID", fb.OpID), ("markerID", fb.ObjID), ("msg", fb.Msg),
        ("cmd", fb.Cmd.text)])
      "only send status changes to teams" (fun _ _ => rfl) fb w
  · exact sendsOnceToTeam_of_shape linkStatusChange
      (fun fb => [("opID", fb.OpID), ("linkID", fb.ObjID), ("msg", fb.Msg),
        ("cmd", fb.Cmd.text)])
      "only send status changes to teams" (fun _ _ => rfl) fb w
  · exact sendsOnceToTeam_of_shape mapChange
      (fun fb => [("opID", fb.OpID), ("msg", fb.Msg), ("cmd", fb.Cmd.text)])
      "only send status changes to teams" (fun _ _ => rfl) fb w
  · exact sendsOnceToTeam_of_shape agentLogin
      (fun fb => [("gid", fb.Gid), ("msg", fb.Msg), ("cmd", fb.Cmd.text)])
      "only send status changes to teams" (fun _ _ => rfl) fb w
  · exact sendsOnceToTeam_of_shape agentLocationChange
      (fun fb => [("gid", fb.Gid), ("msg", fb.Msg), ("cmd", fb.Cmd.text)])
      "only send location changes to teams" (fun _ _ => rfl) fb w

/-- Scenario 3 of the specification as an instance of C16: the marker status change for team
T9 is one message to topic T9 with the fields of the envelope; without a team id the handler
returns its error and the log of sends stays empty. -/
theorem C16_team_handlers_witness :
    markerStatusChange exFbTeam exFbWorld =
      (Ret.nil, ⟨exFbWorld.tokens,
        [⟨⟨"", "T9", [("opID", "op1"), ("markerID", "m1"), ("msg", "done"),
          ("cmd", "marker-status-change")]⟩, true⟩], [], []⟩) ∧
    sendsOnceToTeam markerStatusChange exFbTeam exFbWorld ∧
    markerStatusChange exFbNoTarget exFbWorld =
      (Ret.err "only send status changes to teams", exFbWorld) :=
  ⟨by decide, (C16_team_handlers exFbTeam exFbWorld).1, by decide⟩

/-- Claim C17, as stated, fails: genericMessage, markerAssignmentChange and
linkAssignmentChange given an envelope with an empty agent id return nil, not an error. -/
theorem C17_counterexample :
    exFbNoTarget.Gid = "" ∧
    genericMessage exFbNoTarget exFbWorld = (Ret.nil, exFbWorld) ∧
    markerAssignmentChange exFbNoTarget exFbWorld = (Ret.nil, exFbWorld) ∧
    linkAssignmentChange exFbNoTarget exFbWorld = (Ret.nil, exFbWorld) ∧
    ¬ (∃ e, (genericMessage exFbNoTarget exFbWorld).1 = Ret.err e) := by
  refine ⟨by decide, by decide, by decide, by decide, ?_⟩
  rintro ⟨e, he⟩
  have h : (genericMessage exFbNoTarget exFbWorld).1 = Ret.nil := by decide
  rw [h] at he
  cases he

/-- Claim C17, amended. An envelope whose agent id is empty makes genericMessage,
markerAssignmentChange and linkAssignmentChange return nil at once: no token lookup, no send,
the state is left as it was. -/
theorem C17_no_agent_dropped (fb : FirebaseCmd) (w : FbWorld) (hg : fb.Gid = "") :
    genericMessage fb w = (Ret.nil, w) ∧
    markerAssignmentChange fb w = (Ret.nil, w) ∧
    linkAssignmentChange fb w = (Ret.nil, w) := by
  rw [genericMessage_eq, markerAssignmentChange_eq, linkAssignmentChange_eq]
  exact ⟨agentHandler_no_agent _ fb w hg, agentHandler_no_agent _ fb w hg,
    agentHandler_no_agent _ fb w hg⟩

/-- Instance of C17: the envelope without target, in a state whose next call would fail. -/
theorem C17_no_agent_dropped_witness :
    exFbNoTarget.Gid = "" ∧
    genericMessage exFbNoTarget ⟨exFbWorld.tokens, [], [], [some "lookup failed"]⟩ =
      (Ret.nil, ⟨exFbWorld.tokens, [], [], [some "lookup failed"]⟩) :=
  ⟨by decide,
    (C17_no_agent_dropped exFbNoTarget ⟨exFbWorld.tokens, [], [], [some "lookup failed"]⟩
      (by decide)).1⟩

/-- Claim C18, as stated, fails: agent-A holds tokA, a blank token and tokB; the lookup
succeeds and the send to tokA fails. genericMessage returns that error after the one call of
`c.Send`, and no send to the later non-blank token tokB is attempted. -/
theorem C18_counterexample :
    nonBlankTokens exFbWorld "agent-A" = ["tokA", "tokB"] ∧
    genericMessage exFbAgent ⟨exFbWorld.tokens, [], [], [none, some "send failed"]⟩ =
      (Ret.err "send failed",
        ⟨exFbWorld.tokens, [⟨genericMsg exFbAgent "tokA", false⟩], [], []⟩) ∧
    ¬ (∃ c ∈ (genericMessage exFbAgent
        ⟨exFbWorld.tokens, [], [], [none, some "send failed"]⟩).2.sends,
      c.msg.Token = "tokB") := by
  decide

/-- Claim C18, amended. In genericMessage, markerAssignmentChange and linkAssignmentChange the
first send that fails ends the fan-out: when the non-blank tokens of the agent are
pre ++ token :: post, the sends to pre succeed and the send to token fails with e, the handler
returns e, and the calls of `c.Send` it made are those for pre and the failing one; no send
is attempted to the tokens of post. -/
theorem C18_first_failure_aborts (fb : FirebaseCmd) (w : FbWorld) (pre post : List String)
    (token : String) (e : String) (hg : fb.Gid ≠ "") (hl : nextFault w.faults = none)
    (ht : nonBlankTokens w fb.Gid = pre ++ token :: post)
    (hpre : firstFault pre.length w.faults.tail = none)
    (hf : nextFault (w.faults.tail.drop pre.length) = some e) :
    ((genericMessage fb w).1 = Ret.err e ∧
      (genericMessage fb w).2.sends =
        w.sends ++ pre.map (fun x => ⟨genericMsg fb x, true⟩) ++
          [⟨genericMsg fb token, false⟩]) ∧
    ((markerAssignmentChange fb w).1 = Ret.err e ∧
      (markerAssignmentChange fb w).2.sends =
        w.sends ++ pre.map (fun x => ⟨markerAssignmentMsg fb x, true⟩) ++
          [⟨markerAssignmentMsg fb token, false⟩]) ∧
    ((linkAssignmentChange fb w).1 = Ret.err e ∧
      (linkAssignmentChange fb w).2.sends =
        w.sends ++ pre.map (fun x => ⟨linkAssignmentMsg fb x, true⟩) ++
          [⟨linkAssignmentMsg fb token, false⟩]) := by
  rw [genericMessage_eq, markerAssignmentChange_eq, linkAssignmentChange_eq]
  exact ⟨agentHandler_first_failure _ fb w pre post token e hg hl ht hpre hf,
    agentHandler_first_failure _ fb w pre post token e hg hl ht hpre hf,
    agentHandler_first_failure _ fb w pre post token e hg hl ht hpre hf⟩

/-- Instance of C18: the send to tokA, first token of agent-A, fails; tokB gets nothing. -/
theorem C18_first_failure_aborts_witness :
    (genericMessage exFbAgent
      ⟨exFbWorld.tokens, [], [], [none, some "send failed"]⟩).1 = Ret.err "send failed" ∧
    (genericMessage exFbAgent
      ⟨exFbWorld.tokens, [], [], [none, some "send failed"]⟩).2.sends =
      [⟨genericMsg exFbAgent "tokA", false⟩] :=
  (C18_first_failure_aborts exFbAgent ⟨exFbWorld.tokens, [], [], [none, some "send failed"]⟩
    [] ["tokB"] "tokA" "send failed" (by decide) (by decide) (by decide) (by decide)
    (by decide)).1

/-- Claim C19. For genericMessage, markerAssignmentChange and linkAssignmentChange, with an
agent id, a successful token lookup and no failing send: the handler returns nil and the calls
of `c.Send` it made are one for each non-blank token of the agent, in the order of the token
list, each with that token as address, no topic and the data of the envelope, which do not
depend on the token. No message goes to a blank token. An agent with no token gets none. -/
theorem C19_one_message_per_token (fb : FirebaseCmd) (w : FbWorld) (hg : fb.Gid ≠ "")
    (hl : nextFault w.faults = none)
    (hs : firstFault (nonBlankTokens w fb.Gid).length w.faults.tail = none) :
    ((genericMessage fb w).1 = Ret.nil ∧
      (genericMessage fb w).2.sends =
        w.sends ++ (nonBlankTokens w fb.Gid).map (fun token =>
          ⟨⟨token, "", [("msg", fb.Msg), ("cmd", fb.Cmd.text)]⟩, true⟩)) ∧
    ((markerAssignmentChange fb w).1 = Ret.nil ∧
      (markerAssignmentChange fb w).2.sends =
        w.sends ++ (nonBlankTokens w fb.Gid).map (fun token =>
          ⟨⟨token, "", [("opID", fb.OpID), ("markerID", fb.ObjID), ("msg", fb.Msg),
            ("cmd", fb.Cmd.text)]⟩, true⟩)) ∧
    ((linkAssignmentChange fb w).1 = Ret.nil ∧
      (linkAssignmentChange fb w).2.sends =
        w.sends ++ (nonBlankTokens w fb.Gid).map (fun token =>
          ⟨⟨token, "", [("opID", fb.OpID), ("linkID", fb.ObjID), ("msg", fb.Msg),
            ("cmd", fb.Cmd.text)]⟩, true⟩)) ∧
    (∀ token ∈ nonBlankTokens w fb.Gid, token ≠ "" ∧ token ∈ tokensOf w fb.Gid) ∧
    (∀ token ∈ tokensOf w fb.Gid, token ≠ "" → token ∈ nonBlankTokens w fb.Gid) := by
  rw [genericMessage_eq, markerAssignmentChange_eq, linkAssignmentChange_eq]
  refine ⟨agentHandler_all_ok genericMsg fb w hg hl hs,
    agentHandler_all_ok markerAssignmentMsg fb w hg hl hs,
    agentHandler_all_ok linkAssignmentMsg fb w hg hl hs, ?_, ?_⟩
  · intro token h
    simp only [nonBlankTokens, List.mem_filter, decide_eq_true_eq] at h
    exact ⟨h.2, h.1⟩
  · intro token h hne
    simp only [nonBlankTokens, List.mem_filter, decide_eq_true_eq]
    exact ⟨h, hne⟩

/-- Instance of C19: agent-A holds tokA, a blank token and tokB; the generic message goes to
tokA, then to tokB. Agent-C holds no token and gets no message. -/
theorem C19_one_message_per_token_witness :
    tokensOf exFbWorld "agent-A" = ["tokA", "", "tokB"] ∧
    (genericMessage exFbAgent exFbWorld).1 = Ret.nil ∧
    (genericMessage exFbAgent exFbWorld).2.sends =
      [⟨⟨"tokA", "", [("msg", "hello"), ("cmd", "generic-message")]⟩, true⟩,
       ⟨⟨"tokB", "", [("msg", "hello"), ("cmd", "generic-message")]⟩, true⟩] ∧
    (genericMessage ⟨.genericMessage, "", "", "", "agent-C", "hello"⟩ exFbWorld).2.sends = [] :=
  ⟨by decide,
    (C19_one_message_per_token exFbAgent exFbWorld (by decide) (by decide) (by decide)).1.1,
    (C19_one_message_per_token exFbAgent exFbWorld (by decide) (by decide) (by decide)).1.2,
    (C19_one_message_per_token ⟨.genericMessage, "", "", "", "agent-C", "hello"⟩ exFbWorld
      (by decide) (by decide) (by decide)).1.2⟩

/-- Claim C20. subscribeToTeam, for an agent and a team, after a successful token lookup, on a
response of the subscribe or unsubscribe call (every index of an error lies in the token list
handed to the call, and FailureCount is positive when there is an error): it returns nil; it
removes from the stored tokens of the agent the token at the index of every error and no
other token, so a reported token is no longer among the tokens of the agent and a token not
reported still is; the tokens of other agents are untouched. -/
theorem C20_subscribe_prunes (fb : FirebaseCmd) (r : TopicManagementResponse) (w : FbWorld)
    (hg : fb.Gid ≠ "") (ht : fb.TeamID ≠ "") (hl : nextFault w.faults = none)
    (hcount : r.Errors ≠ [] → 0 < r.FailureCount)
    (hidx : ∀ f ∈ r.Errors, 0 ≤ f.Index ∧ f.Index < (tokensOf w fb.Gid).length) :
    (subscribeToTeam fb (some r, none) w).1 = Ret.nil ∧
    tokensOf (subscribeToTeam fb (some r, none) w).2 fb.Gid =
      (tokensOf w fb.Gid).filter
        (fun x => !(reportedTokens (tokensOf w fb.Gid) r.Errors).contains x) ∧
    (∀ f ∈ r.Errors, ∀ token, (tokensOf w fb.Gid)[f.Index.toNat]? = some token →
      token ∉ tokensOf (subscribeToTeam fb (some r, none) w).2 fb.Gid) ∧
    (∀ token ∈ tokensOf w fb.Gid, token ∉ reportedTokens (tokensOf w fb.Gid) r.Errors →
      token ∈ tokensOf (subscribeToTeam fb (some r, none) w).2 fb.Gid) ∧
    (∀ gid, gid ≠ fb.Gid →
      tokensOf (subscribeToTeam fb (some r, none) w).2 gid = tokensOf w gid) := by
  obtain ⟨h1, h2⟩ := subscribeToTeam_response fb r w hg ht hl hcount hidx
  have hself : tokensOf (subscribeToTeam fb (some r, none) w).2 fb.Gid =
      (tokensOf w fb.Gid).filter
        (fun x => !(reportedTokens (tokensOf w fb.Gid) r.Errors).contains x) := by
    have := prune_tokens w.tokens fb.Gid fb.Gid (reportedTokens (tokensOf w fb.Gid) r.Errors)
    rw [if_pos rfl] at this
    simp only [tokensOf, h2] at this ⊢
    exact this
  refine ⟨h1, hself, ?_, ?_, ?_⟩
  · intro f hf token hget
    rw [hself]
    have hrep : token ∈ reportedTokens (tokensOf w fb.Gid) r.Errors := by
      simp only [reportedTokens, List.mem_filterMap]
      refine ⟨f, hf, ?_⟩
      have : ¬ f.Index < 0 := by
        have := (hidx f hf).1
        omega
      simp [this, hget]
    simp [List.mem_filter, hrep]
  · intro token hmem hnot
    rw [hself]
    simp [List.mem_filter, hmem, hnot]
  · intro gid hne
    have := prune_tokens w.tokens fb.Gid gid (reportedTokens (tokensOf w fb.Gid) r.Errors)
    rw [if_neg hne] at this
    simp only [tokensOf, h2] at this ⊢
    exact this

/-- Instance of C20: agent-A subscribes to T9 with the tokens tokA, blank and tokB; the
response reports the token at index 2, tokB, as failed. Afterwards agent-A holds tokA and the
blank token, and agent-B still holds tokC. -/
theorem C20_subscribe_prunes_witness :
    tokensOf exFbWorld "agent-A" = ["tokA", "", "tokB"] ∧
    (subscribeToTeam exFbSubscribe (some ⟨2, 1, [⟨2, "invalid-argument"⟩]⟩, none)
      exFbWorld).1 = Ret.nil ∧
    tokensOf (subscribeToTeam exFbSubscribe (some ⟨2, 1, [⟨2, "invalid-argument"⟩]⟩, none)
      exFbWorld).2 "agent-A" = ["tokA", ""] ∧
    tokensOf (subscribeToTeam exFbSubscribe (some ⟨2, 1, [⟨2, "invalid-argument"⟩]⟩, none)
      exFbWorld).2 "agent-B" = ["tokC"] :=
  ⟨by decide,
    (C20_subscribe_prunes exFbSubscribe ⟨2, 1, [⟨2, "invalid-argument"⟩]⟩ exFbWorld
      (by decide) (by decide) (by decide) (by decide) (by decide)).1,
    (C20_subscribe_prunes exFbSubscribe ⟨2, 1, [⟨2, "invalid-argument"⟩]⟩ exFbWorld
      (by decide) (by decide) (by decide) (by decide) (by decide)).2.1,
    (C20_subscribe_prunes exFbSubscribe ⟨2, 1, [⟨2, "invalid-argument"⟩]⟩ exFbWorld
      (by decide) (by decide) (by decide) (by decide) (by decide)).2.2.2.2 "agent-B"
      (by decide)⟩

/-- Claim C26. Reject makes no check that the assignment exists: when agent g has no
assignment row for task T and neither statement fails, Reject(T, g) returns nil, table
assignments is unchanged, and every row of T in table task has state pending. -/
theorem C26_Reject_unassigned (t : Task) (g : GoogleID) (w : World)
    (hg : g ∉ assigneesOf w.db t.opID t.ID) (hok : firstFault 2 w.faults = none) :
    (Reject t g w).1 = Ret.nil ∧
    (Reject t g w).2.db.assignments = w.db.assignments ∧
    statesOf (Reject t g w).2.db t.opID t.ID =
      (statesOf w.db t.opID t.ID).map (fun _ => "pending") := by
  have h1 : nextFault w.faults = none := by
    simp only [firstFault] at hok
    cases h : nextFault w.faults with
    | none => rfl
    | some e => simp [h] at hok
  have h2 : nextFault w.faults.tail = none := by
    simp only [firstFault, h1] at hok
    cases h : nextFault w.faults.tail with
    | none => rfl
    | some e => simp [h] at hok
  have hnil : (Reject t g w).1 = Ret.nil := by
    simp [Reject, dbExec, h1, h2]
  refine ⟨hnil, ?_, ?_⟩
  · rw [Reject_nil t g w hnil]
    simp only [Stmt.run]
    rw [List.filter_eq_self]
    intro r hr
    by_cases hk : r.opID = t.opID ∧ r.taskID = t.ID ∧ r.gid = g
    · exfalso
      apply hg
      simp only [assigneesOf, List.mem_map, List.mem_filter, Bool.and_eq_true, beq_iff_eq]
      exact ⟨r, ⟨hr, hk.1, hk.2.1⟩, hk.2.2⟩
    · simp only [Bool.not_eq_true', Bool.and_eq_false_iff, beq_eq_false_iff_ne, ne_eq]
      by_cases h3 : r.opID = t.opID
      · by_cases h4 : r.taskID = t.ID
        · right
          exact fun h5 => hk ⟨h3, h4, h5⟩
        · left
          right
          exact h4
      · left
        left
        exact h3
  · rw [Reject_nil t g w hnil, statesOf_deleteAssignment, statesOf_updateState]
    simp

/-- Instance of C26: agent-Z, who holds no row for the completed task t1, rejects it; the
three assignment rows stay and t1 ends pending. -/
theorem C26_Reject_unassigned_witness :
    "agent-Z" ∉ assigneesOf exTablesDone "op1" "t1" ∧
    (Reject exT1 "agent-Z" ⟨exTablesDone, []⟩).1 = Ret.nil ∧
    (Reject exT1 "agent-Z" ⟨exTablesDone, []⟩).2.db.assignments = exTablesDone.assignments ∧
    stateOf (Reject exT1 "agent-Z" ⟨exTablesDone, []⟩).2.db "op1" "t1" = some "pending" :=
  ⟨by decide,
    (C26_Reject_unassigned exT1 "agent-Z" ⟨exTablesDone, []⟩ (by decide) (by decide)).1,
    (C26_Reject_unassigned exT1 "agent-Z" ⟨exTablesDone, []⟩ (by decide) (by decide)).2.1,
    by decide⟩

/-- Claim C27. A call addressed to task (op, T) leaves every other pair of operation and task
id as it was: same assignment rows, same states, same dependency edges, for a task of the same
id in another operation and for another task of the same operation alike. This holds for
SetDepends, Assign, ClearAssignments, Claim, Reject, Acknowledge, Complete and Incomplete,
whatever the call returns, in the committed tables and in the transaction the call ran in. -/
theorem C27_other_tasks_untouched (t : Task) (d : List TaskID) (g : GoogleID) (tx : Option Tx)
    (w : World) (fs : Faults) :
    sameElsewhere t.opID t.ID (seen tx w) (written (SetDepends t d tx w)) ∧
    sameElsewhere t.opID t.ID w.db (SetDepends t d tx w).2.2.db ∧
    sameElsewhere t.opID t.ID (seen tx w) (written (Assign t tx w)) ∧
    sameElsewhere t.opID t.ID w.db (Assign t tx w).2.2.db ∧
    (∀ tx1, (ClearAssignments t tx fs).2.1 = some tx1 →
      ∃ tx0, tx = some tx0 ∧ sameElsewhere t.opID t.ID tx0.work tx1.work) ∧
    sameElsewhere t.opID t.ID w.db (Claim t g w).2.db ∧
    sameElsewhere t.opID t.ID w.db (Reject t g w).2.db ∧
    sameElsewhere t.opID t.ID w.db (Acknowledge t w).2.db ∧
    sameElsewhere t.opID t.ID w.db (Complete t w).2.db ∧
    sameElsewhere t.opID t.ID w.db (Incomplete t w).2.db := by
  refine ⟨?_, ?_, ?_, ?_, ?_, Claim_sameElsewhere t g w, Reject_sameElsewhere t g w,
    updateCall_sameElsewhere "acknowledged" t w, updateCall_sameElsewhere "completed" t w,
    updateCall_sameElsewhere "assigned" t w⟩
  · cases tx with
    | none =>
      rw [SetDepends_own]
      exact (inOwnTx_sameElsewhere _ _ _ (SetDepends_stmts_key t d) w).2
    | some tx0 =>
      rw [SetDepends_caller]
      exact (inCallerTx_sameElsewhere _ _ _ (SetDepends_stmts_key t d) tx0 w).2
  · cases tx with
    | none =>
      rw [SetDepends_own]
      exact (inOwnTx_sameElsewhere _ _ _ (SetDepends_stmts_key t d) w).1
    | some tx0 =>
      rw [SetDepends_caller]
      exact (inCallerTx_sameElsewhere _ _ _ (SetDepends_stmts_key t d) tx0 w).1
  · cases tx with
    | none =>
      rw [Assign_own]
      exact (inOwnTx_sameElsewhere _ _ _ (Assign_stmts_key t) w).2
    | some tx0 =>
      rw [Assign_caller]
      exact (inCallerTx_sameElsewhere _ _ _ (Assign_stmts_key t) tx0 w).2
  · cases tx with
    | none =>
      rw [Assign_own]
      exact (inOwnTx_sameElsewhere _ _ _ (Assign_stmts_key t) w).1
    | some tx0 =>
      rw [Assign_caller]
      exact (inCallerTx_sameElsewhere _ _ _ (Assign_stmts_key t) tx0 w).1
  · intro tx1 h1
    cases tx with
    | none => simp [ClearAssignments] at h1
    | some tx0 =>
      refine ⟨tx0, rfl, ?_⟩
      have hd := runStmts_sameElsewhere t.opID t.ID (ClearAssignments.stmts t)
        (ClearAssignments_stmts_key t) tx0 fs
      simp only [ClearAssignments, ClearAssignments_body_eq] at h1
      rcases hr : runStmts (ClearAssignments.stmts t) tx0 fs with ⟨_ | e, tx2, fs2⟩
      · rw [hr] at h1 hd
        simp only [Option.some.injEq] at h1
        rw [← h1]
        exact hd
      · rw [hr] at h1 hd
        simp only [Option.some.injEq] at h1
        rw [← h1]
        exact hd

/-- Instance of C27: SetDepends on task t2 of op1 leaves the edge of task t2 of op2, and
Reject on t1 leaves the assignee and the state of t2. -/
theorem C27_other_tasks_untouched_witness :
    dependsOf (written (SetDepends exT2 ["t1"] none ⟨exTables, []⟩)) "op2" "t2" =
      dependsOf exTables "op2" "t2" ∧
    dependsOf exTables "op2" "t2" = ["t7"] ∧
    assigneesOf (Reject exT1 "agent-A" ⟨exTablesDone, []⟩).2.db "op1" "t2" =
      assigneesOf exTablesDone "op1" "t2" ∧
    statesOf (Reject exT1 "agent-A" ⟨exTablesDone, []⟩).2.db "op1" "t2" =
      statesOf exTablesDone "op1" "t2" ∧
    statesOf exTablesDone "op1" "t2" = ["assigned"] :=
  ⟨((C27_other_tasks_untouched exT2 ["t1"] "agent-A" none ⟨exTables, []⟩ []).1
      "op2" "t2" (by decide)).2.2,
    by decide,
    ((C27_other_tasks_untouched exT1 [] "agent-A" none ⟨exTablesDone, []⟩ []).2.2.2.2.2.2.1
      "op1" "t2" (by decide)).1,
    ((C27_other_tasks_untouched exT1 [] "agent-A" none ⟨exTablesDone, []⟩ []).2.2.2.2.2.2.1
      "op1" "t2" (by decide)).2.1,
    by decide⟩

/-- Claim C23. Given a transaction of the caller, SetDepends and Assign run their statements
in it (the transaction returned is the caller's after the run of the statements, complete or
cut short by a failure), leave it open or closed as it was, and leave the committed tables
alone: no commit, no rollback. Given a nil tx and a successful Begin, with `ss` the statements
of the call: when no statement fails the call is the commit of the transaction holding the
effect of all of `ss`, and it returns what the commit returns; when a statement fails with e,
no commit is made, the call returns e and rolls back its transaction, still open at that
point, and the committed tables are those from before. -/
theorem C23_transaction_use (t : Task) (d : List TaskID) (tx0 : Tx) (db : Tables)
    (fs : Faults) :
    ((SetDepends t d (some tx0) ⟨db, fs⟩).2.1 =
        some (runStmts (SetDepends.stmts t d) tx0 fs).2.1 ∧
      (runStmts (SetDepends.stmts t d) tx0 fs).2.1.done = tx0.done ∧
      (SetDepends t d (some tx0) ⟨db, fs⟩).2.2.db = db) ∧
    ((Assign t (some tx0) ⟨db, fs⟩).2.1 = some (runStmts (Assign.stmts t) tx0 fs).2.1 ∧
      (runStmts (Assign.stmts t) tx0 fs).2.1.done = tx0.done ∧
      (Assign t (some tx0) ⟨db, fs⟩).2.2.db = db) ∧
    (firstFault (SetDepends.stmts t d).length fs = none →
      SetDepends t d none ⟨db, none :: fs⟩ =
        (Ret.ofError (txCommit ⟨runAll (SetDepends.stmts t d) db, false⟩
            ⟨db, fs.drop (SetDepends.stmts t d).length⟩).1, none,
          (txCommit ⟨runAll (SetDepends.stmts t d) db, false⟩
            ⟨db, fs.drop (SetDepends.stmts t d).length⟩).2.2)) ∧
    (firstFault (Assign.stmts t).length fs = none →
      Assign t none ⟨db, none :: fs⟩ =
        (Ret.ofError (txCommit ⟨runAll (Assign.stmts t) db, false⟩
            ⟨db, fs.drop (Assign.stmts t).length⟩).1, none,
          (txCommit ⟨runAll (Assign.stmts t) db, false⟩
            ⟨db, fs.drop (Assign.stmts t).length⟩).2.2)) ∧
    (∀ e, firstFault (SetDepends.stmts t d).length fs = some e →
      SetDepends t d none ⟨db, none :: fs⟩ =
        (Ret.err e, none,
          (txRollback (runStmts (SetDepends.stmts t d) ⟨db, false⟩ fs).2.1
            ⟨db, (runStmts (SetDepends.stmts t d) ⟨db, false⟩ fs).2.2⟩).2.2) ∧
      (runStmts (SetDepends.stmts t d) ⟨db, false⟩ fs).2.1.done = false ∧
      (SetDepends t d none ⟨db, none :: fs⟩).2.2.db = db) ∧
    (∀ e, firstFault (Assign.stmts t).length fs = some e →
      Assign t none ⟨db, none :: fs⟩ =
        (Ret.err e, none,
          (txRollback (runStmts (Assign.stmts t) ⟨db, false⟩ fs).2.1
            ⟨db, (runStmts (Assign.stmts t) ⟨db, false⟩ fs).2.2⟩).2.2) ∧
      (runStmts (Assign.stmts t) ⟨db, false⟩ fs).2.1.done = false ∧
      (Assign t none ⟨db, none :: fs⟩).2.2.db = db) := by
  refine ⟨?_, ?_, ?_, ?_, ?_, ?_⟩
  · rw [SetDepends_caller]
    exact inCallerTx_leaves_open _ tx0 ⟨db, fs⟩
  · rw [Assign_caller]
    exact inCallerTx_leaves_open _ tx0 ⟨db, fs⟩
  · intro h
    rw [SetDepends_own]
    exact inOwnTx_commits _ db fs h
  · intro h
    rw [Assign_own]
    exact inOwnTx_commits _ db fs h
  · intro e h
    rw [SetDepends_own]
    obtain ⟨h1, h2⟩ := inOwnTx_rolls_back _ db fs e h
    refine ⟨h1, h2, ?_⟩
    rw [h1]
    exact txRollback_db _ _
  · intro e h
    rw [Assign_own]
    obtain ⟨h1, h2⟩ := inOwnTx_rolls_back _ db fs e h
    refine ⟨h1, h2, ?_⟩
    rw [h1]
    exact txRollback_db _ _

/-- Instance of C23: SetDepends(t2, [t1]) in the caller's open transaction leaves it open with
the new edge and the committed tables untouched; with a nil tx it commits; with a nil tx and a
failing INSERT it returns the error and the committed tables are unchanged. -/
theorem C23_transaction_use_witness :
    (SetDepends exT2 ["t1"] (some ⟨exTables, false⟩) ⟨exTablesDone, []⟩).2.1 =
      some ⟨⟨[⟨"op2", "t2", "t7"⟩, ⟨"op1", "t2", "t1"⟩], exTables.assignments, exTables.task⟩,
        false⟩ ∧
    (SetDepends exT2 ["t1"] (some ⟨exTables, false⟩) ⟨exTablesDone, []⟩).2.2.db =
      exTablesDone ∧
    (SetDepends exT2 ["t1"] none ⟨exTables, []⟩).2.2.db.depends =
      [⟨"op2", "t2", "t7"⟩, ⟨"op1", "t2", "t1"⟩] ∧
    SetDepends exT2 ["t1"] none ⟨exTables, [none, none, some "insert failed"]⟩ =
      (Ret.err "insert failed", none, ⟨exTables, []⟩) :=
  ⟨by decide,
    (C23_transaction_use exT2 ["t1"] ⟨exTables, false⟩ exTablesDone []).1.2.2,
    by decide, by decide⟩

/-- Claim C24. With no storage failure dependsPrecache returns, with a nil error, a map whose
keys are exactly the task ids that occur in a row of the operation in table depends, each key
once; each key is mapped to the dependsOn values of its rows in row order; the lengths of the
lists sum to the number of rows of the operation. assignmentPrecache does the same with the
rows of the operation in table assignments and their gid values. -/
theorem C24_precache_maps (o : OperationID) (tb : Tables) :
    ((dependsPrecache o ⟨tb, []⟩).2.1 = none ∧
      (∀ k, k ∈ GoMap.keys (dependsPrecache o ⟨tb, []⟩).1 ↔
        ∃ r ∈ tb.depends, r.opID = o ∧ r.taskID = k) ∧
      (GoMap.keys (dependsPrecache o ⟨tb, []⟩).1).Nodup ∧
      (∀ k ∈ GoMap.keys (dependsPrecache o ⟨tb, []⟩).1,
        GoMap.get (dependsPrecache o ⟨tb, []⟩).1 k = some (dependsOf tb o k)) ∧
      GoMap.lengthSum (dependsPrecache o ⟨tb, []⟩).1 =
        (tb.depends.filter (fun r => r.opID == o)).length) ∧
    ((assignmentPrecache o ⟨tb, []⟩).2.1 = none ∧
      (∀ k, k ∈ GoMap.keys (assignmentPrecache o ⟨tb, []⟩).1 ↔
        ∃ r ∈ tb.assignments, r.opID = o ∧ r.taskID = k) ∧
      (GoMap.keys (assignmentPrecache o ⟨tb, []⟩).1).Nodup ∧
      (∀ k ∈ GoMap.keys (assignmentPrecache o ⟨tb, []⟩).1,
        GoMap.get (assignmentPrecache o ⟨tb, []⟩).1 k = some (assigneesOf tb o k)) ∧
      GoMap.lengthSum (assignmentPrecache o ⟨tb, []⟩).1 =
        (tb.assignments.filter (fun r => r.opID == o)).length) := by
  constructor
  · rw [dependsPrecache_group]
    obtain ⟨h1, h2, h3, h4⟩ := groupRows_spec
      ((tb.depends.filter (fun r => r.opID == o)).map (fun r => (r.taskID, r.dependsOn)))
    refine ⟨rfl, ?_, h2, ?_, ?_⟩
    · intro k
      rw [h1]
      simp only [List.mem_map, List.mem_filter, beq_iff_eq]
      constructor
      · rintro ⟨p, ⟨r, ⟨hr, ho⟩, rfl⟩, hk⟩
        exact ⟨r, hr, ho, hk⟩
      · rintro ⟨r, hr, ho, hk⟩
        exact ⟨_, ⟨r, ⟨hr, ho⟩, rfl⟩, hk⟩
    · intro k hk
      rw [h3 k hk, depends_sel_filter]
    · simpa using h4
  · rw [assignmentPrecache_group]
    obtain ⟨h1, h2, h3, h4⟩ := groupRows_spec
      ((tb.assignments.filter (fun r => r.opID == o)).map (fun r => (r.taskID, r.gid)))
    refine ⟨rfl, ?_, h2, ?_, ?_⟩
    · intro k
      rw [h1]
      simp only [List.mem_map, List.mem_filter, beq_iff_eq]
      constructor
      · rintro ⟨p, ⟨r, ⟨hr, ho⟩, rfl⟩, hk⟩
        exact ⟨r, hr, ho, hk⟩
      · rintro ⟨r, hr, ho, hk⟩
        exact ⟨_, ⟨r, ⟨hr, ho⟩, rfl⟩, hk⟩
    · intro k hk
      rw [h3 k hk, assignments_sel_filter]
    · simpa using h4

/-- Instance of C24 on the tables where t1 has two assignees and t2 one: the assignment map
of op1 has the keys t1 and t2, with two and one agents, three in all. -/
theorem C24_precache_maps_witness :
    (assignmentPrecache "op1" ⟨exTablesDone, []⟩).1 =
      [("t1", ["agent-A", "agent-B"]), ("t2", ["agent-A"])] ∧
    GoMap.lengthSum (assignmentPrecache "op1" ⟨exTablesDone, []⟩).1 =
      (exTablesDone.assignments.filter (fun r => r.opID == "op1")).length ∧
    (dependsPrecache "op1" ⟨exTables, []⟩).1 = [("t2", ["t0"])] :=
  ⟨by decide, (C24_precache_maps "op1" exTablesDone).2.2.2.2.2, by decide⟩

set_option maxRecDepth 20000 in
/-- Claim C25 at its failing input. For 300 updates, all processed without error, the loop of
WasabeeBot changes the endpoint right after the 100th, the 199th and the 298th update, not
after the 200th and the 300th: after a change the counter restarts at 1 and is incremented in
the same turn, so the next change comes 99 updates later. An update that fails is not
counted. -/
theorem C25_hook_rotation :
    WasabeeBot.changePoints 1 0 (List.replicate 300 true) = [100, 199, 298] ∧
    WasabeeBot.changePoints 1 0 (List.replicate 99 true ++ [false, false, true]) = [100] := by
  decide

/-- Claim C28 at its failing input. For the one-byte Accept-Language header `*` the language
selection of templateExecute does not fall back to `en`: the slice `[:2]` of the lower-cased
header is out of range and the handler panics; so it is for every header of a single ASCII
byte. For an empty header the language is `en`, and for an ASCII header of two bytes or more
it is the lower-cased first two bytes when the template set has that key and `en`
otherwise. -/
theorem C28_language_short_header :
    templateExecute.lang asciiLower [ascii "en", ascii "de"] (ascii "*") = none ∧
    (∀ (ts : List Bytes) (b : Nat), b < 128 →
      templateExecute.lang asciiLower ts [b] = none) ∧
    (∀ ts : List Bytes, templateExecute.lang asciiLower ts [] = some (ascii "en")) ∧
    (∀ (ts : List Bytes) (tmp : Bytes), (∀ c ∈ tmp, c < 128) → 2 ≤ tmp.length →
      templateExecute.lang asciiLower ts tmp =
        some (if (asciiLower tmp).take 2 ∈ ts then (asciiLower tmp).take 2 else ascii "en")) := by
  refine ⟨by decide, ?_, ?_, ?_⟩
  · intro ts b _
    simp [templateExecute.lang, asciiLower]
  · intro ts
    simp [templateExecute.lang]
  · intro ts tmp _ h
    have h1 : tmp ≠ [] := by
      intro h2
      rw [h2] at h
      simp at h
    have h2 : ¬ (asciiLower tmp).length < 2 := by
      simp only [asciiLower, List.length_map]
      omega
    simp only [templateExecute.lang, if_neg h1, if_neg h2]
    by_cases h3 : (asciiLower tmp).take 2 ∈ ts
    · simp [h3]
    · simp [h3]

/-- Claim C29 at its failing inputs. With the stored return target `/a` (shorter than `/me`)
or `/team` (five bytes, not starting with `/me`, shorter than `/login`) callbackRoute does not
compute a redirect location: a slice of the stored value is out of range and the handler
panics. Function googleRoute stores any non-empty `returnto` unchanged, so both values can be
stored. Without a stored value the location is `/me?a=0`; a stored `/me` or `/login/x` gives
`/me?postlogin=1`, and a stored `/teams/1` gives itself. -/
theorem C29_redirect_short_target :
    callbackRoute.location (some (googleRoute.loginReq (ascii "/a"))) = none ∧
    callbackRoute.location (some (googleRoute.loginReq (ascii "/team"))) = none ∧
    (∀ ret : Bytes, ret ≠ [] → googleRoute.loginReq ret = ret) ∧
    googleRoute.loginReq [] = me ∧
    callbackRoute.location none = some (ascii "/me?a=0") ∧
    callbackRoute.location (some (ascii "/me")) = some (ascii "/me?postlogin=1") ∧
    callbackRoute.location (some (ascii "/login/x")) = some (ascii "/me?postlogin=1") ∧
    callbackRoute.location (some (ascii "/teams/1")) = some (ascii "/teams/1") := by
  refine ⟨by decide, by decide, ?_, by decide, by decide, by decide, by decide, by decide⟩
  intro ret h
  simp [googleRoute.loginReq, h]

/-- Claim C30. For every content, the newline normalisation of SimpleDocument.Store yields a
body followed by one newline, where the body has no carriage return and neither begins nor
ends with a newline; normalising the result again returns it unchanged; and a content made
of newlines only, the empty content included, becomes the single newline. -/
theorem C30_newline_normalisation (content : Bytes) :
    (∃ body : Bytes, normalizeNewlines content = body ++ [10] ∧ 13 ∉ body ∧
      body.head? ≠ some 10 ∧ body.getLast? ≠ some 10) ∧
    normalizeNewlines (normalizeNewlines content) = normalizeNewlines content ∧
    ((∀ c ∈ content, c = 10) → normalizeNewlines content = [10]) := by
  have hcr : 13 ∉ trimNewlines (replaceCR (replaceCRLF content)) :=
    fun h => replaceCR_no_CR _ (trimNewlines_mem _ _ h)
  refine ⟨⟨_, rfl, hcr, trimNewlines_head _, trimNewlines_last _⟩, ?_, ?_⟩
  · have h13 : 13 ∉ normalizeNewlines content := by
      simp only [normalizeNewlines, List.mem_append, List.mem_singleton, not_or]
      exact ⟨hcr, by decide⟩
    rw [normalizeNewlines, replaceCRLF_id _ h13, replaceCR_id _ h13]
    rw [normalizeNewlines, trimNewlines_fixed _ (trimNewlines_head _) (trimNewlines_last _)]
  · intro h
    have h13 : 13 ∉ content := by
      intro h1
      have := h 13 h1
      omega
    rw [normalizeNewlines, replaceCRLF_id _ h13, replaceCR_id _ h13, trimNewlines_all _ h]
    rfl

/-- Claim C22. For every sequence of registrations and every envelope with a team target,
dispatch calls the topic send of each registered adapter exactly once, with the team id as
topic and the same envelope, and makes no other call; the failures the adapters return are
logged, one entry per failing adapter, and whatever they return every adapter is called and
dispatch itself does not fail. -/
theorem C22_dispatch_fan_out (regs : List (String × Adapter)) (cmd : FirebaseCommandCode)
    (team : TeamID) (obj msg : String) :
    (dispatch (registryOf regs) ⟨cmd, Target.team team, obj, msg⟩).1 = Ret.nil ∧
    (∀ name, name ∈ regs.map (fun p => p.1) →
      (dispatch (registryOf regs) ⟨cmd, Target.team team, obj, msg⟩).2.1.count
        (BusCall.sendTopic name team ⟨cmd, Target.team team, obj, msg⟩) = 1) ∧
    (∀ c ∈ (dispatch (registryOf regs) ⟨cmd, Target.team team, obj, msg⟩).2.1,
      ∃ name ∈ regs.map (fun p => p.1),
        c = BusCall.sendTopic name team ⟨cmd, Target.team team, obj, msg⟩) ∧
    (dispatch (registryOf regs) ⟨cmd, Target.team team, obj, msg⟩).2.1.length =
      (GoMap.keys (registryOf regs)).length ∧
    (dispatch (registryOf regs) ⟨cmd, Target.team team, obj, msg⟩).2.2 =
      (registryOf regs).filterMap (fun p =>
        (p.2.sendTopic team ⟨cmd, Target.team team, obj, msg⟩).map (fun err => (p.1, err))) := by
  have hk : ∀ name, name ∈ GoMap.keys (registryOf regs) ↔ name ∈ regs.map (fun p => p.1) := by
    intro name
    rw [registryOf, registryOf_foldl_keys]
    simp [GoMap.keys]
  have hn : (GoMap.keys (registryOf regs)).Nodup :=
    registryOf_foldl_nodup regs [] (by simp [GoMap.keys])
  have hinj : Function.Injective
      (fun name => BusCall.sendTopic name team ⟨cmd, Target.team team, obj, msg⟩) := by
    intro a b hab
    simp only [BusCall.sendTopic.injEq, and_true] at hab
    exact hab
  refine ⟨dispatch_ret _ _, ?_, ?_, ?_, dispatch_team_failures _ _ team rfl⟩
  · intro name hname
    rw [dispatch_team_calls _ _ team rfl, List.count_map_of_injective _ _ hinj]
    exact List.count_eq_one_of_mem hn ((hk name).2 hname)
  · intro c hc
    rw [dispatch_team_calls _ _ team rfl, List.mem_map] at hc
    obtain ⟨name, h1, h2⟩ := hc
    exact ⟨name, (hk name).1 h1, h2.symm⟩
  · rw [dispatch_team_calls _ _ team rfl, List.length_map]

/-- Claim C21, as stated, fails: agent-A may not send to agent-B (CanSendTo is false), and
agentFBMessageRoute hands the firebase message for agent-B to the messaging layer and
answers with status 200; the request is not refused. -/
theorem C21_counterexample :
    exAgentReq.getAgentID = Except.ok "agent-A" ∧
    exAgentReq.ToGid exAgentReq.id = Except.ok "agent-B" ∧
    exAgentReq.CanSendTo "agent-A" "agent-B" = false ∧
    agentFBMessageRoute exAgentReq =
      ([ResWrite.fprint Body.jsonStatusOK],
       [Sent.FirebaseGenericMessage "agent-B" "AgentA:hello"]) ∧
    statusOf (agentFBMessageRoute exAgentReq).1 = 200 :=
  ⟨rfl, rfl, rfl, by decide, by decide⟩

/-- Claim C21, amended. Function agentMessageRoute hands a message to the messaging layer
only for a sender and a recipient for which CanSendTo is true, and when CanSendTo is false
it refuses the request with status 403 and sends nothing. Function agentFBMessageRoute makes
no capability check: its result is the same whatever CanSendTo would answer, and a
well-formed request has its firebase message sent to the recipient. -/
theorem C21_capability_check (q : AgentReq) :
    (∀ s ∈ (agentMessageRoute q).2, ∃ gid togid message,
      q.getAgentID = Except.ok gid ∧ q.ToGid q.id = Except.ok togid ∧
      q.CanSendTo gid togid = true ∧ s = Sent.SendMessage togid message) ∧
    (∀ gid togid, q.getAgentID = Except.ok gid → q.ToGid q.id = Except.ok togid →
      q.CanSendTo gid togid = false →
      agentMessageRoute q =
        ([ResWrite.httpError
            (Body.jsonError "forbidden: only team owners can send to agents on the team") 403],
         []) ∧
      statusOf (agentMessageRoute q).1 = 403) ∧
    (∀ f : GoogleID → GoogleID → Bool,
      agentFBMessageRoute { q with CanSendTo := f } = agentFBMessageRoute q) ∧
    (∀ gid togid jBlob msg name toSend,
      q.getAgentID = Except.ok gid → q.ToGid q.id = Except.ok togid →
      q.contentTypeJSON = true → q.body = Except.ok jBlob → jBlob ≠ "" →
      q.unmarshalMsg jBlob = Except.ok msg → q.IngressName gid = (name, none) →
      q.marshalMsg ⟨name, msg.Message, msg.Date⟩ = Except.ok toSend →
      agentFBMessageRoute q =
        ([ResWrite.fprint Body.jsonStatusOK], [Sent.FirebaseGenericMessage togid toSend])) := by
  refine ⟨?_, ?_, fun _ => rfl, ?_⟩
  · intro s hs
    unfold agentMessageRoute at hs
    cases hg : q.getAgentID with
    | error err => simp [hg] at hs
    | ok gid =>
      cases ht : q.ToGid q.id with
      | error err => simp [hg, ht] at hs
      | ok togid =>
        cases hc : q.CanSendTo gid togid with
        | false => simp [hg, ht, hc] at hs
        | true =>
          simp only [hg, ht, hc] at hs
          refine ⟨gid, togid, if q.formM = "" then "This is a toast notification" else q.formM,
            rfl, rfl, hc, ?_⟩
          rcases hm : q.SendMessage togid
              (if q.formM = "" then "This is a toast notification" else q.formM) with
            ⟨ok, _ | err⟩
          · cases ok <;> simpa [hm] using hs
          · simpa [hm] using hs
  · intro gid togid hg ht hc
    have h : agentMessageRoute q =
        ([ResWrite.httpError
            (Body.jsonError "forbidden: only team owners can send to agents on the team") 403],
         []) := by
      unfold agentMessageRoute
      simp [hg, ht, hc]
    rw [h]
    exact ⟨rfl, rfl⟩
  · intro gid togid jBlob msg name toSend hg ht hj hb hne hu hi hm
    unfold agentFBMessageRoute
    simp [hg, ht, hj, hb, hne, hu, hi, hm]

/-- Instance of C21, amended: the request of agent-A for agent-B is refused by
agentMessageRoute with status 403 when CanSendTo is false and has its message sent when
CanSendTo is true; agentFBMessageRoute gives the same result in both cases. -/
theorem C21_capability_check_witness :
    agentMessageRoute exAgentReq =
      ([ResWrite.httpError
          (Body.jsonError "forbidden: only team owners can send to agents on the team") 403],
       []) ∧
    agentMessageRoute exAgentReqAllowed =
      ([ResWrite.fprint Body.jsonStatusOK], [Sent.SendMessage "agent-B" "hello"]) ∧
    agentFBMessageRoute exAgentReqAllowed = agentFBMessageRoute exAgentReq :=
  ⟨((C21_capability_check exAgentReq).2.1 "agent-A" "agent-B" rfl rfl rfl).1, by decide,
    (C21_capability_check exAgentReq).2.2.1 (fun _ _ => true)⟩

end Wasabee
